import Mathlib

/-!
# Workrave GUI: multi-head break-window lifecycle and grab controller

A shallow embedding of the window-array manager, the head registry, the
break/prelude lifecycle controller and the grab controller of
`ui/apps/gtkmm/src/GUI.cc`.

* C++ `int` is `Int` (no overflow is modelled).
* A raw array pointer is `Option (List _)`: `none` is `nullptr`, a list is an
  allocated array with its real length.  A slot of a window array is
  `Option Win`: `none` is `nullptr`.
* Undefined behaviour (reading or writing outside an array, dereferencing a
  null pointer, a negative array size) makes an operation return `none`.
* Calls into collaborators (window constructors and destructors, `stop()`,
  `start()`, `WindowHints::grab`, `Glib::signal_timeout`) are recorded, in
  order, in the effect log `GUI.log`.
* Everything the object reads from outside (display, configuration, the
  result of the next platform capture, the calls the heartbeat of a tick makes
  back into the object) is the record `Env`.
-/

namespace Workrave

/-- Identity of a window object (the value of a `PreludeWindow*` or `IBreakWindow*`). -/
abbrev Win := Nat

/-- Identity of a `WindowHints::Grab` handle. -/
abbrev Grab := Nat

/-- Identity of a `Glib::signal_timeout()` source. -/
abbrev TimerId := Nat

/-- The break identifiers of the core (`BreakId`). -/
inductive BreakId where
  | BREAK_ID_NONE
  | BREAK_ID_MICRO_BREAK
  | BREAK_ID_REST_BREAK
  | BREAK_ID_DAILY_LIMIT
  deriving DecidableEq

/-- The block modes of `GUIConfig::BlockMode`. -/
inductive BlockMode where
  | BLOCK_MODE_NONE
  | BLOCK_MODE_INPUT
  | BLOCK_MODE_ALL
  deriving DecidableEq

/-- A `Gdk::Rectangle`. -/
structure Rect where
  x : Int
  y : Int
  width : Int
  height : Int
  deriving DecidableEq

/-- The result flag of `Gdk::Rectangle::intersect` (`gdk_rectangle_intersect`):
the two rectangles share a region of positive width and height. -/
def Rect.intersect (a b : Rect) : Bool :=
  decide (max a.x b.x < min (a.x + a.width) (b.x + b.width)) &&
  decide (max a.y b.y < min (a.y + a.height) (b.y + b.height))

/-- One entry of the head array.  `screen` is the number of the screen the
`RefPtr` points to, `none` for a null `RefPtr`. -/
structure HeadInfo where
  screen : Option Nat
  monitor : Int
  count : Int
  valid : Bool
  geometry : Rect
  deriving DecidableEq

/-- The hint bits of a break request (`break_hint & BREAK_HINT_...`). -/
structure BreakHint where
  user_initiated : Bool
  natural_break : Bool
  deriving DecidableEq

/-- The flag set `BreakWindow::BreakFlags`, one field per flag bit. -/
structure BreakFlags where
  postponable : Bool
  skippable : Bool
  no_exercises : Bool
  natural : Bool
  user_initiated : Bool
  deriving DecidableEq

/-- The empty flag set `BREAK_FLAGS_NONE`. -/
def BREAK_FLAGS_NONE : BreakFlags :=
  { postponable := false, skippable := false, no_exercises := false,
    natural := false, user_initiated := false }

/-- The three concrete break windows `create_break_window` can construct. -/
inductive WindowKind where
  | MicroBreakWindow
  | RestBreakWindow
  | DailyLimitWindow
  deriving DecidableEq

/-- Calls into collaborators, in the order they are made. -/
inductive Effect where
  | new_prelude (w : Win) (head : HeadInfo) (id : BreakId)
  | new_break (kind : WindowKind) (w : Win) (head : HeadInfo) (flags : BreakFlags)
      (mode : BlockMode)
  | init_break (w : Win)
  | delete_prelude (w : Win)
  | delete_break (w : Win)
  | stop_prelude (w : Win)
  | stop_break (w : Win)
  | start_prelude (w : Win)
  | start_break (w : Win)
  | capture (windows : List Win) (result : Option Grab)
  | release (g : Grab)
  | timeout_connect (t : TimerId)
  | timeout_disconnect (t : TimerId)
  | relocate_window (width height : Int)
  | restore_mute
  deriving DecidableEq

/-- A call the core makes back into the object while `on_timer` runs
`core->heartbeat()`: the `IApp` operations that drive a break, and
`on_break_event` for an event whose sound is played with "mute after
playback" configured, which sets `muted`.  The fan-out operations
(`refresh_break_window`, `set_break_progress`, `set_prelude_stage`,
`set_prelude_progress_text`) change no member of the model. -/
inductive Callback where
  | set_muted
  | create_prelude_window (break_id : BreakId)
  | create_break_window (break_id : BreakId) (break_hint : BreakHint)
  | hide_break_window
  | show_break_window
  deriving DecidableEq

/-- What the object reads from outside during one operation. -/
structure Env where
  /-- The screens of the default display; `none` is a null screen pointer,
  otherwise the monitor rectangles of the screen. -/
  screens : List (Option (List Rect))
  gdk_screen_width : Int
  gdk_screen_height : Int
  /-- A default-constructed `HeadInfo` (an element of `new HeadInfo[n]`). -/
  new_head : HeadInfo
  block_mode : BlockMode
  break_ignorable : BreakId → Bool
  break_skippable : BreakId → Bool
  /-- The result of the next `WindowHints::grab`; `none` is a failed capture. -/
  grab_result : Option Grab
  is_user_active : Bool
  /-- The calls made back into the object during the heartbeat of one tick
  (`core->heartbeat()` up to `heartbeat_signal()`), in order. -/
  callbacks : List Callback

/-- The members of `GUI` used by the lifecycle manager, together with the
pending retry timers of the event loop, the allocation counters and the
effect log. -/
structure GUI where
  break_windows : Option (List (Option Win))
  prelude_windows : Option (List (Option Win))
  active_break_count : Int
  active_prelude_count : Int
  active_break_id : BreakId
  main_window : Bool
  break_window_destroy : Bool
  prelude_window_destroy : Bool
  heads : Option (List HeadInfo)
  num_heads : Int
  screen_width : Int
  screen_height : Int
  grab_wanted : Bool
  grab_handle : Option Grab
  /-- The `sigc::connection` member: the timer it was last assigned, if any. -/
  grab_retry_connection : Option TimerId
  muted : Bool
  /-- Timeout sources of `on_grab_retry_timer` that are still scheduled. -/
  timers : List TimerId
  next_timer : Nat
  next_win : Nat
  log : List Effect
  deriving DecidableEq

/-- The state set up by the constructor `GUI::GUI`. -/
def GUI.initial : GUI :=
  { break_windows := none, prelude_windows := none,
    active_break_count := 0, active_prelude_count := 0,
    active_break_id := BreakId.BREAK_ID_NONE, main_window := false,
    break_window_destroy := false, prelude_window_destroy := false,
    heads := none, num_heads := -1, screen_width := -1, screen_height := -1,
    grab_wanted := false, grab_handle := none, grab_retry_connection := none,
    muted := false, timers := [], next_timer := 0, next_win := 0, log := [] }

/-- Run `body 0`, ..., `body (n-1)` in this order: `for (int i = 0; i < n; i++)`. -/
def for_loop {σ : Type} (body : Nat → σ → Option σ) : Nat → σ → Option σ
  | 0, st => some st
  | n + 1, st => (for_loop body n st).bind (body n)

/-- Read `arr[i]`; undefined for a null array and outside the array. -/
def read {α : Type} (arr : Option (List α)) (i : Nat) : Option α :=
  arr.bind (fun l => l[i]?)

/-- Write `arr[i] = v`; undefined outside the array. -/
def write {α : Type} (arr : List α) (i : Nat) (v : α) : Option (List α) :=
  if i < arr.length then some (arr.set i v) else none

/-- The variables of the copy loop of `init_multihead_mem`: the two new arrays
and the effect log. -/
structure MemLoop where
  prelude_windows : List (Option Win)
  break_windows : List (Option Win)
  log : List Effect
  deriving DecidableEq

/-- The first half of the loop body of `init_multihead_mem`: fill slot `i` of
the new arrays. -/
def init_multihead_mem_copy (s : GUI) (new_num_heads : Int) (i : Nat) (st : MemLoop) :
    Option MemLoop :=
  if (i : Int) < new_num_heads then
    if (i : Int) < s.num_heads then
      (read s.prelude_windows i).bind fun p =>
      (read s.break_windows i).bind fun b =>
      (write st.prelude_windows i p).bind fun pw =>
      (write st.break_windows i b).bind fun bw =>
      some { st with prelude_windows := pw, break_windows := bw }
    else
      (write st.prelude_windows i none).bind fun pw =>
      (write st.break_windows i none).bind fun bw =>
      some { st with prelude_windows := pw, break_windows := bw }
  else some st

/-- The statement `if (old != nullptr && old[i] != nullptr) delete old[i];`. -/
def delete_old (old : Option (List (Option Win))) (i : Nat) (mk : Win → Effect)
    (log : List Effect) : Option (List Effect) :=
  match old with
  | none => some log
  | some l =>
    match l[i]? with
    | none => none
    | some none => some log
    | some (some w) => some (log ++ [mk w])

/-- The second half of the loop body of `init_multihead_mem`: destroy the
windows of a slot that no longer exists. -/
def init_multihead_mem_destroy (s : GUI) (new_num_heads : Int) (i : Nat) (st : MemLoop) :
    Option MemLoop :=
  if new_num_heads < s.num_heads ∧ new_num_heads ≤ (i : Int) then
    (delete_old s.prelude_windows i Effect.delete_prelude st.log).bind fun l1 =>
    (delete_old s.break_windows i Effect.delete_break l1).bind fun l2 =>
    some { st with log := l2 }
  else some st

/-- The loop body of `init_multihead_mem`. -/
def init_multihead_mem_body (s : GUI) (new_num_heads : Int) (i : Nat) (st : MemLoop) :
    Option MemLoop :=
  (init_multihead_mem_copy s new_num_heads i st).bind
    (init_multihead_mem_destroy s new_num_heads i)

/-- `GUI::init_multihead_mem`.  The freshly allocated window arrays are
uninitialised in the source; every one of their slots is written by the loop. -/
def init_multihead_mem (env : Env) (new_num_heads : Int) (s : GUI) : Option GUI :=
  if new_num_heads ≠ s.num_heads ∨ s.num_heads ≤ 0 then
    if new_num_heads < 0 then none
    else
      let max_heads := if new_num_heads > s.num_heads then new_num_heads else s.num_heads
      (for_loop (init_multihead_mem_body s new_num_heads) max_heads.toNat
        { prelude_windows := List.replicate new_num_heads.toNat none,
          break_windows := List.replicate new_num_heads.toNat none,
          log := s.log }).bind fun st =>
      some { s with
        heads := some (List.replicate new_num_heads.toNat env.new_head),
        prelude_windows := some st.prelude_windows,
        break_windows := some st.break_windows,
        active_prelude_count :=
          if s.active_prelude_count > new_num_heads then new_num_heads
          else s.active_prelude_count,
        active_break_count :=
          if s.active_break_count > new_num_heads then new_num_heads
          else s.active_break_count,
        num_heads := new_num_heads,
        log := st.log }
  else some s

/-- The variables of the loop of `init_multihead_desktop`; `done` records the
`break` statement. -/
structure DesktopLoop where
  width : Int
  height : Int
  done : Bool
  deriving DecidableEq

/-- The loop body of `init_multihead_desktop`. -/
def init_multihead_desktop_body (env : Env) (s : GUI) (i : Nat) (st : DesktopLoop) :
    Option DesktopLoop :=
  if st.done then some st
  else
    (read s.heads i).bind fun h =>
    if !h.valid then
      some { width := env.gdk_screen_width, height := env.gdk_screen_height, done := true }
    else
      let w := h.geometry.x + h.geometry.width
      let hh := h.geometry.y + h.geometry.height
      some { width := if w > st.width then w else st.width,
             height := if hh > st.height then hh else st.height,
             done := false }

/-- `GUI::init_multihead_desktop`. -/
def init_multihead_desktop (env : Env) (s : GUI) : Option GUI :=
  (for_loop (init_multihead_desktop_body env s) s.num_heads.toNat
    { width := 0, height := 0, done := false }).bind fun st =>
  if s.screen_width ≠ st.width ∨ s.screen_height ≠ st.height then
    some { s with
      log := if s.main_window then s.log ++ [Effect.relocate_window st.width st.height]
             else s.log,
      screen_width := st.width,
      screen_height := st.height }
  else some s

/-- The first loop of `init_gtk_multihead`: the sum of the monitor counts of
the non-null screens. -/
def count_monitors (screens : List (Option (List Rect))) : Int :=
  screens.foldl (fun n scr =>
    match scr with
    | none => n
    | some ms => n + (ms.length : Int)) 0

/-- The body of the loop over `k` in `init_gtk_multihead`; the loop condition
`!overlap` is the first test. -/
def overlap_body (heads : Option (List HeadInfo)) (i : Nat) (rect : Rect) (k : Nat)
    (overlap : Bool) : Option Bool :=
  if overlap then some true
  else
    (read heads k).bind fun h =>
    match h.screen with
    | none => none
    | some n => if n = i then some (rect.intersect h.geometry) else some false

/-- The variables of the enumeration loops of `init_gtk_multihead`. -/
structure HeadLoop where
  heads : Option (List HeadInfo)
  count : Int
  deriving DecidableEq

/-- The body of the loop over the monitors `j` of screen `i`; the loop
condition `count < new_num_heads` is the first test (`count` never
decreases). -/
def monitor_body (new_num_heads : Int) (i : Nat) (monitors : List Rect) (j : Nat)
    (st : HeadLoop) : Option HeadLoop :=
  if st.count < new_num_heads then
    monitors[j]?.bind fun rect =>
    (for_loop (overlap_body st.heads i rect) st.count.toNat false).bind fun overlap =>
    if !overlap then
      st.heads.bind fun hs =>
      (write hs st.count.toNat
        { screen := some i, monitor := (j : Int), valid := true, count := st.count,
          geometry := rect }).bind fun hs1 =>
      some { heads := some hs1, count := st.count + 1 }
    else some st
  else some st

/-- The body of the loop over the screens `i` that fills the head array. -/
def screen_body (screens : List (Option (List Rect))) (new_num_heads : Int) (i : Nat)
    (st : HeadLoop) : Option HeadLoop :=
  screens[i]?.bind fun scr =>
  match scr with
  | none => some st
  | some monitors => for_loop (monitor_body new_num_heads i monitors) monitors.length st

/-- `GUI::init_gtk_multihead`. -/
def init_gtk_multihead (env : Env) (s : GUI) : Option GUI :=
  let num_screens := env.screens.length
  if num_screens ≥ 1 then
    let new_num_heads := count_monitors env.screens
    (init_multihead_mem env new_num_heads s).bind fun s1 =>
    (for_loop (screen_body env.screens new_num_heads) num_screens
      { heads := s1.heads, count := 0 }).bind fun st =>
    some { s1 with heads := st.heads, num_heads := st.count }
  else some s

/-- The assignments to `heads[0]` in `init_multihead`. -/
def fallback_head (env : Env) (h : HeadInfo) : HeadInfo :=
  { h with
    valid := false,
    count := 0,
    geometry := { x := 0, y := 0, width := env.gdk_screen_width,
                  height := env.gdk_screen_height } }

/-- `GUI::init_multihead`. -/
def init_multihead (env : Env) (s : GUI) : Option GUI :=
  (init_gtk_multihead env s).bind fun s1 =>
  (if s1.num_heads = -1 then
    (init_multihead_mem env 1 s1).bind fun s2 =>
    (read s2.heads 0).bind fun h =>
    s2.heads.bind fun hs =>
    (write hs 0 (fallback_head env h)).bind fun hs1 =>
    some { s2 with heads := some hs1 }
  else some s1).bind fun s3 =>
  init_multihead_desktop env s3

/-- The body of the loops `if (windows[i] != nullptr) windows[i]->f();` over
the active slots; `mk` names the call. -/
def call_body (arr : Option (List (Option Win))) (mk : Win → Effect) (i : Nat)
    (log : List Effect) : Option (List Effect) :=
  (read arr i).bind fun slot =>
  match slot with
  | none => some log
  | some w => some (log ++ [mk w])

/-- Whether `grab_retry_connection.connected()`: the connection was assigned a
timer and that timer is still scheduled. -/
def connected (s : GUI) : Bool :=
  match s.grab_retry_connection with
  | none => false
  | some t => decide (t ∈ s.timers)

/-- The call `grab_retry_connection.disconnect()`: a connected timer is taken
off the schedule. -/
def disconnect (s : GUI) : GUI :=
  match s.grab_retry_connection with
  | none => s
  | some t =>
    if t ∈ s.timers then
      { s with timers := s.timers.filter (fun x => decide (x ≠ t)),
               log := s.log ++ [Effect.timeout_disconnect t] }
    else s

/-- `GUI::ungrab` (with `PLATFORM_OS_UNIX`). -/
def ungrab (s : GUI) : GUI :=
  let s1 := { s with grab_wanted := false }
  match s1.grab_handle with
  | some g =>
    let s2 := disconnect s1
    { s2 with log := s2.log ++ [Effect.release g], grab_handle := none }
  | none => s1

/-- `GUI::hide_break_window`. -/
def hide_break_window (s : GUI) : Option GUI :=
  let s0 := { s with active_break_id := BreakId.BREAK_ID_NONE }
  (for_loop (call_body s0.prelude_windows Effect.stop_prelude)
    s0.active_prelude_count.toNat s0.log).bind fun log1 =>
  let s1 := { s0 with log := log1 }
  let s2 := if s1.active_prelude_count > 0 then { s1 with prelude_window_destroy := true }
            else s1
  (for_loop (call_body s2.break_windows Effect.stop_break)
    s2.active_break_count.toNat s2.log).bind fun log2 =>
  let s3 := { s2 with log := log2 }
  let s4 := if s3.active_break_count > 0 then { s3 with break_window_destroy := true }
            else s3
  some (ungrab s4)

/-- The variables of a destroy loop of `collect_garbage`. -/
structure GarbageLoop where
  windows : List (Option Win)
  log : List Effect
  deriving DecidableEq

/-- The body of a destroy loop of `collect_garbage`:
`if (windows[i] != nullptr) { delete windows[i]; windows[i] = nullptr; }`. -/
def collect_body (mk : Win → Effect) (i : Nat) (st : GarbageLoop) : Option GarbageLoop :=
  match st.windows[i]? with
  | none => none
  | some none => some st
  | some (some w) => some { windows := st.windows.set i none, log := st.log ++ [mk w] }

/-- The prelude half of `collect_garbage`. -/
def collect_garbage_prelude (s : GUI) : Option GUI :=
  if s.prelude_window_destroy then
    (match s.prelude_windows with
     | some arr =>
       (for_loop (collect_body Effect.delete_prelude) s.active_prelude_count.toNat
         { windows := arr, log := s.log }).bind fun st =>
       some { s with prelude_windows := some st.windows, log := st.log }
     | none => some s).bind fun s1 =>
    some { s1 with prelude_window_destroy := false, active_prelude_count := 0 }
  else some s

/-- The break half of `collect_garbage`. -/
def collect_garbage_break (s : GUI) : Option GUI :=
  if s.break_window_destroy then
    (match s.break_windows with
     | some arr =>
       (for_loop (collect_body Effect.delete_break) s.active_break_count.toNat
         { windows := arr, log := s.log }).bind fun st =>
       some { s with break_windows := some st.windows, log := st.log }
     | none => some s).bind fun s1 =>
    some { s1 with break_window_destroy := false, active_break_count := 0 }
  else some s

/-- `GUI::collect_garbage`. -/
def collect_garbage (s : GUI) : Option GUI :=
  (collect_garbage_prelude s).bind collect_garbage_break

/-- The body of the handle collection loop of `grab`:
`windows[i] = break_windows[i]->get_gdk_window()->gobj()`.  The native window
of a break window is identified with the window; an empty slot is a null
dereference. -/
def grab_body (arr : Option (List (Option Win))) (i : Nat) (ws : List Win) :
    Option (List Win) :=
  (read arr i).bind fun slot =>
  match slot with
  | none => none
  | some w => some (ws ++ [w])

/-- `GUI::grab` (with `PLATFORM_OS_UNIX`): the returned flag and the new state. -/
def grab (env : Env) (s : GUI) : Option (Bool × GUI) :=
  (if s.break_windows ≠ none ∧ s.active_break_count > 0 then
    (for_loop (grab_body s.break_windows) s.active_break_count.toNat []).bind fun windows =>
    let s1 := { s with grab_wanted := true }
    match s1.grab_handle with
    | some _ => some s1
    | none =>
      let s2 := { s1 with
        grab_handle := env.grab_result,
        log := s1.log ++ [Effect.capture windows env.grab_result] }
      if s2.grab_handle = none ∧ connected s2 = false then
        some { s2 with
          grab_retry_connection := some s2.next_timer,
          timers := s2.timers ++ [s2.next_timer],
          next_timer := s2.next_timer + 1,
          log := s2.log ++ [Effect.timeout_connect s2.next_timer] }
      else some s2
  else some s).bind fun s3 =>
  some (decide (s3.grab_handle ≠ none), s3)

/-- `GUI::interrupt_grab` (with `PLATFORM_OS_UNIX`).  The connection returned
by `Glib::signal_timeout().connect` is not stored. -/
def interrupt_grab (s : GUI) : GUI :=
  match s.grab_handle with
  | some g =>
    let s1 := { s with
      grab_wanted := true,
      log := s.log ++ [Effect.release g],
      grab_handle := none }
    if connected s1 = false then
      { s1 with
        timers := s1.timers ++ [s1.next_timer],
        next_timer := s1.next_timer + 1,
        log := s1.log ++ [Effect.timeout_connect s1.next_timer] }
    else s1
  | none => s

/-- `GUI::on_grab_retry_timer`: the returned flag and the new state. -/
def on_grab_retry_timer (env : Env) (s : GUI) : Option (Bool × GUI) :=
  if s.grab_wanted then
    (grab env s).bind fun r => some (!r.1, r.2)
  else some (false, s)

/-- The event loop runs the scheduled timeout `t`: it calls
`on_grab_retry_timer` and removes the source when the callback returns
false.  There is no such event (`none`) when `t` is not scheduled. -/
def fire_grab_retry_timer (env : Env) (t : TimerId) (s : GUI) : Option GUI :=
  if t ∈ s.timers then
    (on_grab_retry_timer env s).bind fun r =>
    some (if r.1 then r.2
          else { r.2 with timers := r.2.timers.filter (fun x => decide (x ≠ t)) })
  else none

/-- `GUI::show_break_window`. -/
def show_break_window (env : Env) (s : GUI) : Option GUI :=
  (for_loop (call_body s.prelude_windows Effect.start_prelude)
    s.active_prelude_count.toNat s.log).bind fun log1 =>
  (for_loop (call_body s.break_windows Effect.start_break)
    s.active_break_count.toNat log1).bind fun log2 =>
  let s1 := { s with log := log2 }
  if env.block_mode ≠ BlockMode.BLOCK_MODE_NONE then
    (grab env s1).bind fun r => some r.2
  else some s1

/-- The variables of the creation loops: the window array being filled, the
allocation counter and the log. -/
structure CreateLoop where
  windows : Option (List (Option Win))
  next_win : Nat
  log : List Effect
  deriving DecidableEq

/-- The loop body of `create_prelude_window`:
`prelude_windows[i] = new PreludeWindow(heads[i], break_id)`. -/
def create_prelude_body (heads : Option (List HeadInfo)) (break_id : BreakId) (i : Nat)
    (st : CreateLoop) : Option CreateLoop :=
  (read heads i).bind fun h =>
  st.windows.bind fun arr =>
  (write arr i (some st.next_win)).bind fun arr1 =>
  some { windows := some arr1, next_win := st.next_win + 1,
         log := st.log ++ [Effect.new_prelude st.next_win h break_id] }

/-- `GUI::create_prelude_window`. -/
def create_prelude_window (env : Env) (break_id : BreakId) (s : GUI) : Option GUI :=
  (hide_break_window s).bind fun s1 =>
  (init_multihead env s1).bind fun s2 =>
  (collect_garbage s2).bind fun s3 =>
  let s4 := { s3 with active_break_id := break_id }
  (for_loop (create_prelude_body s4.heads break_id) s4.num_heads.toNat
    { windows := s4.prelude_windows, next_win := s4.next_win, log := s4.log }).bind fun st =>
  some { s4 with
    prelude_windows := st.windows, next_win := st.next_win, log := st.log,
    active_prelude_count := s4.num_heads }

/-- The window variant chosen by `GUI::create_break_window(HeadInfo&, BreakId,
BreakFlags)`; `none` is the null pointer returned for any other identifier. -/
def window_kind (break_id : BreakId) : Option WindowKind :=
  if break_id = BreakId.BREAK_ID_MICRO_BREAK then some WindowKind.MicroBreakWindow
  else if break_id = BreakId.BREAK_ID_REST_BREAK then some WindowKind.RestBreakWindow
  else if break_id = BreakId.BREAK_ID_DAILY_LIMIT then some WindowKind.DailyLimitWindow
  else none

/-- The flag set computed by `GUI::create_break_window(BreakId, BreakHint)`. -/
def break_flags (env : Env) (break_id : BreakId) (break_hint : BreakHint) : BreakFlags :=
  let ignorable := env.break_ignorable break_id
  let skippable := env.break_skippable break_id
  let f0 := BREAK_FLAGS_NONE
  let f1 :=
    if break_hint.user_initiated then
      let g := { f0 with postponable := true, user_initiated := true }
      if skippable then { g with skippable := true } else g
    else
      let g := if ignorable then { f0 with postponable := true } else f0
      if skippable then { g with skippable := true } else g
  if break_hint.natural_break then
    { f1 with no_exercises := true, natural := true, postponable := true }
  else f1

/-- The loop body of `create_break_window`: construct the window for head `i`,
store it in the slot and call `init()` on it (a null dereference when no
window was constructed). -/
def create_break_body (env : Env) (heads : Option (List HeadInfo)) (break_id : BreakId)
    (flags : BreakFlags) (i : Nat) (st : CreateLoop) : Option CreateLoop :=
  (read heads i).bind fun h =>
  st.windows.bind fun arr =>
  match window_kind break_id with
  | some kind =>
    (write arr i (some st.next_win)).bind fun arr1 =>
    some { windows := some arr1, next_win := st.next_win + 1,
           log := st.log ++ [Effect.new_break kind st.next_win h flags env.block_mode,
                             Effect.init_break st.next_win] }
  | none => none

/-- `GUI::create_break_window(BreakId, BreakHint)`. -/
def create_break_window (env : Env) (break_id : BreakId) (break_hint : BreakHint) (s : GUI) :
    Option GUI :=
  (hide_break_window s).bind fun s1 =>
  (init_multihead env s1).bind fun s2 =>
  (collect_garbage s2).bind fun s3 =>
  let flags := break_flags env break_id break_hint
  let s4 := { s3 with active_break_id := break_id }
  (for_loop (create_break_body env s4.heads break_id flags) s4.num_heads.toNat
    { windows := s4.break_windows, next_win := s4.next_win, log := s4.log }).bind fun st =>
  some { s4 with
    break_windows := st.windows, next_win := st.next_win, log := st.log,
    active_break_count := s4.num_heads }

/-- One call back into the object; `set_muted` is the assignment
`muted = true` of `on_break_event`. -/
def callback (env : Env) (cb : Callback) (s : GUI) : Option GUI :=
  match cb with
  | Callback.set_muted => some { s with muted := true }
  | Callback.create_prelude_window break_id => create_prelude_window env break_id s
  | Callback.create_break_window break_id break_hint =>
    create_break_window env break_id break_hint s
  | Callback.hide_break_window => hide_break_window s
  | Callback.show_break_window => show_break_window env s

/-- The heartbeat of one tick, seen from this object: the calls
`core->heartbeat()` (and the listeners of `heartbeat_signal`) make back into
it, in order.  The tooltip and the applet and status icon updates do not touch
the members of the model. -/
def core_heartbeat (env : Env) : List Callback → GUI → Option GUI
  | [], s => some s
  | cb :: rest, s => (callback env cb s).bind (core_heartbeat env rest)

/-- `GUI::on_timer`: the heartbeat, `main_window->update()` (a null
dereference before `init_gui`, which creates `applet_control` and
`status_icon` together with the main window), the garbage collection and the
un-muting; the returned flag and the new state.  `get_timers_tooltip()` only
reads the core. -/
def on_timer (env : Env) (s : GUI) : Option (Bool × GUI) :=
  (core_heartbeat env env.callbacks s).bind fun s0 =>
  if s0.main_window then
    (collect_garbage s0).bind fun s1 =>
    let s2 :=
      if s1.active_break_count = 0 ∧ s1.muted = true then
        if env.is_user_active then
          { s1 with log := s1.log ++ [Effect.restore_mute], muted := false }
        else s1
      else s1
    some (true, s2)
  else none

/-- Modelled from the spec: `HeadInfo::get_x` (declared in `HeadInfo.hh`, which is
not part of this file) returns the horizontal origin of the head geometry. -/
def HeadInfo.get_x (h : HeadInfo) : Int := h.geometry.x

/-- Modelled from the spec: `HeadInfo::get_y` returns the vertical origin of the
head geometry. -/
def HeadInfo.get_y (h : HeadInfo) : Int := h.geometry.y

/-- Modelled from the spec: `HeadInfo::get_width` returns the width of the head
geometry. -/
def HeadInfo.get_width (h : HeadInfo) : Int := h.geometry.width

/-- Modelled from the spec: `HeadInfo::get_height` returns the height of the head
geometry. -/
def HeadInfo.get_height (h : HeadInfo) : Int := h.geometry.height

/-- `GUI::get_head`: `heads[head < num_heads ? head : 0]`; a negative index is
outside the array. -/
def get_head (s : GUI) (head : Int) : Option HeadInfo :=
  let index := if head < s.num_heads then head else 0
  if index < 0 then none else read s.heads index.toNat

/-- The variables of the loop of `map_to_head`; `done` records the `break`
statement. -/
structure MapLoop where
  x : Int
  y : Int
  head : Int
  done : Bool
  deriving DecidableEq

/-- The loop body of `map_to_head`.  `/` of C++ truncates towards zero. -/
def map_to_head_body (heads : Option (List HeadInfo)) (i : Nat) (st : MapLoop) :
    Option MapLoop :=
  if st.done then some st
  else
    (read heads i).bind fun h =>
    let left := h.get_x
    let top := h.get_y
    let width := h.get_width
    let height := h.get_height
    if st.x ≥ left ∧ st.y ≥ top ∧ st.x < left + width ∧ st.y < top + height then
      let x1 := st.x - left
      let y1 := st.y - top
      let x2 := if x1 ≥ Int.tdiv width 2 then x1 - width else x1
      let y2 := if y1 ≥ Int.tdiv height 2 then y1 - height else y1
      some { x := x2, y := y2, head := (i : Int), done := true }
    else some st

/-- `GUI::map_to_head`: the returned head and the rewritten `x` and `y`. -/
def map_to_head (s : GUI) (x y : Int) : Option (Int × Int × Int) :=
  (for_loop (map_to_head_body s.heads) s.num_heads.toNat
    { x := x, y := y, head := -1, done := false }).bind fun st =>
  if st.head < 0 then some (0, 256, 256)
  else some (st.head, st.x, st.y)

/-- `GUI::map_from_head`: the rewritten `x` and `y`. -/
def map_from_head (s : GUI) (x y : Int) (head : Int) : Option (Int × Int) :=
  (get_head s head).bind fun h =>
  let x1 := if x < 0 then x + h.get_width else x
  let y1 := if y < 0 then y + h.get_height else y
  some (x1 + h.get_x, y1 + h.get_y)

/-- The reference parameters of `bound_head` on return, and its result `ret`. -/
structure Bound where
  ret : Bool
  x : Int
  y : Int
  head : Int
  deriving DecidableEq

/-- The statement `if (x < - h.get_width()) { x = 0; ret = true; }` of
`bound_head`. -/
def bound_left (h : HeadInfo) (b : Bound) : Bound :=
  if b.x < - h.get_width then { b with x := 0, ret := true } else b

/-- The statement `if (y < - h.get_height()) { y = 0; ret = true; }`. -/
def bound_top (h : HeadInfo) (b : Bound) : Bound :=
  if b.y < - h.get_height then { b with y := 0, ret := true } else b

/-- The statement `if (x > - 10 && x < 0) { x = - 10; ret = true; }`. -/
def bound_gap_x (b : Bound) : Bound :=
  if b.x > -10 ∧ b.x < 0 then { b with x := -10, ret := true } else b

/-- The statement `if (y > - 10 && y < 0) { y = - 10; ret = true; }`. -/
def bound_gap_y (b : Bound) : Bound :=
  if b.y > -10 ∧ b.y < 0 then { b with y := -10, ret := true } else b

/-- The statement
`if (x + width >= h.get_width()) { x = h.get_width() - width - 10; ret = true; }`. -/
def bound_right (h : HeadInfo) (width : Int) (b : Bound) : Bound :=
  if b.x + width ≥ h.get_width then { b with x := h.get_width - width - 10, ret := true }
  else b

/-- The statement
`if (y + height >= h.get_height()) { y = h.get_height() - height - 10; ret = true; }`. -/
def bound_bottom (h : HeadInfo) (height : Int) (b : Bound) : Bound :=
  if b.y + height ≥ h.get_height then { b with y := h.get_height - height - 10, ret := true }
  else b

/-- `GUI::bound_head`: its six adjustments, in the order of the source. -/
def bound_head (s : GUI) (x y width height head : Int) : Option Bound :=
  let head1 := if head ≥ s.num_heads then 0 else head
  (get_head s head1).bind fun h =>
  some (bound_bottom h height (bound_right h width (bound_gap_y (bound_gap_x
    (bound_top h (bound_left h { ret := false, x := x, y := y, head := head1 }))))))

/-- The operations other components and the event loop invoke on the object. -/
inductive Op where
  | init_gui
  | init_multihead
  | on_timer
  | set_muted
  | create_prelude_window (break_id : BreakId)
  | create_break_window (break_id : BreakId) (break_hint : BreakHint)
  | hide_break_window
  | show_break_window
  | collect_garbage
  | grab
  | ungrab
  | interrupt_grab
  | grab_retry_timer (t : TimerId)
  deriving DecidableEq

/-- One operation in the environment `env`.  `init_gui` stands for the
assignment `main_window = new MainWindow()` and `set_muted` for the assignment
`muted = true` of `on_break_event`; `on_timer` is a whole tick, with the calls
its heartbeat makes back into the object. -/
def exec (env : Env) (op : Op) (s : GUI) : Option GUI :=
  match op with
  | Op.init_gui => some { s with main_window := true }
  | Op.init_multihead => init_multihead env s
  | Op.on_timer => (on_timer env s).bind fun r => some r.2
  | Op.set_muted => some { s with muted := true }
  | Op.create_prelude_window break_id => create_prelude_window env break_id s
  | Op.create_break_window break_id break_hint => create_break_window env break_id break_hint s
  | Op.hide_break_window => hide_break_window s
  | Op.show_break_window => show_break_window env s
  | Op.collect_garbage => collect_garbage s
  | Op.grab => (grab env s).bind fun r => some r.2
  | Op.ungrab => some (ungrab s)
  | Op.interrupt_grab => some (interrupt_grab s)
  | Op.grab_retry_timer t => fire_grab_retry_timer env t s

/-- The states the object can be in: the constructed state and every state an
operation produces from a reachable one. -/
inductive Reachable : GUI → Prop where
  | initial : Reachable GUI.initial
  | step (env : Env) (op : Op) (s s1 : GUI) :
      Reachable s → exec env op s = some s1 → Reachable s1

/-- The states of a build with `PLATFORM_OS_UNIX`, the build that has
`grab_wanted` and the retry timer: `main()` calls `init_multihead()` once,
at startup, and afterwards `init_multihead` runs only inside
`create_prelude_window` and `create_break_window` (its other caller,
`win32_filter_func`, is compiled with `PLATFORM_OS_WIN32` only). -/
inductive UnixReachable : GUI → Prop where
  | initial : UnixReachable GUI.initial
  | startup (env : Env) (s : GUI) :
      init_multihead env GUI.initial = some s → UnixReachable s
  | step (env : Env) (op : Op) (s s1 : GUI) :
      UnixReachable s → op ≠ Op.init_multihead → exec env op s = some s1 → UnixReachable s1

/-! ## Specification-level definitions -/

/-- The length of an array; 0 for the null pointer. -/
def alen {α : Type} (arr : Option (List α)) : Nat :=
  match arr with
  | none => 0
  | some l => l.length

/-- The window held by slot `i`; `none` for an empty slot, outside the array
and for the null pointer. -/
def slot (arr : Option (List (Option Win))) (i : Nat) : Option Win :=
  (read arr i).join

/-- The new window array after `n` rounds of the copy loop: slot `i` holds the
old slot when `i < n` and `i < N`, and is empty otherwise. -/
def resized_upto (arr : Option (List (Option Win))) (N M n : Nat) : List (Option Win) :=
  (List.range M).map fun i => if i < n ∧ i < N then slot arr i else none

/-- The window array of length `M` that keeps the first `N` old slots. -/
def resized (arr : Option (List (Option Win))) (N M : Nat) : List (Option Win) :=
  (List.range M).map fun i => if i < N then slot arr i else none

/-- The destructor calls for slot `i`: the prelude window, then the break
window, each when the slot is populated. -/
def destroyed_slot (pa ba : Option (List (Option Win))) (i : Nat) : List Effect :=
  (slot pa i).toList.map Effect.delete_prelude ++ (slot ba i).toList.map Effect.delete_break

/-- The destructor calls for the slots `M ≤ i < n`, in index order. -/
def destroyed (pa ba : Option (List (Option Win))) (M n : Nat) : List Effect :=
  ((List.range n).filter fun i => decide (M ≤ i)).flatMap (destroyed_slot pa ba)

/-- The calls `mk w` for the populated slots `i < n` of `arr`, in index order. -/
def calls (arr : Option (List (Option Win))) (mk : Win → Effect) (n : Nat) : List Effect :=
  (List.range n).flatMap fun i => (slot arr i).toList.map mk

/-- The array `arr` with its first `n` slots emptied. -/
def cleared (arr : List (Option Win)) (n : Nat) : List (Option Win) :=
  (List.range arr.length).map fun i => if i < n then none else (arr[i]?).join

/-- The array `arr` with its first `n` slots holding the windows `nw`,
`nw + 1`, ... -/
def filled (arr : List (Option Win)) (nw n : Nat) : List (Option Win) :=
  (List.range arr.length).map fun i => if i < n then some (nw + i) else (arr[i]?).join

/-- The constructor calls of the loop of `create_prelude_window` for the heads
`i < n`. -/
def new_preludes (heads : Option (List HeadInfo)) (break_id : BreakId) (nw n : Nat) :
    List Effect :=
  (List.range n).flatMap fun i =>
    ((read heads i).map fun h => Effect.new_prelude (nw + i) h break_id).toList

/-- The constructor and `init()` calls of the loop of `create_break_window`
for the heads `i < n`. -/
def new_breaks (env : Env) (heads : Option (List HeadInfo)) (kind : WindowKind)
    (flags : BreakFlags) (nw n : Nat) : List Effect :=
  (List.range n).flatMap fun i =>
    match read heads i with
    | none => []
    | some h => [Effect.new_break kind (nw + i) h flags env.block_mode,
                 Effect.init_break (nw + i)]

/-- A monitor of the display: the number of its screen, its index on that
screen and its rectangle. -/
structure Monitor where
  screen : Nat
  monitor : Nat
  rect : Rect
  deriving DecidableEq

/-- The monitors `j < n` of screen `i`, in index order. -/
def screen_monitors (i : Nat) (monitors : List Rect) (n : Nat) : List Monitor :=
  (List.range n).flatMap fun j => (monitors[j]?.map fun r => Monitor.mk i j r).toList

/-- The monitors of the non-null screens `i < n`, in enumeration order. -/
def monitors_upto (screens : List (Option (List Rect))) (n : Nat) : List Monitor :=
  (List.range n).flatMap fun i =>
    match screens[i]? with
    | some (some monitors) => screen_monitors i monitors monitors.length
    | _ => []

/-- All monitors of the display, in the order `init_gtk_multihead` visits them. -/
def all_monitors (screens : List (Option (List Rect))) : List Monitor :=
  monitors_upto screens screens.length

/-- Whether monitor `m` overlaps one of the monitors `acc` on its own screen. -/
def overlaps (acc : List Monitor) (m : Monitor) : Bool :=
  acc.any fun a => decide (a.screen = m.screen) && m.rect.intersect a.rect

/-- The overlap filter, one monitor: `m` is skipped when it overlaps an
accepted monitor of its screen, and accepted otherwise. -/
def accept_step (acc : List Monitor) (m : Monitor) : List Monitor :=
  if overlaps acc m then acc else acc ++ [m]

/-- The monitors the overlap filter accepts, in order. -/
def accepted (ms : List Monitor) : List Monitor :=
  ms.foldl accept_step []

/-- The head entry written for the `k`-th accepted monitor. -/
def head_of (k : Nat) (m : Monitor) : HeadInfo :=
  { screen := some m.screen, monitor := (m.monitor : Int), valid := true, count := (k : Int),
    geometry := m.rect }

/-- The first `count` head entries are the entries of the accepted monitors
`acc`, in an array of length `L`. -/
def HeadsMatch (st : HeadLoop) (acc : List Monitor) (L : Nat) : Prop :=
  ∃ hs, st.heads = some hs ∧ hs.length = L ∧ st.count = (acc.length : Int) ∧
    ∀ k : Nat, ∀ h : k < acc.length, hs[k]? = some (head_of k (acc.get ⟨k, h⟩))

/-- The head list: the first `num_heads` entries of the head array. -/
def head_list (s : GUI) : List HeadInfo :=
  match s.heads with
  | none => []
  | some hs => hs.take s.num_heads.toNat

/-- The memory invariant of the object: the three arrays have one length, the
head count and the active counts do not exceed it, the head count is not below
the initial -1, the active counts are not negative, every slot at or above an
active count is empty, every window in a slot was allocated before `next_win`,
and no window is held by two slots of one array. -/
structure Inv (s : GUI) : Prop where
  break_len : alen s.break_windows = alen s.prelude_windows
  heads_len : alen s.heads = alen s.prelude_windows
  num_le : s.num_heads.toNat ≤ alen s.prelude_windows
  num_ge : -1 ≤ s.num_heads
  prelude_nonneg : 0 ≤ s.active_prelude_count
  break_nonneg : 0 ≤ s.active_break_count
  prelude_le : s.active_prelude_count.toNat ≤ alen s.prelude_windows
  break_le : s.active_break_count.toNat ≤ alen s.break_windows
  prelude_tail : ∀ i : Nat, s.active_prelude_count.toNat ≤ i → slot s.prelude_windows i = none
  break_tail : ∀ i : Nat, s.active_break_count.toNat ≤ i → slot s.break_windows i = none
  prelude_fresh : ∀ (i w : Nat), slot s.prelude_windows i = some w → w < s.next_win
  break_fresh : ∀ (i w : Nat), slot s.break_windows i = some w → w < s.next_win
  prelude_inj : ∀ (i j w : Nat),
    slot s.prelude_windows i = some w → slot s.prelude_windows j = some w → i = j
  break_inj : ∀ (i j w : Nat),
    slot s.break_windows i = some w → slot s.break_windows j = some w → i = j

/-- Whether an effect is a capture request or a release of a grab handle. -/
def is_grab_effect (e : Effect) : Bool :=
  match e with
  | Effect.capture _ _ => true
  | Effect.release _ => true
  | _ => false

/-- The log of `s1` extends the log of `s` by effects that are neither capture
requests nor releases. -/
def GrabFree (s s1 : GUI) : Prop :=
  ∃ l, s1.log = s.log ++ l ∧ ∀ e ∈ l, is_grab_effect e = false

/-- The members an operation on the arrays leaves alone: `s1` agrees with `s`
on the grab controller, the timers, the allocation counter, the destroy flags,
`active_break_id`, `main_window` and `muted`, and it adds no capture request
and no release to the log. -/
structure Frame (s s1 : GUI) : Prop where
  grab_wanted : s1.grab_wanted = s.grab_wanted
  grab_handle : s1.grab_handle = s.grab_handle
  grab_retry_connection : s1.grab_retry_connection = s.grab_retry_connection
  timers : s1.timers = s.timers
  next_timer : s1.next_timer = s.next_timer
  next_win : s1.next_win = s.next_win
  main_window : s1.main_window = s.main_window
  muted : s1.muted = s.muted
  active_break_id : s1.active_break_id = s.active_break_id
  break_window_destroy : s1.break_window_destroy = s.break_window_destroy
  prelude_window_destroy : s1.prelude_window_destroy = s.prelude_window_destroy
  log : GrabFree s s1

/-- The members the grab controller leaves alone: `s1` agrees with `s` on the
arrays, the head count, the active counts, the destroy flags, the screen
size, the allocation counter, `active_break_id`, `main_window` and `muted`. -/
structure ArrayFrame (s s1 : GUI) : Prop where
  prelude_windows : s1.prelude_windows = s.prelude_windows
  break_windows : s1.break_windows = s.break_windows
  heads : s1.heads = s.heads
  num_heads : s1.num_heads = s.num_heads
  active_prelude_count : s1.active_prelude_count = s.active_prelude_count
  active_break_count : s1.active_break_count = s.active_break_count
  break_window_destroy : s1.break_window_destroy = s.break_window_destroy
  prelude_window_destroy : s1.prelude_window_destroy = s.prelude_window_destroy
  active_break_id : s1.active_break_id = s.active_break_id
  next_win : s1.next_win = s.next_win
  main_window : s1.main_window = s.main_window
  muted : s1.muted = s.muted
  screen_width : s1.screen_width = s.screen_width
  screen_height : s1.screen_height = s.screen_height

/-- The state `collect_garbage` produces from `s` when its loops stay inside
the arrays. -/
def collected (s : GUI) : GUI :=
  { s with
    prelude_windows :=
      if s.prelude_window_destroy then
        s.prelude_windows.map fun arr => cleared arr s.active_prelude_count.toNat
      else s.prelude_windows,
    break_windows :=
      if s.break_window_destroy then
        s.break_windows.map fun arr => cleared arr s.active_break_count.toNat
      else s.break_windows,
    active_prelude_count := if s.prelude_window_destroy then 0 else s.active_prelude_count,
    active_break_count := if s.break_window_destroy then 0 else s.active_break_count,
    prelude_window_destroy := false,
    break_window_destroy := false,
    log := s.log ++
      (if s.prelude_window_destroy then
        calls s.prelude_windows Effect.delete_prelude s.active_prelude_count.toNat else []) ++
      (if s.break_window_destroy then
        calls s.break_windows Effect.delete_break s.active_break_count.toNat else []) }

/-- The state `hide_break_window` produces from `s` before its call of
`ungrab`, when its loops stay inside the arrays. -/
def stopped (s : GUI) : GUI :=
  { s with
    active_break_id := BreakId.BREAK_ID_NONE,
    log := s.log ++ calls s.prelude_windows Effect.stop_prelude s.active_prelude_count.toNat
      ++ calls s.break_windows Effect.stop_break s.active_break_count.toNat,
    prelude_window_destroy :=
      if s.active_prelude_count > 0 then true else s.prelude_window_destroy,
    break_window_destroy :=
      if s.active_break_count > 0 then true else s.break_window_destroy }

/-- Every window array with a positive active count is flagged for deferred
destruction. -/
def Flagged (s : GUI) : Prop :=
  (s.active_prelude_count = 0 ∨ s.prelude_window_destroy = true) ∧
  (s.active_break_count = 0 ∨ s.break_window_destroy = true)

/-- The state the creation loop of `create_prelude_window` produces from the
state `s` reached after the garbage collection. -/
def prelude_created (break_id : BreakId) (s : GUI) : GUI :=
  { s with
    active_break_id := break_id,
    prelude_windows := s.prelude_windows.map fun arr => filled arr s.next_win s.num_heads.toNat,
    next_win := s.next_win + s.num_heads.toNat,
    log := s.log ++ new_preludes s.heads break_id s.next_win s.num_heads.toNat,
    active_prelude_count := s.num_heads }

/-- The state the creation loop of `create_break_window` produces from the
state `s` reached after the garbage collection, for the window variant `kind`. -/
def break_created (env : Env) (break_id : BreakId) (break_hint : BreakHint) (kind : WindowKind)
    (s : GUI) : GUI :=
  { s with
    active_break_id := break_id,
    break_windows := s.break_windows.map fun arr => filled arr s.next_win s.num_heads.toNat,
    next_win := s.next_win + s.num_heads.toNat,
    log := s.log ++ new_breaks env s.heads kind (break_flags env break_id break_hint)
      s.next_win s.num_heads.toNat,
    active_break_count := s.num_heads }

/-- Whether an effect is a window destructor call. -/
def is_delete (e : Effect) : Bool :=
  match e with
  | Effect.delete_prelude _ => true
  | Effect.delete_break _ => true
  | _ => false

/-- Every break slot below `active_break_count` lies inside the array and
holds a window: the handle collection loop of `grab` is defined. -/
def Populated (s : GUI) : Prop :=
  ∀ i : Nat, i < s.active_break_count.toNat → (slot s.break_windows i).isSome = true

/-- The grab bookkeeping along the effect log.  The state is the handle held
so far; `none` records a violation: a capture requested while a handle is
held, or a release of a handle that is not the held one. -/
def track (held : Option (Option Grab)) (e : Effect) : Option (Option Grab) :=
  match held, e with
  | none, _ => none
  | some none, Effect.capture _ result => some result
  | some (some _), Effect.capture _ _ => none
  | some none, Effect.release _ => none
  | some (some g), Effect.release g1 => if g = g1 then some none else none
  | some h, _ => some h

/-- Along the whole log a capture was only requested while no handle was
held and every release released the held handle, and the handle held at the
end of the log is `grab_handle`. -/
def Tracked (s : GUI) : Prop :=
  s.log.foldl track (some none) = some s.grab_handle

/-- Whether `op` is an operation of the grab controller. -/
def is_grab_op (op : Op) : Bool :=
  match op with
  | Op.grab => true
  | Op.ungrab => true
  | Op.interrupt_grab => true
  | Op.grab_retry_timer _ => true
  | _ => false

/-- Run a sequence of operations, each in its own environment. -/
def run : List (Env × Op) → GUI → Option GUI
  | [], s => some s
  | (env, op) :: rest, s => (exec env op s).bind (run rest)

/-- A display environment for the examples: the given screens on an 800x600
virtual screen, input blocking on, every break ignorable and skippable, the
given result of the next capture, the user active and a heartbeat that makes
no call back into the object. -/
def example_env (screens : List (Option (List Rect))) (grab_result : Option Grab) : Env :=
  { screens := screens, gdk_screen_width := 800, gdk_screen_height := 600,
    new_head := { screen := none, monitor := 0, count := 0, valid := false,
                  geometry := { x := 0, y := 0, width := 0, height := 0 } },
    block_mode := BlockMode.BLOCK_MODE_INPUT,
    break_ignorable := fun _ => true, break_skippable := fun _ => true,
    grab_result := grab_result, is_user_active := true, callbacks := [] }

/-- The monitor rectangle of width 100 and height 100 at horizontal offset `x`. -/
def example_rect (x : Int) : Rect :=
  { x := x, y := 0, width := 100, height := 100 }

/-- The state of `init_multihead` after it installed the synthetic head and
before it recomputes the screen size. -/
def fallback_state (env : Env) (s : GUI) : GUI :=
  { s with
    heads := some [fallback_head env env.new_head],
    prelude_windows := some (resized s.prelude_windows s.num_heads.toNat 1),
    break_windows := some (resized s.break_windows s.num_heads.toNat 1),
    active_prelude_count := if s.active_prelude_count > 1 then 1 else s.active_prelude_count,
    active_break_count := if s.active_break_count > 1 then 1 else s.active_break_count,
    num_heads := 1,
    log := s.log ++ destroyed s.prelude_windows s.break_windows 1 s.num_heads.toNat }

/-- The request of a user-initiated break. -/
def user_hint : BreakHint :=
  { user_initiated := true, natural_break := false }

/-- A display of one screen with the monitors at the given offsets. -/
def example_screens (offsets : List Int) : List (Option (List Rect)) :=
  [some (offsets.map example_rect)]

/-- A rest break is created and shown on one head and the capture succeeds
with handle 7; then the display is re-enumerated with one screen without
monitors. -/
def scenario_no_monitors : List (Env × Op) :=
  [(example_env (example_screens [0]) (some 7),
      Op.create_break_window BreakId.BREAK_ID_REST_BREAK user_hint),
   (example_env (example_screens [0]) (some 7), Op.show_break_window),
   (example_env [some []] none, Op.init_multihead)]

/-- A rest break is created and shown on one head and the capture succeeds
with handle 7; then the grab is interrupted. -/
def scenario_interrupted : List (Env × Op) :=
  [(example_env (example_screens [0]) (some 7),
      Op.create_break_window BreakId.BREAK_ID_REST_BREAK user_hint),
   (example_env (example_screens [0]) (some 7), Op.show_break_window),
   (example_env (example_screens [0]) none, Op.interrupt_grab)]

/-- A rest break is created and shown on three heads and the capture succeeds
with handle 7; then the display is re-enumerated with three monitors of which
the last two have the same rectangle, and again with three separate
monitors. -/
def scenario_overlap : List (Env × Op) :=
  [(example_env (example_screens [0, 100, 200]) (some 7),
      Op.create_break_window BreakId.BREAK_ID_REST_BREAK user_hint),
   (example_env (example_screens [0, 100, 200]) (some 7), Op.show_break_window),
   (example_env (example_screens [0, 100, 100]) none, Op.init_multihead),
   (example_env (example_screens [0, 100, 200]) none, Op.init_multihead)]

/-- A rest break is created on three heads; then the display is re-enumerated
with three monitors of which the last two have the same rectangle, and again
with a single monitor. -/
def scenario_shrink : List (Env × Op) :=
  [(example_env (example_screens [0, 100, 200]) none,
      Op.create_break_window BreakId.BREAK_ID_REST_BREAK user_hint),
   (example_env (example_screens [0, 100, 100]) none, Op.init_multihead),
   (example_env (example_screens [0]) none, Op.init_multihead)]

/-- A rest break is created and shown on one head and the capture fails. -/
def scenario_failed_capture : List (Env × Op) :=
  [(example_env (example_screens [0]) none,
      Op.create_break_window BreakId.BREAK_ID_REST_BREAK user_hint),
   (example_env (example_screens [0]) none, Op.show_break_window)]

/-- Two monitors are enumerated; then the display reports no screens. -/
def scenario_screens_lost : List (Env × Op) :=
  [(example_env (example_screens [0, 100]) none, Op.init_multihead),
   (example_env [] none, Op.init_multihead)]

/-- A rest break is created and shown on one head with the grab held, the
grab is interrupted, and the next `grab()` succeeds with handle 8. -/
def scenario_regrabbed : List (Env × Op) :=
  scenario_interrupted ++ [(example_env (example_screens [0]) (some 8), Op.grab)]

/-- A state with three heads: prelude windows in slots 0 and 2, break windows
in slots 0 and 1. -/
def example_three_heads : GUI :=
  { GUI.initial with
    prelude_windows := some [some 0, none, some 2],
    break_windows := some [some 3, some 4, none],
    heads := some (List.replicate 3 (example_env [] none).new_head),
    num_heads := 3,
    next_win := 5 }

/-- A state with one head whose break window is shown with the grab held. -/
def example_held : GUI :=
  { GUI.initial with
    prelude_windows := some [none],
    break_windows := some [some 0],
    heads := some [head_of 0 (Monitor.mk 0 0 (example_rect 0))],
    num_heads := 1,
    active_break_count := 1,
    active_break_id := BreakId.BREAK_ID_REST_BREAK,
    grab_wanted := true,
    grab_handle := some 7,
    next_win := 1,
    log := [Effect.start_break 0, Effect.capture [0] (some 7)] }

/-- The state in which a rest break is shown on one head and the capture has
failed. -/
def example_shown : GUI :=
  (run scenario_failed_capture GUI.initial).getD GUI.initial

/-- The state `show_break_window` produces from `s` before its call of `grab`,
when its loops stay inside the arrays. -/
def started (s : GUI) : GUI :=
  { s with
    log := s.log ++ calls s.prelude_windows Effect.start_prelude s.active_prelude_count.toNat
      ++ calls s.break_windows Effect.start_break s.active_break_count.toNat }

/-- After `init_gui`, a rest break is created on one head, hidden and shown
again, with a successful capture of handle 7; then the timer tick collects the
garbage. -/
def scenario_hide_show : List (Env × Op) :=
  [(example_env (example_screens [0]) (some 7), Op.init_gui),
   (example_env (example_screens [0]) (some 7),
      Op.create_break_window BreakId.BREAK_ID_REST_BREAK user_hint),
   (example_env (example_screens [0]) (some 7), Op.hide_break_window),
   (example_env (example_screens [0]) (some 7), Op.show_break_window),
   (example_env (example_screens [0]) (some 7), Op.on_timer)]

/-- The display is enumerated with one monitor of width 100 and height 100 at
the origin. -/
def scenario_one_head : List (Env × Op) :=
  [(example_env (example_screens [0]) none, Op.init_multihead)]

/-- Whether the point `(x, y)` lies inside the rectangle of head `h`: the test
of the loop of `map_to_head`. -/
def inside (h : HeadInfo) (x y : Int) : Prop :=
  x ≥ h.get_x ∧ y ≥ h.get_y ∧ x < h.get_x + h.get_width ∧ y < h.get_y + h.get_height

/-- The coordinate `bound_head` returns along one axis, for the input
coordinate `pos`, the window extent `size` and the head extent `extent`: the
three adjustments in the order of the source. -/
def bound_axis (pos size extent : Int) : Int :=
  let p1 := if pos < - extent then 0 else pos
  let p2 := if p1 > -10 ∧ p1 < 0 then -10 else p1
  if p2 + size ≥ extent then extent - size - 10 else p2

/-- The head-relative coordinate `map_to_head` computes along one axis for a
point at `pos` on a head with origin `origin` and extent `extent`: relative to
the far edge (and then negative) from the middle onwards. -/
def relative (pos origin extent : Int) : Int :=
  if pos - origin ≥ Int.tdiv extent 2 then pos - origin - extent else pos - origin

/-- A rest break is created and shown on three heads and the capture succeeds
with handle 7. -/
def scenario_three_shown : List (Env × Op) :=
  [(example_env (example_screens [0, 100, 200]) (some 7),
      Op.create_break_window BreakId.BREAK_ID_REST_BREAK user_hint),
   (example_env (example_screens [0, 100, 200]) (some 7), Op.show_break_window)]

/-- The state in which a rest break is shown on three heads with the grab
held. -/
def example_three_shown : GUI :=
  (run scenario_three_shown GUI.initial).getD GUI.initial

/-- At most one of the two active counts is non-zero: prelude windows and
break windows are not active together. -/
def Exclusive (s : GUI) : Prop :=
  s.active_prelude_count = 0 ∨ s.active_break_count = 0

/-- A prelude is created on two heads; then a rest break is created. -/
def scenario_prelude_then_break : List (Env × Op) :=
  [(example_env (example_screens [0, 100]) none,
      Op.create_prelude_window BreakId.BREAK_ID_REST_BREAK),
   (example_env (example_screens [0, 100]) none,
      Op.create_break_window BreakId.BREAK_ID_REST_BREAK user_hint)]

/-- Whether `op` is one of the operations of the window lifecycle:
`create_prelude_window`, `create_break_window`, `show_break_window`,
`hide_break_window`, `collect_garbage` and `init_multihead`. -/
def is_lifecycle_op (op : Op) : Bool :=
  match op with
  | Op.create_prelude_window _ => true
  | Op.create_break_window _ _ => true
  | Op.show_break_window => true
  | Op.hide_break_window => true
  | Op.collect_garbage => true
  | Op.init_multihead => true
  | _ => false

/-- No two monitors of one screen of the display overlap: the overlap filter
of `init_gtk_multihead` skips no monitor. -/
def NoOverlap (env : Env) : Prop :=
  (all_monitors env.screens).Pairwise
    fun a b => a.screen = b.screen → b.rect.intersect a.rect = false

/-- A rest break is created on two heads; then the display is re-enumerated
with two monitors that have the same rectangle, and again with two separate
monitors. -/
def scenario_empty_slot : List (Env × Op) :=
  [(example_env (example_screens [0, 100]) none,
      Op.create_break_window BreakId.BREAK_ID_REST_BREAK user_hint),
   (example_env (example_screens [0, 0]) none, Op.init_multihead),
   (example_env (example_screens [0, 100]) none, Op.init_multihead)]

/-- The handle collection loop of `grab` is defined and stays so across a
resize: every break slot below `active_break_count` is populated and
`active_break_count` does not exceed the head count. -/
def Safe (s : GUI) : Prop :=
  Populated s ∧ s.active_break_count.toNat ≤ s.num_heads.toNat

theorem read_of_lt {α : Type} (arr : Option (List α)) (i : Nat) (h : i < alen arr) :
    ∃ v, read arr i = some v := by
  cases arr with
  | none => simp [alen] at h
  | some l =>
    simp only [alen] at h
    exact ⟨l[i], by simp [read, List.getElem?_eq_getElem h]⟩

theorem read_slot (arr : Option (List (Option Win))) (i : Nat) (h : i < alen arr) :
    read arr i = some (slot arr i) := by
  obtain ⟨v, hv⟩ := read_of_lt arr i h
  simp [slot, hv]

theorem delete_old_eq (arr : Option (List (Option Win))) (i : Nat) (mk : Win → Effect)
    (log : List Effect) (h : i < alen arr) :
    delete_old arr i mk log = some (log ++ (slot arr i).toList.map mk) := by
  cases arr with
  | none => simp [alen] at h
  | some l =>
    simp only [alen] at h
    simp only [delete_old, slot, read, Option.bind, List.getElem?_eq_getElem h]
    cases l[i] <;> simp

theorem resized_upto_length (arr : Option (List (Option Win))) (N M n : Nat) :
    (resized_upto arr N M n).length = M := by
  simp [resized_upto]

theorem resized_upto_zero (arr : Option (List (Option Win))) (N M : Nat) :
    resized_upto arr N M 0 = List.replicate M none := by
  apply List.ext_getElem
  · simp [resized_upto]
  · intro i h1 h2
    simp [resized_upto]

theorem resized_upto_set (arr : Option (List (Option Win))) (N M n : Nat) :
    (resized_upto arr N M n).set n (if n < N then slot arr n else none) =
      resized_upto arr N M (n + 1) := by
  apply List.ext_getElem
  · simp [resized_upto]
  · intro i h1 h2
    simp only [resized_upto, List.length_set, List.length_map, List.length_range] at h1
    simp only [resized_upto, List.getElem_set, List.getElem_map, List.getElem_range]
    by_cases hi : n = i
    · subst hi; simp
    · simp only [hi, if_false]
      have : (i < n + 1) = (i < n) := by
        apply propext; omega
      simp only [this]

theorem resized_upto_ge (arr : Option (List (Option Win))) (N M n : Nat) (h : M ≤ n) :
    resized_upto arr N M (n + 1) = resized_upto arr N M n := by
  apply List.ext_getElem
  · simp [resized_upto]
  · intro i h1 h2
    simp only [resized_upto, List.length_map, List.length_range] at h1
    simp only [resized_upto, List.getElem_map, List.getElem_range]
    have e1 : i < n + 1 := by omega
    have e2 : i < n := by omega
    simp [e1, e2]

theorem resized_upto_full (arr : Option (List (Option Win))) (N M n : Nat) (h : M ≤ n) :
    resized_upto arr N M n = resized arr N M := by
  apply List.ext_getElem
  · simp [resized_upto, resized]
  · intro i h1 h2
    simp only [resized_upto, List.length_map, List.length_range] at h1
    simp only [resized_upto, resized, List.getElem_map, List.getElem_range]
    have e2 : i < n := by omega
    simp [e2]

theorem destroyed_succ (pa ba : Option (List (Option Win))) (M n : Nat) :
    destroyed pa ba M (n + 1) =
      destroyed pa ba M n ++ (if M ≤ n then destroyed_slot pa ba n else []) := by
  simp only [destroyed, List.range_succ, List.filter_append, List.flatMap_append]
  by_cases h : M ≤ n <;> simp [List.filter, h, List.flatMap]

theorem destroyed_of_le (pa ba : Option (List (Option Win))) (M n : Nat) (h : n ≤ M) :
    destroyed pa ba M n = [] := by
  induction n with
  | zero => simp [destroyed]
  | succ k ih =>
    rw [destroyed_succ, ih (by omega)]
    have : ¬ M ≤ k := by omega
    simp [this]

theorem init_multihead_mem_loop (s : GUI) (M : Int) (hM : 0 ≤ M)
    (hp : s.num_heads.toNat ≤ alen s.prelude_windows)
    (hb : s.num_heads.toNat ≤ alen s.break_windows) (n : Nat)
    (hn : n ≤ max M.toNat s.num_heads.toNat) :
    for_loop (init_multihead_mem_body s M) n
        { prelude_windows := List.replicate M.toNat none,
          break_windows := List.replicate M.toNat none, log := s.log } =
      some { prelude_windows := resized_upto s.prelude_windows s.num_heads.toNat M.toNat n,
             break_windows := resized_upto s.break_windows s.num_heads.toNat M.toNat n,
             log := s.log ++ destroyed s.prelude_windows s.break_windows M.toNat n } := by
  induction n with
  | zero => simp [for_loop, resized_upto_zero, destroyed]
  | succ k ih =>
    rw [for_loop, ih (by omega)]
    simp only [Option.bind, init_multihead_mem_body]
    have hkM : ((k : Int) < M) ↔ k < M.toNat := Int.lt_toNat.symm
    have hkN : ((k : Int) < s.num_heads) ↔ k < s.num_heads.toNat := Int.lt_toNat.symm
    have hMk : (M ≤ (k : Int)) ↔ M.toNat ≤ k := Int.toNat_le.symm
    by_cases h1 : k < M.toNat
    · -- copy round
      have hd : ¬ (M < s.num_heads ∧ M ≤ (k : Int)) := by
        rw [hMk]; omega
      have hnd : ¬ M.toNat ≤ k := by omega
      by_cases h2 : k < s.num_heads.toNat
      · have r1 := read_slot s.prelude_windows k (by omega)
        have r2 := read_slot s.break_windows k (by omega)
        simp [init_multihead_mem_copy, init_multihead_mem_destroy, hkM, hkN, h1, h2, r1, r2,
          write, resized_upto_length, hd, destroyed_succ, hnd, ← resized_upto_set]
      · simp [init_multihead_mem_copy, init_multihead_mem_destroy, hkM, hkN, h1, h2,
          write, resized_upto_length, hd, destroyed_succ, hnd, ← resized_upto_set]
    · -- destroy round
      have h2 : k < s.num_heads.toNat := by omega
      have h3 : M < s.num_heads := by
        have := hkN.mpr h2
        have := hMk.mpr (by omega)
        omega
      have h4 : M.toNat ≤ k := by omega
      have d1 := delete_old_eq s.prelude_windows k Effect.delete_prelude
        (s.log ++ destroyed s.prelude_windows s.break_windows M.toNat k) (by omega)
      have d2 := delete_old_eq s.break_windows k Effect.delete_break
        (s.log ++ destroyed s.prelude_windows s.break_windows M.toNat k ++
          (slot s.prelude_windows k).toList.map Effect.delete_prelude) (by omega)
      simp only [List.append_assoc] at d1 d2
      simp [init_multihead_mem_copy, init_multihead_mem_destroy, hkM, h1, h3, hMk, h4, d1, d2,
        destroyed_succ, destroyed_slot, resized_upto_ge]

theorem init_multihead_mem_same (env : Env) (s : GUI) (M : Int)
    (h : ¬ (M ≠ s.num_heads ∨ s.num_heads ≤ 0)) : init_multihead_mem env M s = some s := by
  simp only [init_multihead_mem, h, if_false]

theorem init_multihead_mem_realloc (env : Env) (s : GUI) (M : Int) (hM : 0 ≤ M)
    (hp : s.num_heads.toNat ≤ alen s.prelude_windows)
    (hb : s.num_heads.toNat ≤ alen s.break_windows)
    (h : M ≠ s.num_heads ∨ s.num_heads ≤ 0) :
    init_multihead_mem env M s = some { s with
      heads := some (List.replicate M.toNat env.new_head),
      prelude_windows := some (resized s.prelude_windows s.num_heads.toNat M.toNat),
      break_windows := some (resized s.break_windows s.num_heads.toNat M.toNat),
      active_prelude_count :=
        if s.active_prelude_count > M then M else s.active_prelude_count,
      active_break_count :=
        if s.active_break_count > M then M else s.active_break_count,
      num_heads := M,
      log := s.log ++ destroyed s.prelude_windows s.break_windows M.toNat s.num_heads.toNat } := by
  have hneg : ¬ M < 0 := by omega
  have hmax : (if M > s.num_heads then M else s.num_heads).toNat =
      max M.toNat s.num_heads.toNat := by
    split <;> omega
  have hloop := init_multihead_mem_loop s M hM hp hb (max M.toNat s.num_heads.toNat) le_rfl
  rw [resized_upto_full _ _ _ _ (le_max_left _ _),
    resized_upto_full _ _ _ _ (le_max_left _ _)] at hloop
  have hd : destroyed s.prelude_windows s.break_windows M.toNat (max M.toNat s.num_heads.toNat) =
      destroyed s.prelude_windows s.break_windows M.toNat s.num_heads.toNat := by
    by_cases hle : s.num_heads.toNat ≤ M.toNat
    · rw [max_eq_left hle, destroyed_of_le _ _ _ _ le_rfl, destroyed_of_le _ _ _ _ hle]
    · rw [max_eq_right (by omega)]
  rw [hd] at hloop
  simp only [init_multihead_mem, h, if_true, hneg, if_false, hmax, hloop, Option.bind]

theorem read_resized (arr : Option (List (Option Win))) (N M i : Nat) (h : i < M) :
    read (some (resized arr N M)) i = some (if i < N then slot arr i else none) := by
  simp [read, resized, List.getElem?_eq_getElem, h]

theorem resized_length (arr : Option (List (Option Win))) (N M : Nat) :
    (resized arr N M).length = M := by
  simp [resized]

/-! ## The loops over the active slots -/

theorem calls_succ (arr : Option (List (Option Win))) (mk : Win → Effect) (n : Nat) :
    calls arr mk (n + 1) = calls arr mk n ++ (slot arr n).toList.map mk := by
  simp [calls, List.range_succ, List.flatMap_append, List.flatMap]

theorem call_loop (arr : Option (List (Option Win))) (mk : Win → Effect) (n : Nat)
    (log : List Effect) (h : n ≤ alen arr) :
    for_loop (call_body arr mk) n log = some (log ++ calls arr mk n) := by
  induction n with
  | zero => simp [for_loop, calls]
  | succ k ih =>
    rw [for_loop, ih (by omega)]
    have r := read_slot arr k (by omega)
    simp only [Option.bind, call_body, r, calls_succ]
    cases slot arr k <;> simp

theorem cleared_length (arr : List (Option Win)) (n : Nat) :
    (cleared arr n).length = arr.length := by
  simp [cleared]

theorem cleared_zero (arr : List (Option Win)) : cleared arr 0 = arr := by
  apply List.ext_getElem
  · simp [cleared]
  · intro i h1 h2
    simp [cleared, List.getElem?_eq_getElem h2]

theorem cleared_getElem? (arr : List (Option Win)) (n i : Nat) (h : i < arr.length) :
    (cleared arr n)[i]? = some (if i < n then none else arr[i]) := by
  simp [cleared, List.getElem?_eq_getElem, h]

theorem cleared_set (arr : List (Option Win)) (n : Nat) :
    (cleared arr n).set n none = cleared arr (n + 1) := by
  apply List.ext_getElem
  · simp [cleared]
  · intro i h1 h2
    simp only [cleared, List.length_set, List.length_map, List.length_range] at h1
    simp only [cleared, List.getElem_set, List.getElem_map, List.getElem_range]
    by_cases hi : n = i
    · subst hi; simp
    · simp only [hi, if_false]
      by_cases h3 : i < n
      · have : i < n + 1 := by omega
        simp [h3, this]
      · have : ¬ i < n + 1 := by omega
        simp [h3, this]

theorem cleared_succ_of_none (arr : List (Option Win)) (n : Nat) (h : n < arr.length)
    (hn : arr[n] = none) : cleared arr (n + 1) = cleared arr n := by
  apply List.ext_getElem
  · simp [cleared]
  · intro i h1 h2
    simp only [cleared, List.length_map, List.length_range] at h1
    simp only [cleared, List.getElem_map, List.getElem_range]
    by_cases hi : i = n
    · subst hi; simp [List.getElem?_eq_getElem h, hn]
    · by_cases h3 : i < n
      · have : i < n + 1 := by omega
        simp [h3, this]
      · have : ¬ i < n + 1 := by omega
        simp [h3, this]

theorem collect_loop (mk : Win → Effect) (arr : List (Option Win)) (log : List Effect)
    (n : Nat) (h : n ≤ arr.length) :
    for_loop (collect_body mk) n { windows := arr, log := log } =
      some { windows := cleared arr n, log := log ++ calls (some arr) mk n } := by
  induction n with
  | zero => simp [for_loop, calls, cleared_zero]
  | succ k ih =>
    rw [for_loop, ih (by omega)]
    have hk : k < arr.length := by omega
    have hs : slot (some arr) k = arr[k] := by
      simp [slot, read, List.getElem?_eq_getElem hk]
    simp only [Option.bind, collect_body, cleared_getElem? arr k k hk, lt_irrefl, if_false,
      calls_succ, hs]
    cases hv : arr[k] with
    | none => simp [cleared_succ_of_none arr k hk hv]
    | some w => simp [cleared_set]

theorem filled_length (arr : List (Option Win)) (nw n : Nat) :
    (filled arr nw n).length = arr.length := by
  simp [filled]

theorem filled_zero (arr : List (Option Win)) (nw : Nat) : filled arr nw 0 = arr := by
  apply List.ext_getElem
  · simp [filled]
  · intro i h1 h2
    simp [filled, List.getElem?_eq_getElem h2]

theorem filled_set (arr : List (Option Win)) (nw n : Nat) :
    (filled arr nw n).set n (some (nw + n)) = filled arr nw (n + 1) := by
  apply List.ext_getElem
  · simp [filled]
  · intro i h1 h2
    simp only [filled, List.length_set, List.length_map, List.length_range] at h1
    simp only [filled, List.getElem_set, List.getElem_map, List.getElem_range]
    by_cases hi : n = i
    · subst hi; simp
    · simp only [hi, if_false]
      by_cases h3 : i < n
      · have : i < n + 1 := by omega
        simp [h3, this]
      · have : ¬ i < n + 1 := by omega
        simp [h3, this]

theorem new_preludes_succ (heads : Option (List HeadInfo)) (break_id : BreakId) (nw n : Nat) :
    new_preludes heads break_id nw (n + 1) = new_preludes heads break_id nw n ++
      ((read heads n).map fun h => Effect.new_prelude (nw + n) h break_id).toList := by
  simp [new_preludes, List.range_succ, List.flatMap_append, List.flatMap]

theorem create_prelude_loop (heads : Option (List HeadInfo)) (break_id : BreakId)
    (windows : Option (List (Option Win))) (nw : Nat) (log : List Effect) (n : Nat)
    (hw : n ≤ alen windows) (hh : n ≤ alen heads) :
    for_loop (create_prelude_body heads break_id) n
        { windows := windows, next_win := nw, log := log } =
      some { windows := windows.map fun arr => filled arr nw n, next_win := nw + n,
             log := log ++ new_preludes heads break_id nw n } := by
  induction n with
  | zero => cases windows <;> simp [for_loop, new_preludes, filled_zero]
  | succ k ih =>
    rw [for_loop, ih (by omega) (by omega)]
    obtain ⟨h, hr⟩ := read_of_lt heads k (by omega)
    cases windows with
    | none => simp [alen] at hw
    | some arr =>
      have hk : k < arr.length := hw
      simp [Option.bind, create_prelude_body, hr, write, filled_length, new_preludes_succ,
        filled_set, Nat.add_assoc, hk]

theorem new_breaks_succ (env : Env) (heads : Option (List HeadInfo)) (kind : WindowKind)
    (flags : BreakFlags) (nw n : Nat) :
    new_breaks env heads kind flags nw (n + 1) = new_breaks env heads kind flags nw n ++
      (match read heads n with
       | none => []
       | some h => [Effect.new_break kind (nw + n) h flags env.block_mode,
                    Effect.init_break (nw + n)]) := by
  simp [new_breaks, List.range_succ, List.flatMap_append, List.flatMap]

theorem create_break_loop (env : Env) (heads : Option (List HeadInfo)) (break_id : BreakId)
    (kind : WindowKind) (hk : window_kind break_id = some kind) (flags : BreakFlags)
    (windows : Option (List (Option Win))) (nw : Nat) (log : List Effect) (n : Nat)
    (hw : n ≤ alen windows) (hh : n ≤ alen heads) :
    for_loop (create_break_body env heads break_id flags) n
        { windows := windows, next_win := nw, log := log } =
      some { windows := windows.map fun arr => filled arr nw n, next_win := nw + n,
             log := log ++ new_breaks env heads kind flags nw n } := by
  induction n with
  | zero => cases windows <;> simp [for_loop, new_breaks, filled_zero]
  | succ k ih =>
    rw [for_loop, ih (by omega) (by omega)]
    obtain ⟨h, hr⟩ := read_of_lt heads k (by omega)
    cases windows with
    | none => simp [alen] at hw
    | some arr =>
      have hlt : k < arr.length := hw
      simp [Option.bind, create_break_body, hr, hk, write, filled_length, new_breaks_succ,
        filled_set, Nat.add_assoc, hlt]

/-! ## Counting destructor calls -/

theorem count_calls (arr : Option (List (Option Win))) (mk : Win → Effect) (n i w : Nat)
    (hmk : ∀ a b : Nat, mk a = mk b → a = b)
    (hinj : ∀ i j w : Nat, slot arr i = some w → slot arr j = some w → i = j)
    (hs : slot arr i = some w) :
    (calls arr mk n).count (mk w) = if i < n then 1 else 0 := by
  induction n with
  | zero => simp [calls]
  | succ k ih =>
    rw [calls_succ, List.count_append, ih]
    by_cases hk : k = i
    · subst hk
      simp [hs]
    · have hne : ∀ v, slot arr k = some v → ¬ mk v = mk w := by
        intro v hv hc
        have := hmk v w hc
        subst this
        exact hk (hinj k i v hv hs)
      cases hv : slot arr k with
      | none =>
        by_cases h1 : i < k
        · have : i < k + 1 := by omega
          simp [h1, this]
        · have : ¬ i < k + 1 := by omega
          simp [h1, this]
      | some v =>
        have h2 := hne v hv
        by_cases h1 : i < k
        · have : i < k + 1 := by omega
          simp [h1, this, List.count_cons, h2]
        · have : ¬ i < k + 1 := by omega
          simp [h1, this, List.count_cons, h2]

theorem count_calls_other (arr : Option (List (Option Win))) (mk : Win → Effect) (n : Nat)
    (e : Effect) (h : ∀ w, ¬ mk w = e) : (calls arr mk n).count e = 0 := by
  rw [List.count_eq_zero]
  intro hm
  simp only [calls, List.mem_flatMap, List.mem_map] at hm
  obtain ⟨i, _, w, _, hw⟩ := hm
  exact h w hw

theorem count_destroyed_prelude (pa ba : Option (List (Option Win))) (M n i w : Nat)
    (hinj : ∀ i j w : Nat, slot pa i = some w → slot pa j = some w → i = j)
    (hs : slot pa i = some w) :
    (destroyed pa ba M n).count (Effect.delete_prelude w) =
      if M ≤ i ∧ i < n then 1 else 0 := by
  induction n with
  | zero => simp [destroyed]
  | succ k ih =>
    rw [destroyed_succ, List.count_append, ih]
    have hb : (List.map Effect.delete_break (slot ba k).toList).count
        (Effect.delete_prelude w) = 0 := by
      rw [List.count_eq_zero]
      intro hm
      simp at hm
    by_cases hk : k = i
    · subst hk
      by_cases hM : M ≤ k
      · simp [hM, destroyed_slot, hs, List.count_append, hb]
      · simp [hM]
    · have hp : (List.map Effect.delete_prelude (slot pa k).toList).count
          (Effect.delete_prelude w) = 0 := by
        rw [List.count_eq_zero]
        intro hm
        simp only [List.mem_map, Option.mem_toList, Option.mem_def, Effect.delete_prelude.injEq,
          exists_eq_right] at hm
        exact hk (hinj k i w hm hs)
      have hslot : (if M ≤ k then destroyed_slot pa ba k else []).count
          (Effect.delete_prelude w) = 0 := by
        split
        · simp [destroyed_slot, List.count_append, hp, hb]
        · simp
      rw [hslot]
      by_cases h1 : i < k
      · have : i < k + 1 := by omega
        simp [h1, this]
      · have : ¬ i < k + 1 := by omega
        simp [h1, this]

theorem count_destroyed_break (pa ba : Option (List (Option Win))) (M n i w : Nat)
    (hinj : ∀ i j w : Nat, slot ba i = some w → slot ba j = some w → i = j)
    (hs : slot ba i = some w) :
    (destroyed pa ba M n).count (Effect.delete_break w) =
      if M ≤ i ∧ i < n then 1 else 0 := by
  induction n with
  | zero => simp [destroyed]
  | succ k ih =>
    rw [destroyed_succ, List.count_append, ih]
    have hb : (List.map Effect.delete_prelude (slot pa k).toList).count
        (Effect.delete_break w) = 0 := by
      rw [List.count_eq_zero]
      intro hm
      simp at hm
    by_cases hk : k = i
    · subst hk
      by_cases hM : M ≤ k
      · simp [hM, destroyed_slot, hs, List.count_append, hb]
      · simp [hM]
    · have hp : (List.map Effect.delete_break (slot ba k).toList).count
          (Effect.delete_break w) = 0 := by
        rw [List.count_eq_zero]
        intro hm
        simp only [List.mem_map, Option.mem_toList, Option.mem_def, Effect.delete_break.injEq,
          exists_eq_right] at hm
        exact hk (hinj k i w hm hs)
      have hslot : (if M ≤ k then destroyed_slot pa ba k else []).count
          (Effect.delete_break w) = 0 := by
        split
        · simp [destroyed_slot, List.count_append, hp, hb]
        · simp
      rw [hslot]
      by_cases h1 : i < k
      · have : i < k + 1 := by omega
        simp [h1, this]
      · have : ¬ i < k + 1 := by omega
        simp [h1, this]

/-! ## The resize contract -/

/-- C1: `init_multihead_mem(M)` for `M ≥ 0`, from head count `N` with both
window arrays of length `N` (or `N = -1` and no arrays): both arrays get
length `M`; a slot below `min N M` keeps its content; a slot in `[N, M)` is
empty; the destructor calls made are one per populated slot in `[M, N)`, in
index order, and no others; so, when no window is held by two slots, the
window of a populated slot `i < N` is destroyed exactly once if `M ≤ i` and
not at all if `i < M`. -/
theorem init_multihead_mem_transition (env : Env) (s : GUI) (M : Int) (hM : 0 ≤ M)
    (hN : (s.num_heads = -1 ∧ s.prelude_windows = none ∧ s.break_windows = none) ∨
      (0 ≤ s.num_heads ∧ ∃ pw bw, s.prelude_windows = some pw ∧ s.break_windows = some bw ∧
        pw.length = s.num_heads.toNat ∧ bw.length = s.num_heads.toNat)) :
    ∃ s1 pw1 bw1 deleted, init_multihead_mem env M s = some s1 ∧
      s1.prelude_windows = some pw1 ∧ s1.break_windows = some bw1 ∧
      pw1.length = M.toNat ∧ bw1.length = M.toNat ∧
      (∀ i : Nat, (i : Int) < s.num_heads → (i : Int) < M →
        (∃ v, read s.prelude_windows i = some v ∧ read s1.prelude_windows i = some v) ∧
        (∃ v, read s.break_windows i = some v ∧ read s1.break_windows i = some v)) ∧
      (∀ i : Nat, s.num_heads ≤ (i : Int) → (i : Int) < M →
        read s1.prelude_windows i = some none ∧ read s1.break_windows i = some none) ∧
      s1.log = s.log ++ deleted ∧
      deleted =
        ((List.range s.num_heads.toNat).filter fun i => decide (M.toNat ≤ i)).flatMap
          (fun i =>
            (slot s.prelude_windows i).toList.map Effect.delete_prelude ++
            (slot s.break_windows i).toList.map Effect.delete_break) ∧
      ((∀ i j w : Nat,
          slot s.prelude_windows i = some w → slot s.prelude_windows j = some w → i = j) →
        ∀ i w : Nat, (i : Int) < s.num_heads → slot s.prelude_windows i = some w →
          deleted.count (Effect.delete_prelude w) = if M ≤ (i : Int) then 1 else 0) ∧
      ((∀ i j w : Nat,
          slot s.break_windows i = some w → slot s.break_windows j = some w → i = j) →
        ∀ i w : Nat, (i : Int) < s.num_heads → slot s.break_windows i = some w →
          deleted.count (Effect.delete_break w) = if M ≤ (i : Int) then 1 else 0) := by
  have hp : s.num_heads.toNat ≤ alen s.prelude_windows := by
    rcases hN with ⟨h1, h2, _⟩ | ⟨_, pw, bw, h2, _, h4, _⟩
    · simp [h1]
    · simp [h2, alen, h4]
  have hb : s.num_heads.toNat ≤ alen s.break_windows := by
    rcases hN with ⟨h1, _, _⟩ | ⟨_, pw, bw, _, h3, _, h5⟩
    · simp [h1]
    · simp [h3, alen, h5]
  have hcount : ∀ (i : Nat), (i : Int) < s.num_heads →
      ((M.toNat ≤ i ∧ i < s.num_heads.toNat) ↔ M ≤ (i : Int)) := by
    intro i hi
    have h1 : i < s.num_heads.toNat := Int.lt_toNat.mpr hi
    constructor
    · intro h
      omega
    · intro h
      omega
  by_cases hre : M ≠ s.num_heads ∨ s.num_heads ≤ 0
  · refine ⟨_, _, _, destroyed s.prelude_windows s.break_windows M.toNat s.num_heads.toNat,
      init_multihead_mem_realloc env s M hM hp hb hre, rfl, rfl,
      resized_length _ _ _, resized_length _ _ _, ?_, ?_, rfl, rfl, ?_, ?_⟩
    · intro i h1 h2
      have h1n : i < s.num_heads.toNat := Int.lt_toNat.mpr h1
      have h2n : i < M.toNat := Int.lt_toNat.mpr h2
      exact ⟨⟨slot s.prelude_windows i, read_slot _ _ (by omega),
          by simp [read_resized _ _ _ _ h2n, h1n]⟩,
        ⟨slot s.break_windows i, read_slot _ _ (by omega),
          by simp [read_resized _ _ _ _ h2n, h1n]⟩⟩
    · intro i h1 h2
      have h1n : ¬ i < s.num_heads.toNat := by
        intro hc
        have := Int.lt_toNat.mp hc
        omega
      have h2n : i < M.toNat := Int.lt_toNat.mpr h2
      simp [read_resized _ _ _ _ h2n, h1n]
    · intro hinj i w hi hs
      rw [count_destroyed_prelude _ _ _ _ i w hinj hs]
      by_cases hc : M ≤ (i : Int)
      · rw [if_pos ((hcount i hi).mpr hc), if_pos hc]
      · rw [if_neg (fun h => hc ((hcount i hi).mp h)), if_neg hc]
    · intro hinj i w hi hs
      rw [count_destroyed_break _ _ _ _ i w hinj hs]
      by_cases hc : M ≤ (i : Int)
      · rw [if_pos ((hcount i hi).mpr hc), if_pos hc]
      · rw [if_neg (fun h => hc ((hcount i hi).mp h)), if_neg hc]
  · have hMN : M = s.num_heads := by
      by_contra hc
      exact hre (Or.inl hc)
    have hpos : 0 < s.num_heads := by
      by_contra hc
      exact hre (Or.inr (by omega))
    have hnil := destroyed_of_le s.prelude_windows s.break_windows M.toNat s.num_heads.toNat
      (by rw [hMN])
    rcases hN with ⟨h1, _, _⟩ | ⟨_, pw, bw, h2, h3, h4, h5⟩
    · omega
    · refine ⟨s, pw, bw, [], init_multihead_mem_same env s M hre, h2, h3, by rw [hMN]; exact h4,
        by rw [hMN]; exact h5, ?_, ?_, by simp, ?_, ?_, ?_⟩
      · intro i h1 _
        have h1n : i < s.num_heads.toNat := Int.lt_toNat.mpr h1
        exact ⟨read_of_lt _ _ (by omega) |>.imp fun v hv => ⟨hv, hv⟩,
          read_of_lt _ _ (by omega) |>.imp fun v hv => ⟨hv, hv⟩⟩
      · intro i h1 h2
        omega
      · exact hnil.symm
      · intro _ i w hi _
        have : ¬ M ≤ (i : Int) := by omega
        simp [this]
      · intro _ i w hi _
        have : ¬ M ≤ (i : Int) := by omega
        simp [this]

/-! ## Hiding and garbage collection -/

theorem calls_none (mk : Win → Effect) (n : Nat) : calls none mk n = [] := by
  induction n with
  | zero => simp [calls]
  | succ k ih => simp [calls_succ, ih, slot, read]

theorem hide_break_window_eq (s : GUI)
    (hp : s.active_prelude_count.toNat ≤ alen s.prelude_windows)
    (hb : s.active_break_count.toNat ≤ alen s.break_windows) :
    hide_break_window s = some (ungrab (stopped s)) := by
  have l1 := call_loop s.prelude_windows Effect.stop_prelude s.active_prelude_count.toNat
    s.log hp
  have l2 := call_loop s.break_windows Effect.stop_break s.active_break_count.toNat
    (s.log ++ calls s.prelude_windows Effect.stop_prelude s.active_prelude_count.toNat) hb
  simp only [hide_break_window, l1, Option.bind, stopped]
  by_cases h1 : s.active_prelude_count > 0 <;> by_cases h2 : s.active_break_count > 0 <;>
    simp [h1, h2, l2]

theorem collect_garbage_prelude_eq (s : GUI)
    (hp : s.active_prelude_count.toNat ≤ alen s.prelude_windows) :
    collect_garbage_prelude s =
      if s.prelude_window_destroy then
        some { s with
          prelude_windows := s.prelude_windows.map fun arr =>
            cleared arr s.active_prelude_count.toNat,
          log := s.log ++
            calls s.prelude_windows Effect.delete_prelude s.active_prelude_count.toNat,
          prelude_window_destroy := false,
          active_prelude_count := 0 }
      else some s := by
  by_cases hf : s.prelude_window_destroy = true
  · cases hw : s.prelude_windows with
    | none => simp [collect_garbage_prelude, hf, hw, calls_none]
    | some arr =>
      rw [hw] at hp
      simp [collect_garbage_prelude, hf, hw, collect_loop _ arr s.log _ hp]
  · simp [collect_garbage_prelude, hf]

theorem collect_garbage_break_eq (s : GUI)
    (hb : s.active_break_count.toNat ≤ alen s.break_windows) :
    collect_garbage_break s =
      if s.break_window_destroy then
        some { s with
          break_windows := s.break_windows.map fun arr =>
            cleared arr s.active_break_count.toNat,
          log := s.log ++
            calls s.break_windows Effect.delete_break s.active_break_count.toNat,
          break_window_destroy := false,
          active_break_count := 0 }
      else some s := by
  by_cases hf : s.break_window_destroy = true
  · cases hw : s.break_windows with
    | none => simp [collect_garbage_break, hf, hw, calls_none]
    | some arr =>
      rw [hw] at hb
      simp [collect_garbage_break, hf, hw, collect_loop _ arr s.log _ hb]
  · simp [collect_garbage_break, hf]

theorem collect_garbage_eq (s : GUI)
    (hp : s.active_prelude_count.toNat ≤ alen s.prelude_windows)
    (hb : s.active_break_count.toNat ≤ alen s.break_windows) :
    collect_garbage s = some (collected s) := by
  have e1 := collect_garbage_prelude_eq s hp
  unfold collect_garbage
  by_cases h1 : s.prelude_window_destroy = true
  · have e2 := collect_garbage_break_eq { s with
      prelude_windows := s.prelude_windows.map fun arr =>
        cleared arr s.active_prelude_count.toNat,
      log := s.log ++
        calls s.prelude_windows Effect.delete_prelude s.active_prelude_count.toNat,
      prelude_window_destroy := false,
      active_prelude_count := 0 } hb
    rw [e1, if_pos h1, Option.bind, e2]
    by_cases h2 : s.break_window_destroy = true <;> simp [h1, h2, collected]
  · have e2 := collect_garbage_break_eq s hb
    have h1f : s.prelude_window_destroy = false := by simpa using h1
    rw [e1, if_neg h1, Option.bind, e2]
    by_cases h2 : s.break_window_destroy = true
    · simp [h2, h1f, collected]
    · have h2f : s.break_window_destroy = false := by simpa using h2
      cases s
      simp_all [collected]

/-! ## The head registry -/

theorem overlap_loop (st : HeadLoop) (acc : List Monitor) (L : Nat) (hm : HeadsMatch st acc L)
    (i : Nat) (rect : Rect) (n : Nat) (hn : n ≤ acc.length) :
    for_loop (overlap_body st.heads i rect) n false =
      some ((acc.take n).any fun a => decide (a.screen = i) && rect.intersect a.rect) := by
  obtain ⟨hs, h1, h2, h3, h4⟩ := hm
  induction n with
  | zero => simp [for_loop]
  | succ k ih =>
    have hk : k < acc.length := by omega
    rw [for_loop, ih (by omega)]
    have hr : read st.heads k = some (head_of k (acc.get ⟨k, hk⟩)) := by
      simp only [h1, read, Option.bind]
      exact h4 k hk
    have ht : acc.take (k + 1) = acc.take k ++ [acc.get ⟨k, hk⟩] := by
      rw [List.take_succ, List.getElem?_eq_getElem hk]
      rfl
    simp only [Option.bind, overlap_body, hr, ht, List.any_append, List.any_cons, List.any_nil,
      Bool.or_false, head_of]
    cases hany : (acc.take k).any fun a => decide (a.screen = i) && rect.intersect a.rect
    · by_cases hsc : acc[k].screen = i <;> simp [hsc]
    · simp

theorem headsMatch_append (st : HeadLoop) (acc : List Monitor) (L : Nat)
    (hm : HeadsMatch st acc L) (m : Monitor) (hL : acc.length < L) :
    ∃ hs, st.heads = some hs ∧
      write hs st.count.toNat (head_of acc.length m) =
        some (hs.set acc.length (head_of acc.length m)) ∧
      HeadsMatch { heads := some (hs.set acc.length (head_of acc.length m)),
                   count := st.count + 1 } (acc ++ [m]) L := by
  obtain ⟨hs, h1, h2, h3, h4⟩ := hm
  refine ⟨hs, h1, ?_, hs.set acc.length (head_of acc.length m), rfl, by simp [h2], ?_, ?_⟩
  · simp [write, h3, h2, hL]
  · simp [h3]
  · intro k hk
    simp only [List.length_append, List.length_singleton] at hk
    by_cases hka : k < acc.length
    · have hne : acc.length ≠ k := by omega
      rw [List.getElem?_set_ne hne, h4 k hka]
      simp [List.getElem_append_left, hka]
    · have hke : k = acc.length := by omega
      subst hke
      simp [List.getElem?_set_self, h2, hL]

theorem monitor_body_eq (M : Int) (i : Nat) (monitors : List Rect) (j : Nat) (rect : Rect)
    (hj : monitors[j]? = some rect) (st : HeadLoop) (acc : List Monitor) (L : Nat)
    (hm : HeadsMatch st acc L) (hL : acc.length < L) (hM : (acc.length : Int) < M) :
    ∃ st1, monitor_body M i monitors j st = some st1 ∧
      HeadsMatch st1 (accept_step acc (Monitor.mk i j rect)) L := by
  have hov := overlap_loop st acc L hm i rect acc.length le_rfl
  have hc : st.count = (acc.length : Int) := by
    obtain ⟨hs, _, _, h3, _⟩ := hm
    exact h3
  have hlt : st.count < M := by omega
  have hcn : st.count.toNat = acc.length := by omega
  rw [List.take_length] at hov
  simp only [monitor_body, hlt, if_true, hj, Option.bind, hcn, hov]
  cases ho : overlaps acc (Monitor.mk i j rect)
  · obtain ⟨hs, e1, e2, e3⟩ := headsMatch_append st acc L hm (Monitor.mk i j rect) hL
    have ho1 : (acc.any fun a => decide (a.screen = i) && rect.intersect a.rect) = false := ho
    rw [hcn] at e2
    have e4 : HeadInfo.mk (some i) (j : Int) st.count true rect =
        head_of acc.length (Monitor.mk i j rect) := by
      simp [head_of, hc]
    refine ⟨{ heads := some (hs.set acc.length (head_of acc.length (Monitor.mk i j rect))),
              count := st.count + 1 }, ?_, ?_⟩
    · simp only [ho1, Bool.not_false, if_true, e1, e4, e2]
    · simpa [accept_step, ho] using e3
  · have ho1 : (acc.any fun a => decide (a.screen = i) && rect.intersect a.rect) = true := ho
    refine ⟨st, ?_, ?_⟩
    · simp [ho1]
    · simpa [accept_step, ho] using hm

theorem screen_monitors_succ (i : Nat) (monitors : List Rect) (n : Nat) :
    screen_monitors i monitors (n + 1) =
      screen_monitors i monitors n ++ (monitors[n]?.map fun r => Monitor.mk i n r).toList := by
  simp [screen_monitors, List.range_succ, List.flatMap_append, List.flatMap]

theorem screen_monitors_length (i : Nat) (monitors : List Rect) (n : Nat)
    (h : n ≤ monitors.length) : (screen_monitors i monitors n).length = n := by
  induction n with
  | zero => simp [screen_monitors]
  | succ k ih =>
    have hk : k < monitors.length := by omega
    rw [screen_monitors_succ, List.length_append, ih (by omega),
      List.getElem?_eq_getElem hk]
    simp

theorem foldl_accept_length (l acc : List Monitor) :
    (l.foldl accept_step acc).length ≤ acc.length + l.length := by
  induction l generalizing acc with
  | nil => simp
  | cons m t ih =>
    simp only [List.foldl_cons, List.length_cons]
    have h1 := ih (accept_step acc m)
    have h2 : (accept_step acc m).length ≤ acc.length + 1 := by
      unfold accept_step
      split <;> simp
    omega

theorem monitor_loop (M : Int) (i : Nat) (monitors : List Rect) (L : Nat) (st : HeadLoop)
    (acc : List Monitor) (hm : HeadsMatch st acc L) (n : Nat) (hn : n ≤ monitors.length)
    (hM : ((acc.length + n : Nat) : Int) ≤ M) (hL : acc.length + n ≤ L) :
    ∃ st1, for_loop (monitor_body M i monitors) n st = some st1 ∧
      HeadsMatch st1 ((screen_monitors i monitors n).foldl accept_step acc) L := by
  induction n with
  | zero => exact ⟨st, by simp [for_loop], by simpa [screen_monitors] using hm⟩
  | succ k ih =>
    have hk : k < monitors.length := by omega
    obtain ⟨st1, e1, m1⟩ := ih (by omega) (by push_cast at hM ⊢; omega) (by omega)
    have hlen := foldl_accept_length (screen_monitors i monitors k) acc
    rw [screen_monitors_length i monitors k (by omega)] at hlen
    obtain ⟨st2, e2, m2⟩ := monitor_body_eq M i monitors k monitors[k]
      (List.getElem?_eq_getElem hk) st1 _ L m1 (by omega) (by push_cast at hM ⊢; omega)
    refine ⟨st2, ?_, ?_⟩
    · rw [for_loop, e1]
      exact e2
    · rw [screen_monitors_succ, List.foldl_append, List.getElem?_eq_getElem hk]
      simpa using m2

theorem monitors_upto_succ (screens : List (Option (List Rect))) (n : Nat) :
    monitors_upto screens (n + 1) = monitors_upto screens n ++
      (match screens[n]? with
       | some (some monitors) => screen_monitors n monitors monitors.length
       | _ => []) := by
  simp [monitors_upto, List.range_succ, List.flatMap_append, List.flatMap]

theorem screen_loop (screens : List (Option (List Rect))) (M : Int) (L : Nat) (st : HeadLoop)
    (hm : HeadsMatch st [] L) (n : Nat) (hn : n ≤ screens.length)
    (hM : ((monitors_upto screens n).length : Int) ≤ M)
    (hL : (monitors_upto screens n).length ≤ L) :
    ∃ st1, for_loop (screen_body screens M) n st = some st1 ∧
      HeadsMatch st1 (accepted (monitors_upto screens n)) L := by
  induction n with
  | zero => exact ⟨st, by simp [for_loop], by simpa [monitors_upto, accepted] using hm⟩
  | succ k ih =>
    have hk : k < screens.length := by omega
    rw [monitors_upto_succ, List.length_append] at hM hL
    obtain ⟨st1, e1, m1⟩ := ih (by omega) (by push_cast at hM; omega) (by omega)
    have hacc : (accepted (monitors_upto screens k)).length ≤ (monitors_upto screens k).length := by
      have := foldl_accept_length (monitors_upto screens k) []
      simpa [accepted] using this
    rw [for_loop, e1, monitors_upto_succ]
    simp only [Option.bind, screen_body, List.getElem?_eq_getElem hk]
    rw [List.getElem?_eq_getElem hk] at hM hL
    cases hs : screens[k] with
    | none =>
      refine ⟨st1, rfl, ?_⟩
      simpa using m1
    | some monitors =>
      rw [hs] at hM hL
      simp only [screen_monitors_length k monitors monitors.length le_rfl] at hM hL
      obtain ⟨st2, e2, m2⟩ := monitor_loop M k monitors L st1 _ m1 monitors.length le_rfl
        (by push_cast at hM ⊢; omega) (by omega)
      refine ⟨st2, e2, ?_⟩
      simpa [accepted, List.foldl_append] using m2

theorem count_monitors_take (screens : List (Option (List Rect))) (n : Nat)
    (hn : n ≤ screens.length) :
    count_monitors (screens.take n) = ((monitors_upto screens n).length : Int) := by
  induction n with
  | zero => simp [count_monitors, monitors_upto]
  | succ k ih =>
    have hk : k < screens.length := by omega
    have ih1 := ih (by omega)
    unfold count_monitors at ih1 ⊢
    rw [List.take_succ, List.foldl_append, ih1, monitors_upto_succ,
      List.getElem?_eq_getElem hk]
    cases hs : screens[k] with
    | none => simp
    | some monitors => simp [screen_monitors_length k monitors monitors.length le_rfl]

theorem count_monitors_eq (screens : List (Option (List Rect))) :
    count_monitors screens = ((all_monitors screens).length : Int) := by
  have := count_monitors_take screens screens.length le_rfl
  rwa [List.take_length] at this

/-! ## The memory invariant -/

theorem slot_resized (arr : Option (List (Option Win))) (N M i : Nat) :
    slot (some (resized arr N M)) i = if i < M ∧ i < N then slot arr i else none := by
  by_cases h : i < M
  · simp only [slot, read_resized arr N M i h, Option.join, h, true_and]
    by_cases h2 : i < N <;> simp [h2, slot, Option.join]
  · have hn : (resized arr N M)[i]? = none := by
      apply List.getElem?_eq_none
      rw [resized_length]
      omega
    simp [slot, read, hn, h]

theorem inv_initial : Inv GUI.initial := by
  constructor <;> simp [GUI.initial, alen, slot, read]

theorem inv_realloc (env : Env) (s : GUI) (M : Int) (hM : 0 ≤ M) (hi : Inv s) :
    Inv { s with
      heads := some (List.replicate M.toNat env.new_head),
      prelude_windows := some (resized s.prelude_windows s.num_heads.toNat M.toNat),
      break_windows := some (resized s.break_windows s.num_heads.toNat M.toNat),
      active_prelude_count :=
        if s.active_prelude_count > M then M else s.active_prelude_count,
      active_break_count :=
        if s.active_break_count > M then M else s.active_break_count,
      num_heads := M,
      log := s.log ++ destroyed s.prelude_windows s.break_windows M.toNat s.num_heads.toNat } := by
  have h1 := hi.prelude_nonneg
  have h2 := hi.break_nonneg
  constructor
  · simp [alen, resized_length]
  · simp [alen, resized_length]
  · simp [alen, resized_length]
  · show -1 ≤ M
    omega
  · show 0 ≤ (if s.active_prelude_count > M then M else s.active_prelude_count)
    split <;> omega
  · show 0 ≤ (if s.active_break_count > M then M else s.active_break_count)
    split <;> omega
  · show (if s.active_prelude_count > M then M else s.active_prelude_count).toNat ≤
      alen (some (resized s.prelude_windows s.num_heads.toNat M.toNat))
    simp only [alen, resized_length]
    split <;> omega
  · show (if s.active_break_count > M then M else s.active_break_count).toNat ≤
      alen (some (resized s.break_windows s.num_heads.toNat M.toNat))
    simp only [alen, resized_length]
    split <;> omega
  · intro i hle
    show slot (some (resized s.prelude_windows s.num_heads.toNat M.toNat)) i = none
    have hle1 : (if s.active_prelude_count > M then M else s.active_prelude_count).toNat ≤ i :=
      hle
    rw [slot_resized]
    split
    · apply hi.prelude_tail
      split at hle1 <;> omega
    · rfl
  · intro i hle
    show slot (some (resized s.break_windows s.num_heads.toNat M.toNat)) i = none
    have hle1 : (if s.active_break_count > M then M else s.active_break_count).toNat ≤ i :=
      hle
    rw [slot_resized]
    split
    · apply hi.break_tail
      split at hle1 <;> omega
    · rfl
  · intro i w hw
    have hw1 : slot (some (resized s.prelude_windows s.num_heads.toNat M.toNat)) i = some w := hw
    rw [slot_resized] at hw1
    split at hw1
    · exact hi.prelude_fresh i w hw1
    · cases hw1
  · intro i w hw
    have hw1 : slot (some (resized s.break_windows s.num_heads.toNat M.toNat)) i = some w := hw
    rw [slot_resized] at hw1
    split at hw1
    · exact hi.break_fresh i w hw1
    · cases hw1
  · intro i j w hw hv
    have hw1 : slot (some (resized s.prelude_windows s.num_heads.toNat M.toNat)) i = some w := hw
    have hv1 : slot (some (resized s.prelude_windows s.num_heads.toNat M.toNat)) j = some w := hv
    rw [slot_resized] at hw1 hv1
    split at hw1
    · split at hv1
      · exact hi.prelude_inj i j w hw1 hv1
      · cases hv1
    · cases hw1
  · intro i j w hw hv
    have hw1 : slot (some (resized s.break_windows s.num_heads.toNat M.toNat)) i = some w := hw
    have hv1 : slot (some (resized s.break_windows s.num_heads.toNat M.toNat)) j = some w := hv
    rw [slot_resized] at hw1 hv1
    split at hw1
    · split at hv1
      · exact hi.break_inj i j w hw1 hv1
      · cases hv1
    · cases hw1

theorem grabFree_refl (s : GUI) : GrabFree s s :=
  ⟨[], by simp, by simp⟩

theorem grabFree_same (s s1 : GUI) (h : s1.log = s.log) : GrabFree s s1 :=
  ⟨[], by simp [h], by simp⟩

theorem grabFree_trans (s s1 s2 : GUI) (h1 : GrabFree s s1) (h2 : GrabFree s1 s2) :
    GrabFree s s2 := by
  obtain ⟨l1, e1, g1⟩ := h1
  obtain ⟨l2, e2, g2⟩ := h2
  refine ⟨l1 ++ l2, by rw [e2, e1, List.append_assoc], ?_⟩
  intro e he
  rcases List.mem_append.mp he with h | h
  · exact g1 e h
  · exact g2 e h

theorem destroyed_grabFree (pa ba : Option (List (Option Win))) (M n : Nat) :
    ∀ e ∈ destroyed pa ba M n, is_grab_effect e = false := by
  intro e he
  simp only [destroyed, destroyed_slot, List.mem_flatMap, List.mem_append, List.mem_map] at he
  obtain ⟨i, _, h | h⟩ := he
  · obtain ⟨w, _, rfl⟩ := h
    rfl
  · obtain ⟨w, _, rfl⟩ := h
    rfl

theorem init_multihead_mem_inv (env : Env) (s : GUI) (M : Int) (hM : 0 ≤ M) (hi : Inv s) :
    ∃ s1, init_multihead_mem env M s = some s1 ∧ Inv s1 ∧ s1.num_heads = M ∧
      M.toNat ≤ alen s1.heads ∧ s1.heads ≠ none ∧ Frame s s1 ∧
      s1.active_prelude_count ≤ s.active_prelude_count ∧
      s1.active_break_count ≤ s.active_break_count := by
  by_cases hre : M ≠ s.num_heads ∨ s.num_heads ≤ 0
  · refine ⟨_, init_multihead_mem_realloc env s M hM hi.num_le
      (by rw [hi.break_len]; exact hi.num_le) hre, inv_realloc env s M hM hi, rfl, ?_, ?_,
      ⟨rfl, rfl, rfl, rfl, rfl, rfl, rfl, rfl, rfl, rfl, rfl,
        ⟨_, rfl, destroyed_grabFree _ _ _ _⟩⟩, ?_, ?_⟩
    · simp [alen]
    · simp
    · show (if s.active_prelude_count > M then M else s.active_prelude_count) ≤ _
      split <;> omega
    · show (if s.active_break_count > M then M else s.active_break_count) ≤ _
      split <;> omega
  · have hMN : M = s.num_heads := by
      by_contra hc
      exact hre (Or.inl hc)
    have hpos : 0 < s.num_heads := by
      by_contra hc
      exact hre (Or.inr (by omega))
    have hle : M.toNat ≤ alen s.heads := by
      rw [hi.heads_len, hMN]
      exact hi.num_le
    refine ⟨s, init_multihead_mem_same env s M hre, hi, hMN.symm, hle, ?_,
      ⟨rfl, rfl, rfl, rfl, rfl, rfl, rfl, rfl, rfl, rfl, rfl, grabFree_refl s⟩,
      le_rfl, le_rfl⟩
    intro hc
    rw [hc] at hle
    simp only [alen] at hle
    omega

theorem inv_of_eq (s s1 : GUI) (hi : Inv s)
    (h1 : s1.prelude_windows = s.prelude_windows) (h2 : s1.break_windows = s.break_windows)
    (h3 : alen s1.heads = alen s.heads) (h4 : s1.num_heads = s.num_heads)
    (h5 : s1.active_prelude_count = s.active_prelude_count)
    (h6 : s1.active_break_count = s.active_break_count)
    (h7 : s1.next_win = s.next_win) : Inv s1 := by
  constructor
  · rw [h1, h2]; exact hi.break_len
  · rw [h1, h3]; exact hi.heads_len
  · rw [h1, h4]; exact hi.num_le
  · rw [h4]; exact hi.num_ge
  · rw [h5]; exact hi.prelude_nonneg
  · rw [h6]; exact hi.break_nonneg
  · rw [h1, h5]; exact hi.prelude_le
  · rw [h2, h6]; exact hi.break_le
  · rw [h1, h5]; exact hi.prelude_tail
  · rw [h2, h6]; exact hi.break_tail
  · rw [h1, h7]; exact hi.prelude_fresh
  · rw [h2, h7]; exact hi.break_fresh
  · rw [h1]; exact hi.prelude_inj
  · rw [h2]; exact hi.break_inj

theorem accepted_length_le (ms : List Monitor) : (accepted ms).length ≤ ms.length := by
  have := foldl_accept_length ms []
  simpa [accepted] using this

theorem init_gtk_multihead_none (env : Env) (s : GUI) (h : env.screens = []) :
    init_gtk_multihead env s = some s := by
  simp [init_gtk_multihead, h]

theorem init_gtk_multihead_eq (env : Env) (s : GUI) (hi : Inv s) (hne : env.screens ≠ []) :
    ∃ s1 hs, init_multihead_mem env (count_monitors env.screens) s = some s1 ∧
      init_gtk_multihead env s = some { s1 with
        heads := some hs,
        num_heads := ((accepted (all_monitors env.screens)).length : Int) } ∧
      Inv s1 ∧ hs.length = alen s1.heads ∧
      (∀ k : Nat, ∀ h : k < (accepted (all_monitors env.screens)).length,
        hs[k]? = some (head_of k ((accepted (all_monitors env.screens)).get ⟨k, h⟩))) := by
  have hM : 0 ≤ count_monitors env.screens := by
    rw [count_monitors_eq]; omega
  obtain ⟨s1, e1, i1, n1, l1, nn1, _⟩ := init_multihead_mem_inv env s _ hM hi
  have hlen : 1 ≤ env.screens.length := by
    cases hsc : env.screens with
    | nil => exact absurd hsc hne
    | cons a t => simp
  cases hh : s1.heads with
  | none => exact absurd hh nn1
  | some hs0 =>
    have hm0 : HeadsMatch { heads := s1.heads, count := 0 } [] hs0.length := by
      refine ⟨hs0, hh, rfl, by simp, ?_⟩
      intro k hk
      simp at hk
    have hL : (all_monitors env.screens).length ≤ hs0.length := by
      have := l1
      rw [hh, count_monitors_eq] at this
      simpa [alen] using this
    obtain ⟨st, e2, m2⟩ := screen_loop env.screens (count_monitors env.screens) hs0.length
      { heads := s1.heads, count := 0 } hm0 env.screens.length le_rfl
      (by rw [count_monitors_eq]; rfl) hL
    obtain ⟨hs, g1, g2, g3, g4⟩ := m2
    refine ⟨s1, hs, e1, ?_, i1, by simp [hh, alen, g2], g4⟩
    have hge : env.screens.length ≥ 1 := hlen
    simp only [init_gtk_multihead, hge, if_true, e1, Option.bind, e2, g1, g3]
    rfl

theorem inv_set_heads (s : GUI) (hi : Inv s) (hs : List HeadInfo) (n : Int)
    (h1 : hs.length = alen s.heads) (h2 : n.toNat ≤ alen s.heads) (h3 : -1 ≤ n) :
    Inv { s with heads := some hs, num_heads := n } := by
  have hl := hi.heads_len
  constructor
  · exact hi.break_len
  · show alen (some hs) = alen s.prelude_windows
    simp only [alen, h1]
    exact hl
  · show n.toNat ≤ alen s.prelude_windows
    omega
  · exact h3
  · exact hi.prelude_nonneg
  · exact hi.break_nonneg
  · exact hi.prelude_le
  · exact hi.break_le
  · exact hi.prelude_tail
  · exact hi.break_tail
  · exact hi.prelude_fresh
  · exact hi.break_fresh
  · exact hi.prelude_inj
  · exact hi.break_inj

theorem frame_refl (s : GUI) : Frame s s :=
  ⟨rfl, rfl, rfl, rfl, rfl, rfl, rfl, rfl, rfl, rfl, rfl, grabFree_refl s⟩

theorem frame_trans (s s1 s2 : GUI) (h1 : Frame s s1) (h2 : Frame s1 s2) : Frame s s2 := by
  constructor
  · rw [h2.grab_wanted, h1.grab_wanted]
  · rw [h2.grab_handle, h1.grab_handle]
  · rw [h2.grab_retry_connection, h1.grab_retry_connection]
  · rw [h2.timers, h1.timers]
  · rw [h2.next_timer, h1.next_timer]
  · rw [h2.next_win, h1.next_win]
  · rw [h2.main_window, h1.main_window]
  · rw [h2.muted, h1.muted]
  · rw [h2.active_break_id, h1.active_break_id]
  · rw [h2.break_window_destroy, h1.break_window_destroy]
  · rw [h2.prelude_window_destroy, h1.prelude_window_destroy]
  · exact grabFree_trans s s1 s2 h1.log h2.log

theorem desktop_loop (env : Env) (s : GUI) (n : Nat) (h : n ≤ alen s.heads)
    (st : DesktopLoop) :
    ∃ st1, for_loop (init_multihead_desktop_body env s) n st = some st1 := by
  induction n with
  | zero => exact ⟨st, rfl⟩
  | succ k ih =>
    obtain ⟨st1, e1⟩ := ih (by omega)
    obtain ⟨hd, hr⟩ := read_of_lt s.heads k (by omega)
    rw [for_loop, e1]
    simp only [Option.bind, init_multihead_desktop_body, hr]
    by_cases h1 : st1.done = true
    · exact ⟨st1, by simp [h1]⟩
    · by_cases h2 : hd.valid = true <;> simp [h1, h2]

theorem init_multihead_desktop_eq (env : Env) (s : GUI) (h : s.num_heads.toNat ≤ alen s.heads) :
    ∃ l w ht, init_multihead_desktop env s =
      some { s with log := s.log ++ l, screen_width := w, screen_height := ht } ∧
      ∀ e ∈ l, is_grab_effect e = false := by
  obtain ⟨st, e⟩ := desktop_loop env s s.num_heads.toNat h
    { width := 0, height := 0, done := false }
  simp only [init_multihead_desktop, e, Option.bind]
  by_cases hc : s.screen_width ≠ st.width ∨ s.screen_height ≠ st.height
  · by_cases hm : s.main_window = true
    · refine ⟨[Effect.relocate_window st.width st.height], st.width, st.height, ?_, ?_⟩
      · simp only [hc, if_true, hm]
      · intro e he
        simp only [List.mem_singleton] at he
        subst he
        rfl
    · refine ⟨[], st.width, st.height, ?_, by simp⟩
      simp only [hc, if_true, hm, List.append_nil]
      rfl
  · refine ⟨[], s.screen_width, s.screen_height, ?_, by simp⟩
    simp only [hc, if_false, List.append_nil]

theorem init_multihead_desktop_inv (env : Env) (s : GUI) (hi : Inv s) :
    ∃ s1, init_multihead_desktop env s = some s1 ∧ Inv s1 ∧ Frame s s1 ∧
      s1.prelude_windows = s.prelude_windows ∧ s1.break_windows = s.break_windows ∧
      s1.heads = s.heads ∧ s1.num_heads = s.num_heads ∧
      s1.active_prelude_count = s.active_prelude_count ∧
      s1.active_break_count = s.active_break_count := by
  obtain ⟨l, w, ht, e, hl⟩ := init_multihead_desktop_eq env s
    (by rw [hi.heads_len]; exact hi.num_le)
  exact ⟨_, e, inv_of_eq s _ hi rfl rfl rfl rfl rfl rfl rfl,
    ⟨rfl, rfl, rfl, rfl, rfl, rfl, rfl, rfl, rfl, rfl, rfl, ⟨l, rfl, hl⟩⟩,
    rfl, rfl, rfl, rfl, rfl, rfl⟩

theorem init_multihead_gtk_inv (env : Env) (s : GUI) (hi : Inv s) :
    ∃ s1, init_gtk_multihead env s = some s1 ∧ Inv s1 ∧ Frame s s1 ∧
      s1.active_prelude_count ≤ s.active_prelude_count ∧
      s1.active_break_count ≤ s.active_break_count ∧
      (env.screens ≠ [] → 0 ≤ s1.num_heads) ∧ (env.screens = [] → s1 = s) := by
  by_cases hne : env.screens = []
  · exact ⟨s, init_gtk_multihead_none env s hne, hi, frame_refl s, le_rfl, le_rfl,
      fun h => absurd hne h, fun _ => rfl⟩
  · obtain ⟨s1, hs, e1, e2, i1, l1, _⟩ := init_gtk_multihead_eq env s hi hne
    have hM : 0 ≤ count_monitors env.screens := by
      rw [count_monitors_eq]; omega
    obtain ⟨s1', e1', _, n1, l2, _, f1, c1, c2⟩ := init_multihead_mem_inv env s _ hM hi
    rw [e1] at e1'
    cases e1'
    have hA : (accepted (all_monitors env.screens)).length ≤ alen s1.heads := by
      have h1 := accepted_length_le (all_monitors env.screens)
      rw [count_monitors_eq] at l2
      simp only [Int.toNat_ofNat] at l2
      omega
    refine ⟨_, e2, inv_set_heads s1 i1 hs _ l1 (by simpa using hA) (by omega), ?_, c1, c2,
      fun _ => by simp, fun h => absurd h hne⟩
    exact frame_trans s s1 _ f1
      ⟨rfl, rfl, rfl, rfl, rfl, rfl, rfl, rfl, rfl, rfl, rfl, grabFree_same _ _ rfl⟩

theorem init_multihead_inv (env : Env) (s : GUI) (hi : Inv s) :
    ∃ s1, init_multihead env s = some s1 ∧ Inv s1 ∧ Frame s s1 ∧
      s1.active_prelude_count ≤ s.active_prelude_count ∧
      s1.active_break_count ≤ s.active_break_count ∧ 0 ≤ s1.num_heads := by
  obtain ⟨s1, e1, i1, f1, c1, c2, p1, p2⟩ := init_multihead_gtk_inv env s hi
  by_cases hneg : s1.num_heads = -1
  · -- the synthetic single head
    obtain ⟨s2, e2, i2, n2, l2, nn2, f2, d1, d2⟩ :=
      init_multihead_mem_inv env s1 1 (by omega) i1
    cases hh : s2.heads with
    | none => exact absurd hh nn2
    | some hs =>
      have hlen : 0 < hs.length := by
        rw [hh] at l2
        simpa [alen] using l2
      have i3 : Inv { s2 with heads := some (hs.set 0 (fallback_head env hs[0])) } := by
        have := inv_set_heads s2 i2 (hs.set 0 (fallback_head env hs[0])) s2.num_heads
          (by simp [hh, alen]) (by rw [i2.heads_len]; exact i2.num_le) i2.num_ge
        exact this
      obtain ⟨s4, e4, i4, f4, q1, q2, q3, q4, q5, q6⟩ :=
        init_multihead_desktop_inv env _ i3
      refine ⟨s4, ?_, i4, ?_, ?_, ?_, ?_⟩
      · simp only [init_multihead, e1, Option.bind, hneg, if_true, e2, hh, read, write, hlen,
          List.getElem?_eq_getElem hlen]
        exact e4
      · exact frame_trans s s1 s4 f1 (frame_trans s1 s2 s4 f2
          (frame_trans s2 { s2 with heads := some (hs.set 0 (fallback_head env hs[0])) } s4
            ⟨rfl, rfl, rfl, rfl, rfl, rfl, rfl, rfl, rfl, rfl, rfl, grabFree_same _ _ rfl⟩ f4))
      · rw [q5]; exact le_trans d1 c1
      · rw [q6]; exact le_trans d2 c2
      · rw [q4]; show 0 ≤ s2.num_heads
        omega
  · obtain ⟨s4, e4, i4, f4, q1, q2, q3, q4, q5, q6⟩ := init_multihead_desktop_inv env s1 i1
    refine ⟨s4, ?_, i4, frame_trans s s1 s4 f1 f4, by rw [q5]; exact c1, by rw [q6]; exact c2,
      ?_⟩
    · simp only [init_multihead, e1, Option.bind, hneg, if_false]
      exact e4
    · rw [q4]
      by_cases hne : env.screens = []
      · have := p2 hne
        subst this
        have := hi.num_ge
        omega
      · exact p1 hne

/-! ## The grab controller leaves the arrays alone -/

theorem arrayFrame_refl (s : GUI) : ArrayFrame s s := by
  constructor <;> rfl

theorem arrayFrame_trans (s s1 s2 : GUI) (h1 : ArrayFrame s s1) (h2 : ArrayFrame s1 s2) :
    ArrayFrame s s2 := by
  constructor
  · rw [h2.prelude_windows, h1.prelude_windows]
  · rw [h2.break_windows, h1.break_windows]
  · rw [h2.heads, h1.heads]
  · rw [h2.num_heads, h1.num_heads]
  · rw [h2.active_prelude_count, h1.active_prelude_count]
  · rw [h2.active_break_count, h1.active_break_count]
  · rw [h2.break_window_destroy, h1.break_window_destroy]
  · rw [h2.prelude_window_destroy, h1.prelude_window_destroy]
  · rw [h2.active_break_id, h1.active_break_id]
  · rw [h2.next_win, h1.next_win]
  · rw [h2.main_window, h1.main_window]
  · rw [h2.muted, h1.muted]
  · rw [h2.screen_width, h1.screen_width]
  · rw [h2.screen_height, h1.screen_height]

theorem ungrab_none (s : GUI) (h : s.grab_handle = none) :
    ungrab s = { s with grab_wanted := false } := by
  simp only [ungrab, h]

theorem ungrab_some (s : GUI) (g : Grab) (h : s.grab_handle = some g) :
    ungrab s = { disconnect { s with grab_wanted := false } with
      log := (disconnect { s with grab_wanted := false }).log ++ [Effect.release g],
      grab_handle := none } := by
  simp only [ungrab, h]

theorem interrupt_grab_none (s : GUI) (h : s.grab_handle = none) : interrupt_grab s = s := by
  simp only [interrupt_grab, h]

theorem interrupt_grab_some (s : GUI) (g : Grab) (h : s.grab_handle = some g) :
    interrupt_grab s =
      if connected s = false then
        { s with
          grab_wanted := true, grab_handle := none,
          timers := s.timers ++ [s.next_timer], next_timer := s.next_timer + 1,
          log := s.log ++ [Effect.release g, Effect.timeout_connect s.next_timer] }
      else
        { s with
          grab_wanted := true, grab_handle := none, log := s.log ++ [Effect.release g] } := by
  have hc :
      connected
        { s with grab_wanted := true, log := s.log ++ [Effect.release g], grab_handle := none } =
      connected s := rfl
  simp only [interrupt_grab, h, hc]
  split <;> simp

theorem grab_idle (env : Env) (s : GUI)
    (h : ¬ (s.break_windows ≠ none ∧ s.active_break_count > 0)) :
    grab env s = some (decide (s.grab_handle ≠ none), s) := by
  unfold grab
  rw [if_neg h]
  rfl

theorem grab_fault (env : Env) (s : GUI)
    (h : s.break_windows ≠ none ∧ s.active_break_count > 0)
    (hl : for_loop (grab_body s.break_windows) s.active_break_count.toNat [] = none) :
    grab env s = none := by
  unfold grab
  rw [if_pos h, hl]
  rfl

theorem grab_held (env : Env) (s : GUI) (ws : List Win) (g : Grab)
    (h : s.break_windows ≠ none ∧ s.active_break_count > 0)
    (hl : for_loop (grab_body s.break_windows) s.active_break_count.toNat [] = some ws)
    (hg : s.grab_handle = some g) :
    grab env s = some (true, { s with grab_wanted := true }) := by
  unfold grab
  rw [if_pos h, hl]
  simp [Option.bind, hg]

theorem grab_acquire (env : Env) (s : GUI) (ws : List Win) (g : Grab)
    (h : s.break_windows ≠ none ∧ s.active_break_count > 0)
    (hl : for_loop (grab_body s.break_windows) s.active_break_count.toNat [] = some ws)
    (hg : s.grab_handle = none) (hr : env.grab_result = some g) :
    grab env s = some (true, { s with
      grab_wanted := true, grab_handle := some g,
      log := s.log ++ [Effect.capture ws (some g)] }) := by
  unfold grab
  rw [if_pos h, hl]
  simp [Option.bind, hg, hr]

theorem grab_fail (env : Env) (s : GUI) (ws : List Win)
    (h : s.break_windows ≠ none ∧ s.active_break_count > 0)
    (hl : for_loop (grab_body s.break_windows) s.active_break_count.toNat [] = some ws)
    (hg : s.grab_handle = none) (hr : env.grab_result = none) :
    grab env s = some (false,
      if connected s = false then
        { s with
          grab_wanted := true,
          grab_retry_connection := some s.next_timer,
          timers := s.timers ++ [s.next_timer], next_timer := s.next_timer + 1,
          log := s.log ++ [Effect.capture ws none, Effect.timeout_connect s.next_timer] }
      else { s with grab_wanted := true, log := s.log ++ [Effect.capture ws none] }) := by
  have hc :
      connected
        { s with grab_wanted := true, grab_handle := none,
                 log := s.log ++ [Effect.capture ws none] } =
      connected s := rfl
  unfold grab
  rw [if_pos h, hl]
  by_cases hcn : connected s = false
  · simp [Option.bind, hg, hr, hc, hcn]
  · simp [Option.bind, hg, hr, hc, hcn]

theorem disconnect_arrayFrame (s : GUI) : ArrayFrame s (disconnect s) := by
  unfold disconnect
  split
  · exact arrayFrame_refl s
  · split
    · constructor <;> rfl
    · exact arrayFrame_refl s

theorem ungrab_arrayFrame (s : GUI) : ArrayFrame s (ungrab s) := by
  cases hg : s.grab_handle with
  | none =>
    rw [ungrab_none s hg]
    constructor <;> rfl
  | some g =>
    rw [ungrab_some s g hg]
    have h := disconnect_arrayFrame { s with grab_wanted := false }
    exact arrayFrame_trans s (disconnect { s with grab_wanted := false }) _
      (arrayFrame_trans s { s with grab_wanted := false } _ (by constructor <;> rfl) h)
      (by constructor <;> rfl)

theorem interrupt_grab_arrayFrame (s : GUI) : ArrayFrame s (interrupt_grab s) := by
  cases hg : s.grab_handle with
  | none =>
    rw [interrupt_grab_none s hg]
    exact arrayFrame_refl s
  | some g =>
    rw [interrupt_grab_some s g hg]
    split <;> constructor <;> rfl

theorem grab_arrayFrame (env : Env) (s : GUI) (r : Bool × GUI) (h : grab env s = some r) :
    ArrayFrame s r.2 := by
  by_cases hc : s.break_windows ≠ none ∧ s.active_break_count > 0
  · cases hl : for_loop (grab_body s.break_windows) s.active_break_count.toNat [] with
    | none =>
      rw [grab_fault env s hc hl] at h
      cases h
    | some ws =>
      cases hg : s.grab_handle with
      | some g =>
        rw [grab_held env s ws g hc hl hg] at h
        cases h
        constructor <;> rfl
      | none =>
        cases hr : env.grab_result with
        | some g =>
          rw [grab_acquire env s ws g hc hl hg hr] at h
          cases h
          constructor <;> rfl
        | none =>
          rw [grab_fail env s ws hc hl hg hr] at h
          cases h
          show ArrayFrame s (if connected s = false then _ else _)
          split <;> constructor <;> rfl
  · rw [grab_idle env s hc] at h
    cases h
    exact arrayFrame_refl s

theorem on_grab_retry_timer_arrayFrame (env : Env) (s : GUI) (r : Bool × GUI)
    (h : on_grab_retry_timer env s = some r) : ArrayFrame s r.2 := by
  unfold on_grab_retry_timer at h
  split at h
  · cases hg : grab env s with
    | none => simp [hg] at h
    | some r1 =>
      simp only [hg, Option.bind] at h
      cases h
      exact grab_arrayFrame env s r1 hg
  · cases h
    exact arrayFrame_refl s

theorem fire_grab_retry_timer_arrayFrame (env : Env) (t : TimerId) (s s1 : GUI)
    (h : fire_grab_retry_timer env t s = some s1) : ArrayFrame s s1 := by
  unfold fire_grab_retry_timer at h
  split at h
  · cases hg : on_grab_retry_timer env s with
    | none => simp [hg] at h
    | some r =>
      simp only [hg, Option.bind] at h
      have hf := on_grab_retry_timer_arrayFrame env s r hg
      split at h
      · cases h
        exact hf
      · cases h
        exact arrayFrame_trans s r.2 _ hf (by constructor <;> rfl)
  · cases h

theorem inv_of_arrayFrame (s s1 : GUI) (hi : Inv s) (hf : ArrayFrame s s1) : Inv s1 :=
  inv_of_eq s s1 hi hf.prelude_windows hf.break_windows (by rw [hf.heads]) hf.num_heads
    hf.active_prelude_count hf.active_break_count hf.next_win

/-! ## Every operation keeps the memory invariant -/

theorem alen_map {α : Type} (arr : Option (List α)) (f : List α → List α)
    (h : ∀ l, (f l).length = l.length) : alen (arr.map f) = alen arr := by
  cases arr <;> simp [alen, h]

theorem slot_cleared (arr : Option (List (Option Win))) (n i : Nat) :
    slot (arr.map fun l => cleared l n) i = if i < n then none else slot arr i := by
  cases arr with
  | none => simp [slot, read]
  | some l =>
    by_cases hi : i < l.length
    · simp only [Option.map, slot, read, Option.bind, cleared_getElem? l n i hi,
        List.getElem?_eq_getElem hi]
      split <;> rfl
    · have h1 : (cleared l n)[i]? = none := by
        apply List.getElem?_eq_none
        rw [cleared_length]
        omega
      have h2 : l[i]? = none := List.getElem?_eq_none (by omega)
      simp [slot, read, h1, h2]

theorem filled_getElem? (arr : List (Option Win)) (nw n i : Nat) (h : i < arr.length) :
    (filled arr nw n)[i]? = some (if i < n then some (nw + i) else arr[i]) := by
  simp [filled, List.getElem?_eq_getElem, h]

theorem slot_filled (arr : Option (List (Option Win))) (nw n i : Nat) (hn : n ≤ alen arr) :
    slot (arr.map fun l => filled l nw n) i = if i < n then some (nw + i) else slot arr i := by
  cases arr with
  | none =>
    simp only [alen] at hn
    have : ¬ i < n := by omega
    simp [slot, read, this]
  | some l =>
    simp only [alen] at hn
    by_cases hi : i < l.length
    · simp only [Option.map, slot, read, Option.bind, filled_getElem? l nw n i hi,
        List.getElem?_eq_getElem hi]
      split <;> rfl
    · have h1 : (filled l nw n)[i]? = none := by
        apply List.getElem?_eq_none
        rw [filled_length]
        omega
      have h2 : l[i]? = none := List.getElem?_eq_none (by omega)
      have : ¬ i < n := by omega
      simp [slot, read, h1, h2, this]

theorem inv_stopped (s : GUI) (hi : Inv s) : Inv (stopped s) :=
  inv_of_eq s (stopped s) hi rfl rfl rfl rfl rfl rfl rfl

theorem flagged_stopped (s : GUI) (hi : Inv s) : Flagged (stopped s) := by
  have h1 := hi.prelude_nonneg
  have h2 := hi.break_nonneg
  constructor
  · by_cases h : s.active_prelude_count > 0
    · right; simp [stopped, h]
    · left; show s.active_prelude_count = 0; omega
  · by_cases h : s.active_break_count > 0
    · right; simp [stopped, h]
    · left; show s.active_break_count = 0; omega

theorem hide_break_window_inv (s : GUI) (hi : Inv s) :
    hide_break_window s = some (ungrab (stopped s)) ∧ Inv (ungrab (stopped s)) ∧
      Flagged (ungrab (stopped s)) := by
  have hf := ungrab_arrayFrame (stopped s)
  refine ⟨hide_break_window_eq s hi.prelude_le hi.break_le,
    inv_of_arrayFrame _ _ (inv_stopped s hi) hf, ?_⟩
  have hfl := flagged_stopped s hi
  unfold Flagged at hfl ⊢
  rw [hf.active_prelude_count, hf.active_break_count, hf.prelude_window_destroy,
    hf.break_window_destroy]
  exact hfl

theorem inv_collected (s : GUI) (hi : Inv s) : Inv (collected s) := by
  have hc : ∀ (n : Nat) (l : List (Option Win)), (cleared l n).length = l.length :=
    fun n l => cleared_length l n
  constructor
  · show alen (if s.break_window_destroy then _ else _) =
      alen (if s.prelude_window_destroy then _ else _)
    split <;> split <;> (try simp only [alen_map _ _ (hc _)]) <;> exact hi.break_len
  · show alen s.heads = alen (if s.prelude_window_destroy then _ else _)
    split <;> (try simp only [alen_map _ _ (hc _)]) <;> exact hi.heads_len
  · show s.num_heads.toNat ≤ alen (if s.prelude_window_destroy then _ else _)
    split <;> (try simp only [alen_map _ _ (hc _)]) <;> exact hi.num_le
  · exact hi.num_ge
  · show 0 ≤ (if s.prelude_window_destroy then 0 else s.active_prelude_count)
    split
    · exact le_rfl
    · exact hi.prelude_nonneg
  · show 0 ≤ (if s.break_window_destroy then 0 else s.active_break_count)
    split
    · exact le_rfl
    · exact hi.break_nonneg
  · show (if s.prelude_window_destroy then 0 else s.active_prelude_count).toNat ≤
      alen (if s.prelude_window_destroy then _ else _)
    split
    · simp
    · exact hi.prelude_le
  · show (if s.break_window_destroy then 0 else s.active_break_count).toNat ≤
      alen (if s.break_window_destroy then _ else _)
    split
    · simp
    · exact hi.break_le
  · intro i hle
    show slot (if s.prelude_window_destroy then _ else _) i = none
    have hle1 : (if s.prelude_window_destroy then 0 else s.active_prelude_count).toNat ≤ i := hle
    split
    · rw [slot_cleared]
      split
      · rfl
      · exact hi.prelude_tail i (by omega)
    · rename_i hf
      rw [if_neg hf] at hle1
      exact hi.prelude_tail i hle1
  · intro i hle
    show slot (if s.break_window_destroy then _ else _) i = none
    have hle1 : (if s.break_window_destroy then 0 else s.active_break_count).toNat ≤ i := hle
    split
    · rw [slot_cleared]
      split
      · rfl
      · exact hi.break_tail i (by omega)
    · rename_i hf
      rw [if_neg hf] at hle1
      exact hi.break_tail i hle1
  · intro i w hw
    have hw1 : slot (if s.prelude_window_destroy then _ else _) i = some w := hw
    split at hw1
    · rw [slot_cleared] at hw1
      split at hw1
      · cases hw1
      · exact hi.prelude_fresh i w hw1
    · exact hi.prelude_fresh i w hw1
  · intro i w hw
    have hw1 : slot (if s.break_window_destroy then _ else _) i = some w := hw
    split at hw1
    · rw [slot_cleared] at hw1
      split at hw1
      · cases hw1
      · exact hi.break_fresh i w hw1
    · exact hi.break_fresh i w hw1
  · intro i j w hw hv
    have hw1 : slot (if s.prelude_window_destroy then _ else _) i = some w := hw
    have hv1 : slot (if s.prelude_window_destroy then _ else _) j = some w := hv
    by_cases hf : s.prelude_window_destroy = true
    · rw [if_pos hf, slot_cleared] at hw1 hv1
      split at hw1
      · cases hw1
      · split at hv1
        · cases hv1
        · exact hi.prelude_inj i j w hw1 hv1
    · rw [if_neg hf] at hw1 hv1
      exact hi.prelude_inj i j w hw1 hv1
  · intro i j w hw hv
    have hw1 : slot (if s.break_window_destroy then _ else _) i = some w := hw
    have hv1 : slot (if s.break_window_destroy then _ else _) j = some w := hv
    by_cases hf : s.break_window_destroy = true
    · rw [if_pos hf, slot_cleared] at hw1 hv1
      split at hw1
      · cases hw1
      · split at hv1
        · cases hv1
        · exact hi.break_inj i j w hw1 hv1
    · rw [if_neg hf] at hw1 hv1
      exact hi.break_inj i j w hw1 hv1

theorem collected_empty (s : GUI) (hi : Inv s) (hf : Flagged s) :
    (collected s).active_prelude_count = 0 ∧ (collected s).active_break_count = 0 ∧
      (∀ i : Nat, slot (collected s).prelude_windows i = none) ∧
      (∀ i : Nat, slot (collected s).break_windows i = none) := by
  have hic := inv_collected s hi
  have hp : (collected s).active_prelude_count = 0 := by
    show (if s.prelude_window_destroy then 0 else s.active_prelude_count) = 0
    rcases hf.1 with h | h
    · split <;> simp [h]
    · simp [h]
  have hb : (collected s).active_break_count = 0 := by
    show (if s.break_window_destroy then 0 else s.active_break_count) = 0
    rcases hf.2 with h | h
    · split <;> simp [h]
    · simp [h]
  refine ⟨hp, hb, fun i => hic.prelude_tail i ?_, fun i => hic.break_tail i ?_⟩
  · rw [hp]; simp
  · rw [hb]; simp

theorem create_preamble (env : Env) (s : GUI) (hi : Inv s) :
    ∃ s2, hide_break_window s = some (ungrab (stopped s)) ∧
      init_multihead env (ungrab (stopped s)) = some s2 ∧
      collect_garbage s2 = some (collected s2) ∧
      Inv s2 ∧ Flagged s2 ∧ Frame (ungrab (stopped s)) s2 ∧ 0 ≤ s2.num_heads := by
  obtain ⟨e1, i1, f1⟩ := hide_break_window_inv s hi
  obtain ⟨s2, e2, i2, fr, c1, c2, n2⟩ := init_multihead_inv env _ i1
  refine ⟨s2, e1, e2, collect_garbage_eq s2 i2.prelude_le i2.break_le, i2, ?_, fr, n2⟩
  have p1 := i2.prelude_nonneg
  have p2 := i2.break_nonneg
  constructor
  · rcases f1.1 with h | h
    · left; omega
    · right; rw [fr.prelude_window_destroy]; exact h
  · rcases f1.2 with h | h
    · left; omega
    · right; rw [fr.break_window_destroy]; exact h

theorem inv_prelude_created (break_id : BreakId) (s : GUI) (hi : Inv s) (hn : 0 ≤ s.num_heads)
    (he : ∀ i : Nat, slot s.prelude_windows i = none) : Inv (prelude_created break_id s) := by
  have hc : ∀ l : List (Option Win),
      (filled l s.next_win s.num_heads.toNat).length = l.length :=
    fun l => filled_length l _ _
  constructor
  · show alen s.break_windows = alen (s.prelude_windows.map _)
    rw [alen_map _ _ hc]; exact hi.break_len
  · show alen s.heads = alen (s.prelude_windows.map _)
    rw [alen_map _ _ hc]; exact hi.heads_len
  · show s.num_heads.toNat ≤ alen (s.prelude_windows.map _)
    rw [alen_map _ _ hc]; exact hi.num_le
  · exact hi.num_ge
  · exact hn
  · exact hi.break_nonneg
  · show s.num_heads.toNat ≤ alen (s.prelude_windows.map _)
    rw [alen_map _ _ hc]; exact hi.num_le
  · exact hi.break_le
  · intro i hle
    show slot (s.prelude_windows.map _) i = none
    have hle1 : s.num_heads.toNat ≤ i := hle
    rw [slot_filled _ _ _ _ hi.num_le, if_neg (by omega)]
    exact he i
  · exact hi.break_tail
  · intro i w hw
    have hw1 : slot (s.prelude_windows.map _) i = some w := hw
    rw [slot_filled _ _ _ _ hi.num_le, he i] at hw1
    show w < s.next_win + s.num_heads.toNat
    split at hw1
    · cases hw1
      omega
    · cases hw1
  · intro i w hw
    have := hi.break_fresh i w hw
    show w < s.next_win + s.num_heads.toNat
    omega
  · intro i j w hw hv
    have hw1 : slot (s.prelude_windows.map _) i = some w := hw
    have hv1 : slot (s.prelude_windows.map _) j = some w := hv
    rw [slot_filled _ _ _ _ hi.num_le, he i] at hw1
    rw [slot_filled _ _ _ _ hi.num_le, he j] at hv1
    split at hw1
    · split at hv1
      · cases hw1
        simp only [Option.some.injEq] at hv1
        omega
      · cases hv1
    · cases hw1
  · exact hi.break_inj

theorem inv_break_created (env : Env) (break_id : BreakId) (break_hint : BreakHint)
    (kind : WindowKind) (s : GUI) (hi : Inv s) (hn : 0 ≤ s.num_heads)
    (he : ∀ i : Nat, slot s.break_windows i = none) :
    Inv (break_created env break_id break_hint kind s) := by
  have hc : ∀ l : List (Option Win),
      (filled l s.next_win s.num_heads.toNat).length = l.length :=
    fun l => filled_length l _ _
  have hnb : s.num_heads.toNat ≤ alen s.break_windows := by
    rw [hi.break_len]; exact hi.num_le
  constructor
  · show alen (s.break_windows.map _) = alen s.prelude_windows
    rw [alen_map _ _ hc]; exact hi.break_len
  · exact hi.heads_len
  · exact hi.num_le
  · exact hi.num_ge
  · exact hi.prelude_nonneg
  · exact hn
  · exact hi.prelude_le
  · show s.num_heads.toNat ≤ alen (s.break_windows.map _)
    rw [alen_map _ _ hc]; exact hnb
  · exact hi.prelude_tail
  · intro i hle
    show slot (s.break_windows.map _) i = none
    have hle1 : s.num_heads.toNat ≤ i := hle
    rw [slot_filled _ _ _ _ hnb, if_neg (by omega)]
    exact he i
  · intro i w hw
    have := hi.prelude_fresh i w hw
    show w < s.next_win + s.num_heads.toNat
    omega
  · intro i w hw
    have hw1 : slot (s.break_windows.map _) i = some w := hw
    rw [slot_filled _ _ _ _ hnb, he i] at hw1
    show w < s.next_win + s.num_heads.toNat
    split at hw1
    · cases hw1
      omega
    · cases hw1
  · exact hi.prelude_inj
  · intro i j w hw hv
    have hw1 : slot (s.break_windows.map _) i = some w := hw
    have hv1 : slot (s.break_windows.map _) j = some w := hv
    rw [slot_filled _ _ _ _ hnb, he i] at hw1
    rw [slot_filled _ _ _ _ hnb, he j] at hv1
    split at hw1
    · split at hv1
      · cases hw1
        simp only [Option.some.injEq] at hv1
        omega
      · cases hv1
    · cases hw1

theorem create_prelude_window_eq (env : Env) (break_id : BreakId) (s : GUI) (hi : Inv s) :
    ∃ s2, init_multihead env (ungrab (stopped s)) = some s2 ∧ Inv s2 ∧ Flagged s2 ∧
      Frame (ungrab (stopped s)) s2 ∧ 0 ≤ s2.num_heads ∧
      create_prelude_window env break_id s = some (prelude_created break_id (collected s2)) := by
  obtain ⟨s2, e1, e2, e3, i2, f2, fr, n2⟩ := create_preamble env s hi
  have i3 := inv_collected s2 i2
  refine ⟨s2, e2, i2, f2, fr, n2, ?_⟩
  have hl := create_prelude_loop (collected s2).heads break_id (collected s2).prelude_windows
    (collected s2).next_win (collected s2).log (collected s2).num_heads.toNat i3.num_le
    (by rw [i3.heads_len]; exact i3.num_le)
  simp only [create_prelude_window, e1, e2, e3, Option.bind, hl]
  rfl

theorem create_break_window_eq (env : Env) (break_id : BreakId) (break_hint : BreakHint)
    (kind : WindowKind) (hk : window_kind break_id = some kind) (s : GUI) (hi : Inv s) :
    ∃ s2, init_multihead env (ungrab (stopped s)) = some s2 ∧ Inv s2 ∧ Flagged s2 ∧
      Frame (ungrab (stopped s)) s2 ∧ 0 ≤ s2.num_heads ∧
      create_break_window env break_id break_hint s =
        some (break_created env break_id break_hint kind (collected s2)) := by
  obtain ⟨s2, e1, e2, e3, i2, f2, fr, n2⟩ := create_preamble env s hi
  have i3 := inv_collected s2 i2
  refine ⟨s2, e2, i2, f2, fr, n2, ?_⟩
  have hl := create_break_loop env (collected s2).heads break_id kind hk
    (break_flags env break_id break_hint) (collected s2).break_windows
    (collected s2).next_win (collected s2).log (collected s2).num_heads.toNat
    (by rw [i3.break_len]; exact i3.num_le) (by rw [i3.heads_len]; exact i3.num_le)
  simp only [create_break_window, e1, e2, e3, Option.bind, hl]
  rfl

theorem create_prelude_window_inv (env : Env) (break_id : BreakId) (s : GUI) (hi : Inv s) :
    ∃ s1, create_prelude_window env break_id s = some s1 ∧ Inv s1 := by
  obtain ⟨s2, _, i2, f2, _, n2, e⟩ := create_prelude_window_eq env break_id s hi
  exact ⟨_, e, inv_prelude_created break_id _ (inv_collected s2 i2) n2
    (collected_empty s2 i2 f2).2.2.1⟩

theorem create_break_loop_fault (env : Env) (heads : Option (List HeadInfo))
    (break_id : BreakId) (hk : window_kind break_id = none) (flags : BreakFlags) (n : Nat)
    (st : CreateLoop) :
    for_loop (create_break_body env heads break_id flags) (n + 1) st = none := by
  rw [for_loop]
  cases for_loop (create_break_body env heads break_id flags) n st with
  | none => rfl
  | some st1 =>
    simp only [Option.bind, create_break_body, hk]
    cases read heads n <;> cases st1.windows <;> rfl

theorem create_break_window_inv (env : Env) (break_id : BreakId) (break_hint : BreakHint)
    (s s1 : GUI) (hi : Inv s) (h : create_break_window env break_id break_hint s = some s1) :
    Inv s1 := by
  cases hk : window_kind break_id with
  | some kind =>
    obtain ⟨s2, _, i2, f2, _, n2, e⟩ :=
      create_break_window_eq env break_id break_hint kind hk s hi
    rw [e] at h
    cases h
    exact inv_break_created env break_id break_hint kind _ (inv_collected s2 i2) n2
      (collected_empty s2 i2 f2).2.2.2
  | none =>
    obtain ⟨s2, e1, e2, e3, i2, f2, fr, n2⟩ := create_preamble env s hi
    have i3 := inv_collected s2 i2
    have hz := (collected_empty s2 i2 f2).2.1
    simp only [create_break_window, e1, e2, e3, Option.bind] at h
    cases hn : (collected s2).num_heads.toNat with
    | zero =>
      rw [hn] at h
      simp only [for_loop] at h
      cases h
      have hzero : (collected s2).num_heads = 0 := by
        have : 0 ≤ (collected s2).num_heads := n2
        omega
      exact inv_of_eq (collected s2) _ i3 rfl rfl rfl rfl rfl (by rw [hz]; exact hzero) rfl
    | succ k =>
      rw [hn, create_break_loop_fault env _ break_id hk] at h
      cases h

theorem show_break_window_arrayFrame (env : Env) (s s1 : GUI)
    (h : show_break_window env s = some s1) : ArrayFrame s s1 := by
  unfold show_break_window at h
  cases h1 : for_loop (call_body s.prelude_windows Effect.start_prelude)
      s.active_prelude_count.toNat s.log with
  | none => simp [h1] at h
  | some log1 =>
    cases h2 : for_loop (call_body s.break_windows Effect.start_break)
        s.active_break_count.toNat log1 with
    | none => simp [h1, h2] at h
    | some log2 =>
      simp only [h1, h2, Option.bind] at h
      split at h
      · cases hg : grab env { s with log := log2 } with
        | none => simp [hg] at h
        | some r =>
          simp only [hg] at h
          cases h
          exact arrayFrame_trans s { s with log := log2 } r.2 (by constructor <;> rfl)
            (grab_arrayFrame env _ r hg)
      · cases h
        constructor <;> rfl

theorem callback_inv (env : Env) (cb : Callback) (s s1 : GUI) (hi : Inv s)
    (h : callback env cb s = some s1) : Inv s1 := by
  cases cb with
  | set_muted =>
    simp only [callback] at h
    cases h
    exact inv_of_eq s _ hi rfl rfl rfl rfl rfl rfl rfl
  | create_prelude_window break_id =>
    obtain ⟨s2, e, i2⟩ := create_prelude_window_inv env break_id s hi
    simp only [callback, e] at h
    cases h
    exact i2
  | create_break_window break_id break_hint =>
    exact create_break_window_inv env break_id break_hint s s1 hi h
  | hide_break_window =>
    obtain ⟨e, i2, _⟩ := hide_break_window_inv s hi
    simp only [callback, e] at h
    cases h
    exact i2
  | show_break_window =>
    exact inv_of_arrayFrame s s1 hi (show_break_window_arrayFrame env s s1 h)

theorem core_heartbeat_inv (env : Env) (cbs : List Callback) (s s1 : GUI) (hi : Inv s)
    (h : core_heartbeat env cbs s = some s1) : Inv s1 := by
  induction cbs generalizing s with
  | nil =>
    simp only [core_heartbeat] at h
    cases h
    exact hi
  | cons cb rest ih =>
    simp only [core_heartbeat] at h
    cases hc : callback env cb s with
    | none => rw [hc] at h; cases h
    | some s2 =>
      rw [hc] at h
      exact ih s2 (callback_inv env cb s s2 hi hc) h

theorem on_timer_eq (env : Env) (s s0 : GUI) (hi : Inv s)
    (h0 : core_heartbeat env env.callbacks s = some s0) :
    on_timer env s =
      if s0.main_window then
        some (true,
          if (collected s0).active_break_count = 0 ∧ (collected s0).muted = true then
            if env.is_user_active then
              { collected s0 with
                log := (collected s0).log ++ [Effect.restore_mute], muted := false }
            else collected s0
          else collected s0)
      else none := by
  have i0 := core_heartbeat_inv env env.callbacks s s0 hi h0
  unfold on_timer
  rw [h0]
  simp only [Option.bind]
  split
  · rw [collect_garbage_eq s0 i0.prelude_le i0.break_le]
  · rfl

theorem on_timer_cases (env : Env) (s : GUI) (r : Bool × GUI) (hi : Inv s)
    (h : on_timer env s = some r) :
    ∃ s0, core_heartbeat env env.callbacks s = some s0 ∧ Inv s0 ∧ s0.main_window = true ∧
      r.1 = true ∧
      (r.2 = collected s0 ∨
        r.2 = { collected s0 with
          log := (collected s0).log ++ [Effect.restore_mute], muted := false }) := by
  cases h0 : core_heartbeat env env.callbacks s with
  | none =>
    unfold on_timer at h
    rw [h0] at h
    cases h
  | some s0 =>
    have i0 := core_heartbeat_inv env env.callbacks s s0 hi h0
    rw [on_timer_eq env s s0 hi h0] at h
    cases hm : s0.main_window with
    | false => rw [hm] at h; simp at h
    | true =>
      rw [hm] at h
      simp only [if_true, Option.some.injEq] at h
      refine ⟨s0, rfl, i0, hm, ?_, ?_⟩
      · rw [← h]
      · rw [← h]
        show (if _ then _ else _) = _ ∨ (if _ then _ else _) = _
        split
        · split
          · right; rfl
          · left; rfl
        · left; rfl

theorem exec_inv (env : Env) (op : Op) (s s1 : GUI) (hi : Inv s)
    (h : exec env op s = some s1) : Inv s1 := by
  cases op with
  | init_gui =>
    simp only [exec] at h
    cases h
    exact inv_of_eq s _ hi rfl rfl rfl rfl rfl rfl rfl
  | init_multihead =>
    obtain ⟨s2, e, i2, _⟩ := init_multihead_inv env s hi
    simp only [exec, e] at h
    cases h
    exact i2
  | on_timer =>
    simp only [exec] at h
    cases hr : on_timer env s with
    | none => rw [hr] at h; cases h
    | some r =>
      rw [hr] at h
      simp only [Option.bind, Option.some.injEq] at h
      obtain ⟨s0, _, i0, _, _, hc⟩ := on_timer_cases env s r hi hr
      have i2 := inv_collected s0 i0
      rw [← h]
      rcases hc with hc | hc
      · rw [hc]; exact i2
      · rw [hc]; exact inv_of_eq (collected s0) _ i2 rfl rfl rfl rfl rfl rfl rfl
  | set_muted =>
    simp only [exec] at h
    cases h
    exact inv_of_eq s _ hi rfl rfl rfl rfl rfl rfl rfl
  | create_prelude_window break_id =>
    obtain ⟨s2, e, i2⟩ := create_prelude_window_inv env break_id s hi
    simp only [exec, e] at h
    cases h
    exact i2
  | create_break_window break_id break_hint =>
    exact create_break_window_inv env break_id break_hint s s1 hi h
  | hide_break_window =>
    obtain ⟨e, i2, _⟩ := hide_break_window_inv s hi
    simp only [exec, e] at h
    cases h
    exact i2
  | show_break_window =>
    exact inv_of_arrayFrame s s1 hi (show_break_window_arrayFrame env s s1 h)
  | collect_garbage =>
    simp only [exec, collect_garbage_eq s hi.prelude_le hi.break_le] at h
    cases h
    exact inv_collected s hi
  | grab =>
    simp only [exec] at h
    cases hg : grab env s with
    | none => simp [hg] at h
    | some r =>
      simp only [hg, Option.bind] at h
      cases h
      exact inv_of_arrayFrame s r.2 hi (grab_arrayFrame env s r hg)
  | ungrab =>
    simp only [exec] at h
    cases h
    exact inv_of_arrayFrame s _ hi (ungrab_arrayFrame s)
  | interrupt_grab =>
    simp only [exec] at h
    cases h
    exact inv_of_arrayFrame s _ hi (interrupt_grab_arrayFrame s)
  | grab_retry_timer t =>
    exact inv_of_arrayFrame s s1 hi (fire_grab_retry_timer_arrayFrame env t s s1 h)

theorem reachable_inv (s : GUI) (h : Reachable s) : Inv s := by
  induction h with
  | initial => exact inv_initial
  | step env op s s1 _ he ih => exact exec_inv env op s s1 ih he

/-! ## Hide, then collect -/

theorem disconnect_log (s : GUI) :
    ∃ l, (disconnect s).log = s.log ++ l ∧ ∀ e ∈ l, is_delete e = false := by
  unfold disconnect
  split
  · exact ⟨[], by simp, by simp⟩
  · split
    · exact ⟨[Effect.timeout_disconnect _], rfl, by simp [is_delete]⟩
    · exact ⟨[], by simp, by simp⟩

theorem ungrab_log (s : GUI) :
    ∃ l, (ungrab s).log = s.log ++ l ∧ ∀ e ∈ l, is_delete e = false := by
  cases hg : s.grab_handle with
  | none =>
    rw [ungrab_none s hg]
    exact ⟨[], by simp, by simp⟩
  | some g =>
    rw [ungrab_some s g hg]
    obtain ⟨l, e, hl⟩ := disconnect_log { s with grab_wanted := false }
    refine ⟨l ++ [Effect.release g], ?_, ?_⟩
    · show (disconnect { s with grab_wanted := false }).log ++ [Effect.release g] = _
      rw [e, List.append_assoc]
    · intro x hx
      rcases List.mem_append.mp hx with h | h
      · exact hl x h
      · simp only [List.mem_singleton] at h
        subst h
        rfl

theorem calls_not_delete (arr : Option (List (Option Win))) (mk : Win → Effect) (n : Nat)
    (hmk : ∀ w, is_delete (mk w) = false) : ∀ e ∈ calls arr mk n, is_delete e = false := by
  intro e he
  simp only [calls, List.mem_flatMap, List.mem_map] at he
  obtain ⟨i, _, w, _, rfl⟩ := he
  exact hmk w

theorem collect_garbage_idle (s : GUI) (h1 : s.prelude_window_destroy = false)
    (h2 : s.break_window_destroy = false) : collect_garbage s = some s := by
  simp [collect_garbage, collect_garbage_prelude, collect_garbage_break, h1, h2]

/-- C2: from every reachable state, `hide_break_window()` destroys no window,
and the `collect_garbage()` that follows makes exactly one destructor call for
each populated prelude slot and each populated break slot below the active
counts, so that each window of such a slot is destroyed exactly once, leaves
those slots empty and both active counts 0; one more `collect_garbage()`
returns the same state, log included. -/
theorem hide_then_collect_garbage (s : GUI) (h : Reachable s) :
    ∃ s1 s2 l deleted, hide_break_window s = some s1 ∧ collect_garbage s1 = some s2 ∧
      s1.log = s.log ++ l ∧ (∀ e ∈ l, is_delete e = false) ∧
      s2.log = s1.log ++ deleted ∧
      deleted =
        calls s.prelude_windows Effect.delete_prelude s.active_prelude_count.toNat ++
        calls s.break_windows Effect.delete_break s.active_break_count.toNat ∧
      (∀ i w : Nat, (i : Int) < s.active_prelude_count → slot s.prelude_windows i = some w →
        deleted.count (Effect.delete_prelude w) = 1) ∧
      (∀ i w : Nat, (i : Int) < s.active_break_count → slot s.break_windows i = some w →
        deleted.count (Effect.delete_break w) = 1) ∧
      (∀ i : Nat, (i : Int) < s.active_prelude_count →
        read s2.prelude_windows i = some none) ∧
      (∀ i : Nat, (i : Int) < s.active_break_count → read s2.break_windows i = some none) ∧
      s2.active_prelude_count = 0 ∧ s2.active_break_count = 0 ∧
      collect_garbage s2 = some s2 := by
  have hi := reachable_inv s h
  obtain ⟨e1, i1, f1⟩ := hide_break_window_inv s hi
  have hf := ungrab_arrayFrame (stopped s)
  have e2 := collect_garbage_eq (ungrab (stopped s)) i1.prelude_le i1.break_le
  have hz := collected_empty _ i1 f1
  have i2 := inv_collected _ i1
  obtain ⟨lu, elu, hlu⟩ := ungrab_log (stopped s)
  have hpw : (ungrab (stopped s)).prelude_windows = s.prelude_windows := hf.prelude_windows
  have hbw : (ungrab (stopped s)).break_windows = s.break_windows := hf.break_windows
  have hpc : (ungrab (stopped s)).active_prelude_count = s.active_prelude_count :=
    hf.active_prelude_count
  have hbc : (ungrab (stopped s)).active_break_count = s.active_break_count :=
    hf.active_break_count
  have hpf : (ungrab (stopped s)).prelude_window_destroy =
      (if s.active_prelude_count > 0 then true else s.prelude_window_destroy) :=
    hf.prelude_window_destroy
  have hbf : (ungrab (stopped s)).break_window_destroy =
      (if s.active_break_count > 0 then true else s.break_window_destroy) :=
    hf.break_window_destroy
  have hpn := hi.prelude_nonneg
  have hbn := hi.break_nonneg
  refine ⟨ungrab (stopped s), collected (ungrab (stopped s)),
    calls s.prelude_windows Effect.stop_prelude s.active_prelude_count.toNat ++
      calls s.break_windows Effect.stop_break s.active_break_count.toNat ++ lu,
    calls s.prelude_windows Effect.delete_prelude s.active_prelude_count.toNat ++
      calls s.break_windows Effect.delete_break s.active_break_count.toNat,
    e1, e2, ?_, ?_, ?_, rfl, ?_, ?_, ?_, ?_, hz.1, hz.2.1, ?_⟩
  · rw [elu]
    show s.log ++ calls s.prelude_windows Effect.stop_prelude s.active_prelude_count.toNat ++
      calls s.break_windows Effect.stop_break s.active_break_count.toNat ++ lu = s.log ++
      (calls s.prelude_windows Effect.stop_prelude s.active_prelude_count.toNat ++
        calls s.break_windows Effect.stop_break s.active_break_count.toNat ++ lu)
    simp only [List.append_assoc]
  · intro e he
    rcases List.mem_append.mp he with h1 | h1
    · rcases List.mem_append.mp h1 with h2 | h2
      · exact calls_not_delete s.prelude_windows Effect.stop_prelude _ (fun _ => rfl) e h2
      · exact calls_not_delete s.break_windows Effect.stop_break _ (fun _ => rfl) e h2
    · exact hlu e h1
  · show (ungrab (stopped s)).log ++
      (if (ungrab (stopped s)).prelude_window_destroy then
        calls (ungrab (stopped s)).prelude_windows Effect.delete_prelude
          (ungrab (stopped s)).active_prelude_count.toNat else []) ++
      (if (ungrab (stopped s)).break_window_destroy then
        calls (ungrab (stopped s)).break_windows Effect.delete_break
          (ungrab (stopped s)).active_break_count.toNat else []) = _
    rw [hpw, hbw, hpc, hbc, hpf, hbf]
    have c1 : (if (if s.active_prelude_count > 0 then true else s.prelude_window_destroy) = true
        then calls s.prelude_windows Effect.delete_prelude s.active_prelude_count.toNat
        else []) =
        calls s.prelude_windows Effect.delete_prelude s.active_prelude_count.toNat := by
      by_cases hp : s.active_prelude_count > 0
      · simp [hp]
      · have : s.active_prelude_count.toNat = 0 := by omega
        simp [hp, this, calls]
    have c2 : (if (if s.active_break_count > 0 then true else s.break_window_destroy) = true
        then calls s.break_windows Effect.delete_break s.active_break_count.toNat
        else []) =
        calls s.break_windows Effect.delete_break s.active_break_count.toNat := by
      by_cases hp : s.active_break_count > 0
      · simp [hp]
      · have : s.active_break_count.toNat = 0 := by omega
        simp [hp, this, calls]
    rw [c1, c2, List.append_assoc]
  · intro i w hlt hs
    have hlt1 : i < s.active_prelude_count.toNat := Int.lt_toNat.mpr hlt
    rw [List.count_append,
      count_calls s.prelude_windows Effect.delete_prelude _ i w
        (fun a b hab => by cases hab; rfl) hi.prelude_inj hs,
      count_calls_other s.break_windows Effect.delete_break _ _ (fun v hv => by cases hv),
      if_pos hlt1]
  · intro i w hlt hs
    have hlt1 : i < s.active_break_count.toNat := Int.lt_toNat.mpr hlt
    rw [List.count_append,
      count_calls s.break_windows Effect.delete_break _ i w
        (fun a b hab => by cases hab; rfl) hi.break_inj hs,
      count_calls_other s.prelude_windows Effect.delete_prelude _ _ (fun v hv => by cases hv),
      if_pos hlt1]
  · intro i hlt
    have hlt1 : i < alen (collected (ungrab (stopped s))).prelude_windows := by
      have h1 := i2.prelude_le
      have h2 := i2.num_le
      have h3 : alen (collected (ungrab (stopped s))).prelude_windows =
          alen s.prelude_windows := by
        show alen (if (ungrab (stopped s)).prelude_window_destroy then _ else _) = _
        split
        · rw [alen_map _ _ (fun l => cleared_length l _), hpw]
        · rw [hpw]
      have h4 := hi.prelude_le
      omega
    rw [read_slot _ _ hlt1, hz.2.2.1 i]
  · intro i hlt
    have hlt1 : i < alen (collected (ungrab (stopped s))).break_windows := by
      have h3 : alen (collected (ungrab (stopped s))).break_windows =
          alen s.break_windows := by
        show alen (if (ungrab (stopped s)).break_window_destroy then _ else _) = _
        split
        · rw [alen_map _ _ (fun l => cleared_length l _), hbw]
        · rw [hbw]
      have h4 := hi.break_le
      omega
    rw [read_slot _ _ hlt1, hz.2.2.2 i]
  · exact collect_garbage_idle _ rfl rfl

/-! ## Creating the break windows -/

theorem window_kind_of_ne (break_id : BreakId) (h : break_id ≠ BreakId.BREAK_ID_NONE) :
    ∃ kind, window_kind break_id = some kind := by
  cases break_id
  · exact absurd rfl h
  · exact ⟨WindowKind.MicroBreakWindow, rfl⟩
  · exact ⟨WindowKind.RestBreakWindow, rfl⟩
  · exact ⟨WindowKind.DailyLimitWindow, rfl⟩

theorem new_breaks_mem (env : Env) (heads : Option (List HeadInfo)) (kind : WindowKind)
    (flags : BreakFlags) (nw n i : Nat) (hi : i < n) (hd : HeadInfo)
    (hr : read heads i = some hd) :
    Effect.new_break kind (nw + i) hd flags env.block_mode ∈
      new_breaks env heads kind flags nw n := by
  simp only [new_breaks, List.mem_flatMap, List.mem_range]
  exact ⟨i, hi, by simp [hr]⟩

/-- C3: from every reachable state and for each of the three break kinds,
`create_break_window(break_id, hint)` returns; with `num_heads` the head count
after its re-enumeration, the break slots `0 .. num_heads-1` hold the windows
constructed by this call (one constructor call of the kind's window variant
per head, followed by `init()`), every other break slot is empty,
`active_break_count == num_heads` and `active_break_id == break_id`. -/
theorem create_break_window_populates (env : Env) (s : GUI) (h : Reachable s)
    (break_id : BreakId) (break_hint : BreakHint)
    (hk : break_id ≠ BreakId.BREAK_ID_NONE) :
    ∃ kind s1 s2 s3 s4, window_kind break_id = some kind ∧
      hide_break_window s = some s1 ∧ init_multihead env s1 = some s2 ∧
      collect_garbage s2 = some s3 ∧
      create_break_window env break_id break_hint s = some s4 ∧
      s4.num_heads = s2.num_heads ∧ 0 ≤ s4.num_heads ∧
      s4.active_break_count = s4.num_heads ∧ s4.active_break_id = break_id ∧
      (∀ i : Nat, (i : Int) < s4.num_heads →
        read s4.break_windows i = some (some (s.next_win + i)) ∧
        ∃ hd, read s4.heads i = some hd ∧
          Effect.new_break kind (s.next_win + i) hd (break_flags env break_id break_hint)
            env.block_mode ∈
            new_breaks env s3.heads kind (break_flags env break_id break_hint) s.next_win
              s4.num_heads.toNat) ∧
      (∀ i : Nat, s4.num_heads ≤ (i : Int) → slot s4.break_windows i = none) ∧
      s4.log = s3.log ++
        new_breaks env s3.heads kind (break_flags env break_id break_hint) s.next_win
          s4.num_heads.toNat := by
  have hi := reachable_inv s h
  obtain ⟨kind, hkind⟩ := window_kind_of_ne break_id hk
  obtain ⟨s2, e2, i2, f2, fr, n2, e4⟩ :=
    create_break_window_eq env break_id break_hint kind hkind s hi
  obtain ⟨e1, i1, _⟩ := hide_break_window_inv s hi
  have e3 := collect_garbage_eq s2 i2.prelude_le i2.break_le
  have i3 := inv_collected s2 i2
  have hz := collected_empty s2 i2 f2
  have hnw : (collected s2).next_win = s.next_win := by
    show s2.next_win = s.next_win
    rw [fr.next_win, (ungrab_arrayFrame (stopped s)).next_win]
    rfl
  have hnb : (collected s2).num_heads.toNat ≤ alen (collected s2).break_windows := by
    rw [i3.break_len]; exact i3.num_le
  have hslot : ∀ i : Nat,
      slot (break_created env break_id break_hint kind (collected s2)).break_windows i =
        if i < (collected s2).num_heads.toNat then some (s.next_win + i) else none := by
    intro i
    show slot ((collected s2).break_windows.map _) i = _
    rw [slot_filled _ _ _ _ hnb, hnw, hz.2.2.2 i]
  refine ⟨kind, ungrab (stopped s), s2, collected s2,
    break_created env break_id break_hint kind (collected s2), hkind, e1, e2, e3, e4, rfl, n2,
    rfl, rfl, ?_, ?_, ?_⟩
  · intro i hlt
    have hlt1 : i < (collected s2).num_heads.toNat := Int.lt_toNat.mpr hlt
    have hlen : alen (break_created env break_id break_hint kind (collected s2)).break_windows
        = alen (collected s2).break_windows :=
      alen_map _ _ (fun l => filled_length l _ _)
    constructor
    · rw [read_slot _ _ (by rw [hlen]; omega), hslot i, if_pos hlt1]
    · obtain ⟨hd, hr⟩ := read_of_lt (collected s2).heads i
        (by rw [i3.heads_len]; have := i3.num_le; omega)
      exact ⟨hd, hr, new_breaks_mem env _ kind _ s.next_win _ i hlt1 hd hr⟩
  · intro i hle
    have hle1 : ¬ i < (collected s2).num_heads.toNat := by
      intro hc
      have := Int.lt_toNat.mp hc
      have h5 : (break_created env break_id break_hint kind (collected s2)).num_heads =
          (collected s2).num_heads := rfl
      omega
    rw [hslot i, if_neg hle1]
  · show (collected s2).log ++ new_breaks env (collected s2).heads kind
      (break_flags env break_id break_hint) (collected s2).next_win
      (collected s2).num_heads.toNat = _
    rw [hnw]
    rfl

/-! ## The overlap filter -/

theorem intersect_comm (a b : Rect) : a.intersect b = b.intersect a := by
  simp only [Rect.intersect, max_comm a.x b.x, max_comm a.y b.y,
    min_comm (a.x + a.width) (b.x + b.width), min_comm (a.y + a.height) (b.y + b.height)]

theorem overlaps_false_iff (acc : List Monitor) (m : Monitor) :
    overlaps acc m = false ↔
      ∀ a ∈ acc, a.screen = m.screen → m.rect.intersect a.rect = false := by
  simp only [overlaps, List.any_eq_false, Bool.and_eq_true, decide_eq_true_eq, not_and,
    Bool.not_eq_true]

theorem overlaps_true_iff (acc : List Monitor) (m : Monitor) :
    overlaps acc m = true ↔
      ∃ a ∈ acc, a.screen = m.screen ∧ m.rect.intersect a.rect = true := by
  simp only [overlaps, List.any_eq_true, Bool.and_eq_true, decide_eq_true_eq]

theorem foldl_accept_pairwise (l acc : List Monitor)
    (h : acc.Pairwise fun a b => a.screen = b.screen → b.rect.intersect a.rect = false) :
    (l.foldl accept_step acc).Pairwise
      fun a b => a.screen = b.screen → b.rect.intersect a.rect = false := by
  induction l generalizing acc with
  | nil => simpa using h
  | cons m t ih =>
    rw [List.foldl_cons]
    apply ih
    unfold accept_step
    cases ho : overlaps acc m
    · simp only [Bool.false_eq_true, if_false]
      rw [List.pairwise_append]
      refine ⟨h, by simp, ?_⟩
      intro a ha b hb
      simp only [List.mem_singleton] at hb
      subst hb
      exact (overlaps_false_iff acc b).mp ho a ha
    · simpa using h

theorem foldl_accept_subset (l acc : List Monitor) :
    ∀ a ∈ acc, a ∈ l.foldl accept_step acc := by
  induction l generalizing acc with
  | nil => intro a ha; simpa using ha
  | cons m t ih =>
    intro a ha
    rw [List.foldl_cons]
    apply ih
    unfold accept_step
    split
    · exact ha
    · exact List.mem_append_left _ ha

theorem foldl_accept_mem (l acc : List Monitor) :
    ∀ a ∈ l.foldl accept_step acc, a ∈ acc ∨ a ∈ l := by
  induction l generalizing acc with
  | nil => intro a ha; left; simpa using ha
  | cons m t ih =>
    intro a ha
    rw [List.foldl_cons] at ha
    rcases ih _ a ha with h | h
    · unfold accept_step at h
      split at h
      · left; exact h
      · rcases List.mem_append.mp h with h1 | h1
        · left; exact h1
        · right
          simp only [List.mem_singleton] at h1
          simp [h1]
    · right
      exact List.mem_cons_of_mem _ h

theorem accepted_split (pre post : List Monitor) (m : Monitor) :
    m ∈ accepted (pre ++ m :: post) ∨
      ∃ a ∈ accepted (pre ++ m :: post), a ∈ pre ∧ a.screen = m.screen ∧
        m.rect.intersect a.rect = true := by
  have hfold : accepted (pre ++ m :: post) =
      post.foldl accept_step (accept_step (accepted pre) m) := by
    simp [accepted, List.foldl_append]
  rw [hfold]
  cases ho : overlaps (accepted pre) m
  · left
    apply foldl_accept_subset
    simp [accept_step, ho]
  · right
    obtain ⟨a, ha, hs, hx⟩ := (overlaps_true_iff _ _).mp ho
    refine ⟨a, ?_, ?_, hs, hx⟩
    · apply foldl_accept_subset
      simp only [accept_step, ho, if_true]
      exact ha
    · rcases foldl_accept_mem pre [] a ha with h | h
      · simp at h
      · exact h

theorem filter_foldl_accept (i : Nat) (l acc : List Monitor) :
    (l.foldl accept_step acc).filter (fun a => decide (a.screen = i)) =
      (l.filter fun a => decide (a.screen = i)).foldl accept_step
        (acc.filter fun a => decide (a.screen = i)) := by
  induction l generalizing acc with
  | nil => simp
  | cons m t ih =>
    rw [List.foldl_cons, ih]
    by_cases hm : m.screen = i
    · have hov : overlaps (acc.filter fun a => decide (a.screen = i)) m = overlaps acc m := by
        simp only [overlaps, List.any_filter]
        congr 1
        funext a
        by_cases ha : a.screen = i
        · simp [ha, hm]
        · have : ¬ a.screen = m.screen := by rw [hm]; exact ha
          simp [ha, this]
      simp only [List.filter_cons, hm, decide_True, if_true, List.foldl_cons]
      congr 1
      unfold accept_step
      rw [hov]
      split
      · rfl
      · simp [List.filter_append, hm]
    · simp only [List.filter_cons, hm, decide_False, Bool.false_eq_true, if_false]
      congr 1
      unfold accept_step
      split
      · rfl
      · simp [List.filter_append, hm]

theorem screen_monitors_screen (i : Nat) (monitors : List Rect) (n : Nat) :
    ∀ m ∈ screen_monitors i monitors n, m.screen = i := by
  intro m hm
  simp only [screen_monitors, List.mem_flatMap, Option.mem_toList, Option.mem_def,
    Option.map_eq_some'] at hm
  obtain ⟨j, _, r, _, rfl⟩ := hm
  rfl

theorem filter_monitors_upto (screens : List (Option (List Rect))) (i n : Nat) :
    (monitors_upto screens n).filter (fun a => decide (a.screen = i)) =
      if i < n then
        (match screens[i]? with
         | some (some monitors) => screen_monitors i monitors monitors.length
         | _ => [])
      else [] := by
  induction n with
  | zero => simp [monitors_upto]
  | succ k ih =>
    rw [monitors_upto_succ, List.filter_append, ih]
    have hblock : ∀ l : List Monitor, (∀ m ∈ l, m.screen = k) →
        l.filter (fun a => decide (a.screen = i)) = if k = i then l else [] := by
      intro l hl
      by_cases hki : k = i
      · rw [if_pos hki, List.filter_eq_self]
        intro m hm
        simp [hl m hm, hki]
      · rw [if_neg hki, List.filter_eq_nil_iff]
        intro m hm
        simp [hl m hm, hki]
    have hb : (match screens[k]? with
        | some (some monitors) => screen_monitors k monitors monitors.length
        | _ => []).filter (fun a => decide (a.screen = i)) =
        if k = i then (match screens[k]? with
          | some (some monitors) => screen_monitors k monitors monitors.length
          | _ => []) else [] := by
      apply hblock
      intro m hm
      split at hm
      · exact screen_monitors_screen k _ _ m hm
      · simp at hm
    rw [hb]
    by_cases hik : i < k
    · have h1 : i < k + 1 := by omega
      have h2 : ¬ k = i := by omega
      simp [hik, h1, h2]
    · by_cases hki : k = i
      · subst hki
        simp
      · have h1 : ¬ i < k + 1 := by omega
        simp [hik, h1, hki]

theorem head_list_eq (s : GUI) (hs : List HeadInfo) (acc : List Monitor)
    (hh : s.heads = some hs) (hn : s.num_heads = (acc.length : Int))
    (hm : ∀ k : Nat, ∀ h : k < acc.length, hs[k]? = some (head_of k (acc.get ⟨k, h⟩))) :
    head_list s = List.mapIdx head_of acc := by
  simp only [head_list, hh, hn, Int.toNat_ofNat]
  apply List.ext_getElem?
  intro k
  rw [List.getElem?_take, List.getElem?_mapIdx]
  by_cases hk : k < acc.length
  · rw [if_pos hk, hm k hk, List.getElem?_eq_getElem hk]
    rfl
  · rw [if_neg hk, List.getElem?_eq_none (by omega)]
    rfl

theorem accepted_pairwise (ms : List Monitor) :
    (accepted ms).Pairwise fun a b =>
      a.screen = b.screen →
        b.rect.intersect a.rect = false ∧ a.rect.intersect b.rect = false := by
  have h := foldl_accept_pairwise ms [] List.Pairwise.nil
  refine List.Pairwise.imp ?_ h
  intro a b hab hs
  exact ⟨hab hs, by rw [intersect_comm]; exact hab hs⟩

theorem accepted_two (screens : List (Option (List Rect))) (i : Nat) (r1 r2 : Rect)
    (hs : screens[i]? = some (some [r1, r2])) (hx : r2.intersect r1 = true) :
    (accepted (all_monitors screens)).filter (fun a => decide (a.screen = i)) =
      [Monitor.mk i 0 r1] := by
  have hi : i < screens.length := by
    by_contra hc
    rw [List.getElem?_eq_none (by omega)] at hs
    cases hs
  have h1 := filter_foldl_accept i (all_monitors screens) []
  have h2 := filter_monitors_upto screens i screens.length
  rw [if_pos hi, hs] at h2
  unfold accepted
  rw [h1]
  unfold all_monitors
  rw [h2]
  simp [screen_monitors, List.range_succ, List.flatMap, accept_step, overlaps, hx]

/-- C6 (amended): when the display has at least one screen,
`init_gtk_multihead` returns from every reachable state; the head list it
leaves consists of the entries of the monitors the overlap filter accepts and
`num_heads` is their number; no two accepted monitors of one screen
intersect; every monitor is accepted or intersects an accepted monitor of its
own screen that comes before it in the enumeration; and of a screen with two
intersecting monitors exactly the first is accepted. -/
theorem init_gtk_multihead_filter (env : Env) (s : GUI) (h : Reachable s)
    (hne : env.screens ≠ []) :
    ∃ s1, init_gtk_multihead env s = some s1 ∧
      s1.num_heads = ((accepted (all_monitors env.screens)).length : Int) ∧
      head_list s1 = List.mapIdx head_of (accepted (all_monitors env.screens)) ∧
      ((accepted (all_monitors env.screens)).Pairwise fun a b =>
        a.screen = b.screen →
          b.rect.intersect a.rect = false ∧ a.rect.intersect b.rect = false) ∧
      (∀ pre m post, all_monitors env.screens = pre ++ m :: post →
        m ∈ accepted (all_monitors env.screens) ∨
        ∃ a ∈ accepted (all_monitors env.screens),
          a ∈ pre ∧ a.screen = m.screen ∧ m.rect.intersect a.rect = true) ∧
      (∀ (i : Nat) (r1 r2 : Rect), env.screens[i]? = some (some [r1, r2]) →
        r2.intersect r1 = true →
        (accepted (all_monitors env.screens)).filter (fun a => decide (a.screen = i)) =
          [Monitor.mk i 0 r1]) := by
  have hi := reachable_inv s h
  obtain ⟨s1, hs, _, e2, _, _, hm⟩ := init_gtk_multihead_eq env s hi hne
  refine ⟨_, e2, rfl, head_list_eq _ hs _ rfl rfl hm, accepted_pairwise _, ?_, ?_⟩
  · intro pre m post hsplit
    rw [hsplit]
    exact accepted_split pre post m
  · intro i r1 r2 hsc hx
    exact accepted_two env.screens i r1 r2 hsc hx

/-! ## The grab controller -/

theorem reachable_run (ops : List (Env × Op)) (s s1 : GUI) (h : Reachable s)
    (hr : run ops s = some s1) : Reachable s1 := by
  induction ops generalizing s with
  | nil =>
    simp only [run, Option.some.injEq] at hr
    subst hr
    exact h
  | cons p rest ih =>
    obtain ⟨env, op⟩ := p
    simp only [run] at hr
    cases he : exec env op s with
    | none => simp [he] at hr
    | some s2 =>
      rw [he] at hr
      exact ih s2 (Reachable.step env op s s2 h he) hr

theorem grab_loop (arr : Option (List (Option Win))) (n : Nat)
    (h : ∀ i : Nat, i < n → (slot arr i).isSome = true) :
    for_loop (grab_body arr) n [] = some ((List.range n).filterMap (slot arr)) := by
  induction n with
  | zero => simp [for_loop]
  | succ k ih =>
    rw [for_loop, ih (fun i hi => h i (by omega))]
    have hk := h k (by omega)
    cases hs : slot arr k with
    | none => simp [hs] at hk
    | some w =>
      have hr : read arr k = some (some w) := by
        unfold slot at hs
        cases hread : read arr k with
        | none => simp [hread] at hs
        | some v =>
          cases v with
          | none => simp [hread] at hs
          | some w1 =>
            simp only [hread, Option.join, Option.bind, id, Option.some.injEq] at hs
            rw [hs]
      simp [Option.bind, grab_body, hr, List.range_succ, List.filterMap_append, hs]

theorem tracked_append (s s1 : GUI) (l : List Effect) (h : Tracked s)
    (hl : s1.log = s.log ++ l) (ht : l.foldl track (some s.grab_handle) = some s1.grab_handle) :
    Tracked s1 := by
  unfold Tracked at h ⊢
  rw [hl, List.foldl_append, h, ht]

theorem disconnect_tracked (s : GUI) (h : Tracked s) : Tracked (disconnect s) := by
  unfold disconnect
  cases hc : s.grab_retry_connection with
  | none => exact h
  | some t =>
    show Tracked (if t ∈ s.timers then _ else _)
    split
    · apply tracked_append s _ [Effect.timeout_disconnect t] h rfl
      show track (some s.grab_handle) (Effect.timeout_disconnect t) = some s.grab_handle
      cases s.grab_handle <;> rfl
    · exact h

theorem ungrab_tracked (s : GUI) (h : Tracked s) : Tracked (ungrab s) := by
  cases hg : s.grab_handle with
  | none =>
    rw [ungrab_none s hg]
    exact h
  | some g =>
    rw [ungrab_some s g hg]
    have h1 : Tracked { s with grab_wanted := false } := h
    have h2 := disconnect_tracked _ h1
    have hd : (disconnect { s with grab_wanted := false }).grab_handle = some g := by
      unfold disconnect
      split
      · exact hg
      · split
        · exact hg
        · exact hg
    apply tracked_append (disconnect { s with grab_wanted := false }) _ [Effect.release g]
      h2 rfl
    rw [hd]
    simp [track]

theorem interrupt_grab_tracked (s : GUI) (h : Tracked s) : Tracked (interrupt_grab s) := by
  cases hg : s.grab_handle with
  | none =>
    rw [interrupt_grab_none s hg]
    exact h
  | some g =>
    rw [interrupt_grab_some s g hg]
    split
    · apply tracked_append s _ [Effect.release g, Effect.timeout_connect s.next_timer] h rfl
      rw [hg]
      simp [track]
    · apply tracked_append s _ [Effect.release g] h rfl
      rw [hg]
      simp [track]

theorem grab_tracked (env : Env) (s : GUI) (r : Bool × GUI) (h : Tracked s)
    (hr : grab env s = some r) : Tracked r.2 := by
  by_cases hc : s.break_windows ≠ none ∧ s.active_break_count > 0
  · cases hl : for_loop (grab_body s.break_windows) s.active_break_count.toNat [] with
    | none =>
      rw [grab_fault env s hc hl] at hr
      cases hr
    | some ws =>
      cases hg : s.grab_handle with
      | some g =>
        rw [grab_held env s ws g hc hl hg] at hr
        cases hr
        exact h
      | none =>
        cases hres : env.grab_result with
        | some g =>
          rw [grab_acquire env s ws g hc hl hg hres] at hr
          cases hr
          apply tracked_append s _ [Effect.capture ws (some g)] h rfl
          rw [hg]
          rfl
        | none =>
          rw [grab_fail env s ws hc hl hg hres] at hr
          cases hr
          show Tracked (if connected s = false then _ else _)
          split
          · apply tracked_append s _
              [Effect.capture ws none, Effect.timeout_connect s.next_timer] h rfl
            rw [hg]
            rfl
          · apply tracked_append s _ [Effect.capture ws none] h rfl
            rw [hg]
            rfl
  · rw [grab_idle env s hc] at hr
    cases hr
    exact h

theorem fire_grab_retry_timer_tracked (env : Env) (t : TimerId) (s s1 : GUI) (h : Tracked s)
    (hr : fire_grab_retry_timer env t s = some s1) : Tracked s1 := by
  unfold fire_grab_retry_timer at hr
  split at hr
  · unfold on_grab_retry_timer at hr
    split at hr
    · cases hg : grab env s with
      | none => simp [hg] at hr
      | some r =>
        simp only [hg, Option.bind] at hr
        have ht := grab_tracked env s r h hg
        split at hr
        · cases hr
          exact ht
        · cases hr
          exact ht
    · simp only [Option.bind] at hr
      cases hr
      exact h
  · cases hr

theorem exec_grab_op_tracked (env : Env) (op : Op) (s s1 : GUI) (hop : is_grab_op op = true)
    (h : Tracked s) (hr : exec env op s = some s1) : Tracked s1 := by
  cases op with
  | grab =>
    simp only [exec] at hr
    cases hg : grab env s with
    | none => simp [hg] at hr
    | some r =>
      simp only [hg, Option.bind] at hr
      cases hr
      exact grab_tracked env s r h hg
  | ungrab =>
    simp only [exec] at hr
    cases hr
    exact ungrab_tracked s h
  | interrupt_grab =>
    simp only [exec] at hr
    cases hr
    exact interrupt_grab_tracked s h
  | grab_retry_timer t => exact fire_grab_retry_timer_tracked env t s s1 h hr
  | init_gui => cases hop
  | init_multihead => cases hop
  | on_timer => cases hop
  | set_muted => cases hop
  | create_prelude_window _ => cases hop
  | create_break_window _ _ => cases hop
  | hide_break_window => cases hop
  | show_break_window => cases hop
  | collect_garbage => cases hop

theorem run_grab_ops_tracked (ops : List (Env × Op)) (s s1 : GUI)
    (hops : ∀ p ∈ ops, is_grab_op p.2 = true) (h : Tracked s) (hr : run ops s = some s1) :
    Tracked s1 := by
  induction ops generalizing s with
  | nil =>
    simp only [run, Option.some.injEq] at hr
    subst hr
    exact h
  | cons p rest ih =>
    obtain ⟨env, op⟩ := p
    simp only [run] at hr
    cases he : exec env op s with
    | none => simp [he] at hr
    | some s2 =>
      rw [he] at hr
      exact ih s2 (fun q hq => hops q (List.mem_cons_of_mem _ hq))
        (exec_grab_op_tracked env op s s2 (hops (env, op) (List.mem_cons_self _ _)) h he) hr

/-! ## The grab bookkeeping holds in every reachable state -/

theorem foldl_track_grabFree (l : List Effect) (held : Option Grab)
    (h : ∀ e ∈ l, is_grab_effect e = false) : l.foldl track (some held) = some held := by
  induction l with
  | nil => rfl
  | cons e t ih =>
    have he : is_grab_effect e = false := h e (List.mem_cons_self _ _)
    have hstep : track (some held) e = some held := by
      cases e <;> cases held <;> first | rfl | (simp [is_grab_effect] at he)
    rw [List.foldl_cons, hstep]
    exact ih (fun x hx => h x (List.mem_cons_of_mem _ hx))

theorem tracked_of_grabFree (s s1 : GUI) (h : Tracked s) (hl : GrabFree s s1)
    (hg : s1.grab_handle = s.grab_handle) : Tracked s1 := by
  obtain ⟨l, e, hfree⟩ := hl
  apply tracked_append s s1 l h e
  rw [hg]
  exact foldl_track_grabFree l s.grab_handle hfree

theorem calls_grabFree (arr : Option (List (Option Win))) (mk : Win → Effect) (n : Nat)
    (hmk : ∀ w, is_grab_effect (mk w) = false) :
    ∀ e ∈ calls arr mk n, is_grab_effect e = false := by
  intro e he
  simp only [calls, List.mem_flatMap, List.mem_map] at he
  obtain ⟨i, _, w, _, rfl⟩ := he
  exact hmk w

theorem stopped_tracked (s : GUI) (h : Tracked s) : Tracked (stopped s) := by
  apply tracked_of_grabFree s (stopped s) h ?_ rfl
  refine ⟨calls s.prelude_windows Effect.stop_prelude s.active_prelude_count.toNat ++
    calls s.break_windows Effect.stop_break s.active_break_count.toNat, ?_, ?_⟩
  · show s.log ++ _ ++ _ = s.log ++ (_ ++ _)
    rw [List.append_assoc]
  · intro e he
    rcases List.mem_append.mp he with h1 | h1
    · exact calls_grabFree s.prelude_windows Effect.stop_prelude _ (fun _ => rfl) e h1
    · exact calls_grabFree s.break_windows Effect.stop_break _ (fun _ => rfl) e h1

theorem collected_tracked (s : GUI) (h : Tracked s) : Tracked (collected s) := by
  apply tracked_of_grabFree s (collected s) h ?_ rfl
  refine ⟨(if s.prelude_window_destroy then
      calls s.prelude_windows Effect.delete_prelude s.active_prelude_count.toNat else []) ++
    (if s.break_window_destroy then
      calls s.break_windows Effect.delete_break s.active_break_count.toNat else []), ?_, ?_⟩
  · show s.log ++ _ ++ _ = s.log ++ (_ ++ _)
    rw [List.append_assoc]
  · intro e he
    rcases List.mem_append.mp he with h1 | h1
    · split at h1
      · exact calls_grabFree s.prelude_windows Effect.delete_prelude _ (fun _ => rfl) e h1
      · simp at h1
    · split at h1
      · exact calls_grabFree s.break_windows Effect.delete_break _ (fun _ => rfl) e h1
      · simp at h1

theorem prelude_created_tracked (break_id : BreakId) (s : GUI) (h : Tracked s) :
    Tracked (prelude_created break_id s) := by
  apply tracked_of_grabFree s (prelude_created break_id s) h ?_ rfl
  refine ⟨new_preludes s.heads break_id s.next_win s.num_heads.toNat, rfl, ?_⟩
  intro e he
  simp only [new_preludes, List.mem_flatMap, Option.mem_toList, Option.mem_def,
    Option.map_eq_some'] at he
  obtain ⟨i, _, hd, _, rfl⟩ := he
  rfl

theorem break_created_tracked (env : Env) (break_id : BreakId) (break_hint : BreakHint)
    (kind : WindowKind) (s : GUI) (h : Tracked s) :
    Tracked (break_created env break_id break_hint kind s) := by
  apply tracked_of_grabFree s (break_created env break_id break_hint kind s) h ?_ rfl
  refine ⟨new_breaks env s.heads kind (break_flags env break_id break_hint) s.next_win
    s.num_heads.toNat, rfl, ?_⟩
  intro e he
  simp only [new_breaks, List.mem_flatMap] at he
  obtain ⟨i, _, hm⟩ := he
  split at hm
  · simp at hm
  · simp only [List.mem_cons, List.mem_singleton, List.not_mem_nil, or_false] at hm
    rcases hm with rfl | rfl <;> rfl

theorem create_preamble_tracked (s s2 : GUI) (h : Tracked s)
    (hf : Frame (ungrab (stopped s)) s2) : Tracked (collected s2) :=
  collected_tracked s2
    (tracked_of_grabFree _ s2 (ungrab_tracked _ (stopped_tracked s h)) hf.log hf.grab_handle)

theorem exec_tracked_basic (env : Env) (op : Op) (s s1 : GUI) (hop : op ≠ Op.on_timer)
    (hi : Inv s) (h : Tracked s) (hr : exec env op s = some s1) : Tracked s1 := by
  cases op with
  | init_gui =>
    simp only [exec] at hr
    cases hr
    exact h
  | init_multihead =>
    obtain ⟨s2, e, _, fr, _⟩ := init_multihead_inv env s hi
    simp only [exec, e] at hr
    cases hr
    exact tracked_of_grabFree s _ h fr.log fr.grab_handle
  | on_timer => exact absurd rfl hop
  | set_muted =>
    simp only [exec] at hr
    cases hr
    exact h
  | create_prelude_window break_id =>
    obtain ⟨s2, _, _, _, fr, _, e⟩ := create_prelude_window_eq env break_id s hi
    simp only [exec, e] at hr
    cases hr
    exact prelude_created_tracked break_id _ (create_preamble_tracked s s2 h fr)
  | create_break_window break_id break_hint =>
    cases hk : window_kind break_id with
    | some kind =>
      obtain ⟨s2, _, _, _, fr, _, e⟩ :=
        create_break_window_eq env break_id break_hint kind hk s hi
      simp only [exec, e] at hr
      cases hr
      exact break_created_tracked env break_id break_hint kind _
        (create_preamble_tracked s s2 h fr)
    | none =>
      obtain ⟨s2, e1, e2, e3, i2, f2, fr, n2⟩ := create_preamble env s hi
      simp only [exec, create_break_window, e1, e2, e3, Option.bind] at hr
      cases hn : (collected s2).num_heads.toNat with
      | zero =>
        rw [hn] at hr
        simp only [for_loop] at hr
        cases hr
        exact create_preamble_tracked s s2 h fr
      | succ k =>
        rw [hn, create_break_loop_fault env _ break_id hk] at hr
        cases hr
  | hide_break_window =>
    obtain ⟨e, _, _⟩ := hide_break_window_inv s hi
    simp only [exec, e] at hr
    cases hr
    exact ungrab_tracked _ (stopped_tracked s h)
  | show_break_window =>
    have l1 := call_loop s.prelude_windows Effect.start_prelude s.active_prelude_count.toNat
      s.log hi.prelude_le
    have l2 := call_loop s.break_windows Effect.start_break s.active_break_count.toNat
      (s.log ++ calls s.prelude_windows Effect.start_prelude s.active_prelude_count.toNat)
      hi.break_le
    have h2 : Tracked (started s) := by
      apply tracked_of_grabFree s (started s) h ?_ rfl
      refine ⟨calls s.prelude_windows Effect.start_prelude s.active_prelude_count.toNat ++
        calls s.break_windows Effect.start_break s.active_break_count.toNat, ?_, ?_⟩
      · show s.log ++ _ ++ _ = s.log ++ (_ ++ _)
        rw [List.append_assoc]
      · intro e he
        rcases List.mem_append.mp he with h1 | h1
        · exact calls_grabFree s.prelude_windows Effect.start_prelude _ (fun _ => rfl) e h1
        · exact calls_grabFree s.break_windows Effect.start_break _ (fun _ => rfl) e h1
    have hr1 : (if env.block_mode ≠ BlockMode.BLOCK_MODE_NONE then
        (grab env (started s)).bind fun r => some r.2 else some (started s)) = some s1 := by
      simp only [exec, show_break_window, l1, l2, Option.bind] at hr
      exact hr
    split at hr1
    · cases hg : grab env (started s) with
      | none => simp [hg] at hr1
      | some r =>
        simp only [hg, Option.bind] at hr1
        cases hr1
        exact grab_tracked env _ r h2 hg
    · cases hr1
      exact h2
  | collect_garbage =>
    simp only [exec, collect_garbage_eq s hi.prelude_le hi.break_le] at hr
    cases hr
    exact collected_tracked s h
  | grab => exact exec_grab_op_tracked env Op.grab s s1 rfl h hr
  | ungrab => exact exec_grab_op_tracked env Op.ungrab s s1 rfl h hr
  | interrupt_grab => exact exec_grab_op_tracked env Op.interrupt_grab s s1 rfl h hr
  | grab_retry_timer t => exact exec_grab_op_tracked env (Op.grab_retry_timer t) s s1 rfl h hr

theorem callback_tracked (env : Env) (cb : Callback) (s s1 : GUI) (hi : Inv s) (h : Tracked s)
    (hr : callback env cb s = some s1) : Tracked s1 := by
  cases cb with
  | set_muted => exact exec_tracked_basic env Op.set_muted s s1 (by simp) hi h hr
  | create_prelude_window break_id =>
    exact exec_tracked_basic env (Op.create_prelude_window break_id) s s1 (by simp) hi h hr
  | create_break_window break_id break_hint =>
    exact exec_tracked_basic env (Op.create_break_window break_id break_hint) s s1 (by simp)
      hi h hr
  | hide_break_window => exact exec_tracked_basic env Op.hide_break_window s s1 (by simp) hi h hr
  | show_break_window => exact exec_tracked_basic env Op.show_break_window s s1 (by simp) hi h hr

theorem core_heartbeat_tracked (env : Env) (cbs : List Callback) (s s1 : GUI) (hi : Inv s)
    (h : Tracked s) (hr : core_heartbeat env cbs s = some s1) : Tracked s1 := by
  induction cbs generalizing s with
  | nil =>
    simp only [core_heartbeat] at hr
    cases hr
    exact h
  | cons cb rest ih =>
    simp only [core_heartbeat] at hr
    cases hc : callback env cb s with
    | none => rw [hc] at hr; cases hr
    | some s2 =>
      rw [hc] at hr
      exact ih s2 (callback_inv env cb s s2 hi hc) (callback_tracked env cb s s2 hi h hc) hr

theorem exec_tracked (env : Env) (op : Op) (s s1 : GUI) (hi : Inv s) (h : Tracked s)
    (hr : exec env op s = some s1) : Tracked s1 := by
  by_cases hop : op = Op.on_timer
  · subst hop
    simp only [exec] at hr
    cases ht : on_timer env s with
    | none => rw [ht] at hr; cases hr
    | some r =>
      rw [ht] at hr
      simp only [Option.bind, Option.some.injEq] at hr
      obtain ⟨s0, h0, i0, _, _, hc⟩ := on_timer_cases env s r hi ht
      have h2 := collected_tracked s0 (core_heartbeat_tracked env env.callbacks s s0 hi h h0)
      rw [← hr]
      rcases hc with hc | hc
      · rw [hc]; exact h2
      · rw [hc]
        exact tracked_of_grabFree (collected s0) _ h2
          ⟨[Effect.restore_mute], rfl, by simp [is_grab_effect]⟩ rfl
  · exact exec_tracked_basic env op s s1 hop hi h hr

theorem reachable_tracked (s : GUI) (h : Reachable s) : Tracked s := by
  induction h with
  | initial => rfl
  | step env op s s1 hs he ih => exact exec_tracked env op s s1 (reachable_inv s hs) ih he

/-! ## The fallback head -/

/-- C5 (amended): when the display reports no screens and the head count is
still -1, `init_multihead()` leaves a head list of exactly one head with
`valid == false`, `count == 0` and the geometry
`(0, 0, gdk_screen_width, gdk_screen_height)`. -/
theorem init_multihead_fallback (env : Env) (s : GUI) (hs : env.screens = [])
    (hn : s.num_heads = -1) :
    ∃ s1 hd, init_multihead env s = some s1 ∧ s1.num_heads = 1 ∧ head_list s1 = [hd] ∧
      hd.valid = false ∧ hd.count = 0 ∧
      hd.geometry = { x := 0, y := 0, width := env.gdk_screen_width,
                      height := env.gdk_screen_height } := by
  have e1 := init_gtk_multihead_none env s hs
  have e2 := init_multihead_mem_realloc env s 1 (by omega) (by rw [hn]; simp)
    (by rw [hn]; simp) (Or.inl (by omega))
  obtain ⟨l, w, ht, e3, _⟩ := init_multihead_desktop_eq env (fallback_state env s)
    (by simp [fallback_state, alen])
  refine ⟨{ fallback_state env s with
            log := (fallback_state env s).log ++ l, screen_width := w, screen_height := ht },
    fallback_head env env.new_head, ?_, rfl, rfl, rfl, rfl, rfl⟩
  unfold init_multihead
  rw [e1]
  simp only [Option.bind]
  rw [if_pos hn, e2]
  simp only [Int.toNat_one, List.replicate_one, read, write, Option.bind,
    List.getElem?_cons_zero, List.length_singleton, Nat.lt_one_iff, if_true,
    List.set_cons_zero]
  exact e3

/-- C5 (counterexample): from the constructed state a display of one screen
without monitors leaves an empty head list (`num_heads == 0`), and after two
monitors were enumerated a display without screens leaves the two real heads
in place; neither leaves the single synthetic head. -/
theorem init_multihead_without_fallback :
    (∃ s, init_multihead (example_env [some []] none) GUI.initial = some s ∧
      s.num_heads = 0 ∧ head_list s = []) ∧
    (∃ s, run scenario_screens_lost GUI.initial = some s ∧ s.num_heads = 2 ∧
      head_list s = [head_of 0 (Monitor.mk 0 0 (example_rect 0)),
                     head_of 1 (Monitor.mk 0 1 (example_rect 100))]) :=
  ⟨⟨_, rfl, rfl, rfl⟩, ⟨_, rfl, rfl, rfl⟩⟩

/-- C5 (witness): from the constructed state and a display without screens. -/
theorem init_multihead_fallback_witness :
    ∃ s1 hd, init_multihead (example_env [] none) GUI.initial = some s1 ∧ s1.num_heads = 1 ∧
      head_list s1 = [hd] ∧ hd.valid = false ∧ hd.count = 0 ∧
      hd.geometry = { x := 0, y := 0, width := 800, height := 600 } :=
  init_multihead_fallback (example_env [] none) GUI.initial rfl rfl

/-! ## Array length and head count -/

/-- C4 (failing input): two monitors with the same rectangle.  After
`init_multihead()` the head count is 1 and both window arrays have length 2.
The next resize takes the head count for the array length: with break windows
on three heads, an enumeration of three monitors of which two overlap and
then one of a single monitor destroys the window of slot 1 and drops the
window of slot 2 without destroying it. -/
theorem init_multihead_overlap_length :
    (∃ s, init_multihead (example_env (example_screens [0, 0]) none) GUI.initial = some s ∧
      s.num_heads = 1 ∧ s.prelude_windows = some [none, none] ∧
      s.break_windows = some [none, none]) ∧
    (∃ s, run scenario_shrink GUI.initial = some s ∧
      s.break_windows = some [some 0] ∧ Effect.delete_break 1 ∈ s.log ∧
      Effect.delete_break 2 ∉ s.log) :=
  ⟨⟨_, rfl, rfl, rfl, rfl⟩, ⟨_, rfl, rfl, by decide, by decide⟩⟩

/-! ## The claims about `grab` and `ungrab` -/

/-- C7 (amended): in every state with `active_break_count == 0`, `grab()`
returns whether a grab handle is held and leaves the whole state, the effect
log and the timers included, unchanged. -/
theorem grab_without_active_break (env : Env) (s : GUI) (h : s.active_break_count = 0) :
    grab env s = some (decide (s.grab_handle ≠ none), s) :=
  grab_idle env s (by rw [h]; simp)

/-- C7 (witness): the constructed state has no active break and no handle. -/
theorem grab_without_active_break_witness :
    GUI.initial.active_break_count = 0 ∧
      grab (example_env [] none) GUI.initial = some (false, GUI.initial) :=
  ⟨rfl, grab_without_active_break (example_env [] none) GUI.initial rfl⟩

/-- C7 (counterexample): a rest break is shown on one head and the grab is
held, then the display is re-enumerated with one screen without monitors.
The state is reachable, `active_break_count == 0`, and `grab()` returns true.
The same holds after a break was hidden and shown again and the next tick
collected its windows. -/
theorem idle_grab_returns_true :
    (∃ s, run scenario_no_monitors GUI.initial = some s ∧
      Reachable s ∧ s.active_break_count = 0 ∧ s.grab_handle = some 7 ∧
      grab (example_env [some []] none) s = some (true, s)) ∧
    (∃ s, run scenario_hide_show GUI.initial = some s ∧
      Reachable s ∧ s.active_break_count = 0 ∧ s.grab_handle = some 7 ∧
      grab (example_env (example_screens [0]) none) s = some (true, s)) :=
  ⟨⟨_, rfl, reachable_run scenario_no_monitors _ _ Reachable.initial rfl, rfl, rfl, rfl⟩,
   ⟨_, rfl, reachable_run scenario_hide_show _ _ Reachable.initial rfl, rfl, rfl, rfl⟩⟩

/-- C8 (failing input): a rest break is shown on one head with the grab held,
`interrupt_grab()` releases it and arms a retry timer without storing the
connection, and the next `grab()` fails.  Before that `grab()` one retry
timer is pending; the call returns false, sets `grab_wanted` and arms a
second timer. -/
theorem grab_after_interrupt_two_timers :
    ∃ s r, run scenario_interrupted GUI.initial = some s ∧
      Reachable s ∧ s.active_break_count = 1 ∧ s.grab_handle = none ∧ s.timers = [0] ∧
      grab (example_env (example_screens [0]) none) s = some r ∧
      r.1 = false ∧ r.2.grab_wanted = true ∧ r.2.timers = [0, 1] :=
  ⟨_, _, rfl, reachable_run scenario_interrupted _ _ Reachable.initial rfl, rfl, rfl, rfl,
    rfl, rfl, rfl, rfl⟩

/-- C10 (amended): after `ungrab()`, `grab_wanted` is false and no handle is
held; when no handle was held nothing else changes (a pending retry timer
stays scheduled); when a handle was held it is released once, as the last
effect, and the timer of `grab_retry_connection` is disconnected;
`ungrab(); ungrab()` gives the state of a single `ungrab()`, log included;
and a retry timer left scheduled removes itself when it runs. -/
theorem ungrab_effect (s : GUI) :
    (ungrab s).grab_wanted = false ∧ (ungrab s).grab_handle = none ∧
    (s.grab_handle = none → ungrab s = { s with grab_wanted := false }) ∧
    (∀ g, s.grab_handle = some g →
      connected (ungrab s) = false ∧
      ∃ l, (ungrab s).log = s.log ++ l ++ [Effect.release g] ∧
        ∀ e ∈ l, ∀ g1, e ≠ Effect.release g1) ∧
    ungrab (ungrab s) = ungrab s ∧
    (∀ env t, t ∈ (ungrab s).timers →
      fire_grab_retry_timer env t (ungrab s) =
        some { ungrab s with timers := (ungrab s).timers.filter fun x => decide (x ≠ t) }) := by
  have hw : (ungrab s).grab_wanted = false := by
    cases hg : s.grab_handle with
    | none => rw [ungrab_none s hg]
    | some g =>
      rw [ungrab_some s g hg]
      show (disconnect { s with grab_wanted := false }).grab_wanted = false
      unfold disconnect
      split
      · rfl
      · split <;> rfl
  have hh : (ungrab s).grab_handle = none := by
    cases hg : s.grab_handle with
    | none => rw [ungrab_none s hg]; exact hg
    | some g => rw [ungrab_some s g hg]
  refine ⟨hw, hh, fun hg => ungrab_none s hg, ?_, ?_, ?_⟩
  · intro g hg
    rw [ungrab_some s g hg]
    constructor
    · show connected (disconnect { s with grab_wanted := false }) = false
      unfold disconnect connected
      cases hc : s.grab_retry_connection with
      | none => simp [hc]
      | some t =>
        by_cases ht : t ∈ s.timers
        · simp [hc, ht, List.mem_filter]
        · simp [hc, ht]
    · show ∃ l, (disconnect { s with grab_wanted := false }).log ++ [Effect.release g] = _ ∧ _
      unfold disconnect
      cases hc : s.grab_retry_connection with
      | none => exact ⟨[], by simp, by simp⟩
      | some t =>
        by_cases ht : t ∈ s.timers
        · exact ⟨[Effect.timeout_disconnect t], by simp [ht], by simp⟩
        · exact ⟨[], by simp [ht], by simp⟩
  · have e := ungrab_none (ungrab s) hh
    rw [e]
    cases hs : ungrab s
    rw [hs] at hw
    simp only at hw
    simp [hw]
  · intro env t ht
    simp [fire_grab_retry_timer, ht, on_grab_retry_timer, hw]

/-- C10 (counterexample): after a failed capture no handle is held and the
retry timer 0 is pending, and it is still pending after `ungrab()`; and
after `interrupt_grab()` and a successful `grab()` a handle is held with the
timer 0 pending, and it is still pending after `ungrab()`. -/
theorem ungrab_leaves_timer :
    (∃ s, run scenario_failed_capture GUI.initial = some s ∧ Reachable s ∧
      s.grab_handle = none ∧ s.timers = [0] ∧ (ungrab s).timers = [0]) ∧
    (∃ s, run scenario_regrabbed GUI.initial = some s ∧ Reachable s ∧
      s.grab_handle = some 8 ∧ s.timers = [0] ∧ (ungrab s).timers = [0]) :=
  ⟨⟨_, rfl, reachable_run scenario_failed_capture _ _ Reachable.initial rfl, rfl, rfl, rfl⟩,
   ⟨_, rfl, reachable_run scenario_regrabbed _ _ Reachable.initial rfl, rfl, rfl, rfl⟩⟩

/-- C10 (witness): a state with handle 7 held. -/
theorem ungrab_effect_witness :
    connected (ungrab example_held) = false ∧
      ∃ l, (ungrab example_held).log = example_held.log ++ l ++ [Effect.release 7] ∧
        ∀ e ∈ l, ∀ g1, e ≠ Effect.release g1 :=
  (ungrab_effect example_held).2.2.2.1 7 rfl

/-! ## Concrete instances -/

/-- C1 (witness): a shrink from three heads to one destroys the break window of
slot 1 and the prelude window of slot 2 and keeps slot 0. -/
theorem init_multihead_mem_transition_witness :
    ∃ s1, init_multihead_mem (example_env [] none) 1 example_three_heads = some s1 ∧
      s1.prelude_windows = some [some 0] ∧ s1.break_windows = some [some 3] ∧
      s1.log = [Effect.delete_break 4, Effect.delete_prelude 2] := by
  obtain ⟨s1, pw1, bw1, deleted, h1, _⟩ :=
    init_multihead_mem_transition (example_env [] none) example_three_heads 1 (by decide)
      (Or.inr ⟨by decide, [some 0, none, some 2], [some 3, some 4, none], rfl, rfl, rfl, rfl⟩)
  have h2 : init_multihead_mem (example_env [] none) 1 example_three_heads =
      some { example_three_heads with
        heads := some [(example_env [] none).new_head],
        prelude_windows := some [some 0], break_windows := some [some 3], num_heads := 1,
        log := [Effect.delete_break 4, Effect.delete_prelude 2] } := rfl
  rw [h2] at h1
  cases h1
  exact ⟨_, h2, rfl, rfl, rfl⟩

/-- C2 (witness): the reachable state in which a rest break is shown on one
head. -/
theorem hide_then_collect_garbage_witness :
    Reachable example_shown ∧
      ∃ s1 s2, hide_break_window example_shown = some s1 ∧ collect_garbage s1 = some s2 ∧
        s2.active_break_count = 0 ∧ collect_garbage s2 = some s2 := by
  have hr : Reachable example_shown :=
    reachable_run scenario_failed_capture _ _ Reachable.initial rfl
  obtain ⟨s1, s2, _, _, h1, h2, _, _, _, _, _, _, _, _, _, h3, h4⟩ :=
    hide_then_collect_garbage example_shown hr
  exact ⟨hr, s1, s2, h1, h2, h3, h4⟩

/-- C3 (witness): a rest break created from the constructed state on a display
with two monitors. -/
theorem create_break_window_populates_witness :
    ∃ s4, create_break_window (example_env (example_screens [0, 100]) none)
        BreakId.BREAK_ID_REST_BREAK user_hint GUI.initial = some s4 ∧
      s4.active_break_count = s4.num_heads ∧
      s4.active_break_id = BreakId.BREAK_ID_REST_BREAK := by
  obtain ⟨_, _, _, _, s4, _, _, _, _, h4, _, _, h5, h6, _⟩ :=
    create_break_window_populates (example_env (example_screens [0, 100]) none) GUI.initial
      Reachable.initial BreakId.BREAK_ID_REST_BREAK user_hint (by decide)
  exact ⟨s4, h4, h5, h6⟩

/-- C6 (witness): of three monitors at offsets 0, 50 and 100 the second overlaps
the first and is skipped. -/
theorem init_gtk_multihead_filter_witness :
    ∃ s1, init_gtk_multihead (example_env (example_screens [0, 50, 100]) none) GUI.initial =
        some s1 ∧
      s1.num_heads = 2 ∧
      head_list s1 = [head_of 0 (Monitor.mk 0 0 (example_rect 0)),
                      head_of 1 (Monitor.mk 0 2 (example_rect 100))] := by
  obtain ⟨s1, h1, h2, h3, _⟩ :=
    init_gtk_multihead_filter (example_env (example_screens [0, 50, 100]) none) GUI.initial
      Reachable.initial (by simp [example_env, example_screens])
  exact ⟨s1, h1, h2.trans rfl, h3.trans rfl⟩

/-- C6 (counterexample): with no screens `init_gtk_multihead` accepts no
monitor and leaves the head count of the constructed state, -1; and of three
monitors of one screen with the same rectangle only the first is accepted, so
of the second and the third, which intersect, none is. -/
theorem init_gtk_multihead_no_screens :
    (init_gtk_multihead (example_env [] none) GUI.initial = some GUI.initial ∧
      GUI.initial.num_heads = -1 ∧ accepted (all_monitors []) = []) ∧
    (∃ s, init_gtk_multihead (example_env (example_screens [0, 0, 0]) none) GUI.initial =
        some s ∧
      head_list s = [head_of 0 (Monitor.mk 0 0 (example_rect 0))] ∧
      (example_rect 0).intersect (example_rect 0) = true) :=
  ⟨⟨rfl, rfl, rfl⟩, ⟨_, rfl, rfl, rfl⟩⟩

/-! ## Interrupting the grab -/

/-- C11: in every state in which a grab handle `g` is held, `interrupt_grab()`
releases `g` (the only capture or release it makes) and leaves no handle held
and `grab_wanted` true, and afterwards a retry timer is pending: the one that
was connected before, or else a newly armed one; the window arrays, the head
count and the active counts are untouched.  In every state in which no handle
is held `interrupt_grab()` changes nothing. -/
theorem interrupt_grab_effect (s : GUI) :
    (∀ g, s.grab_handle = some g →
      (interrupt_grab s).grab_handle = none ∧ (interrupt_grab s).grab_wanted = true ∧
      (∃ l, (interrupt_grab s).log = s.log ++ Effect.release g :: l ∧
        ∀ e ∈ l, is_grab_effect e = false) ∧
      (∃ t, t ∈ (interrupt_grab s).timers) ∧
      (connected s = true → (interrupt_grab s).timers = s.timers) ∧
      (connected s = false → (interrupt_grab s).timers = s.timers ++ [s.next_timer] ∧
        Effect.timeout_connect s.next_timer ∈ (interrupt_grab s).log) ∧
      ArrayFrame s (interrupt_grab s)) ∧
    (s.grab_handle = none → interrupt_grab s = s) := by
  refine ⟨?_, interrupt_grab_none s⟩
  intro g hg
  have he := interrupt_grab_some s g hg
  refine ⟨?_, ?_, ?_, ?_, ?_, ?_, interrupt_grab_arrayFrame s⟩
  · rw [he]; split <;> rfl
  · rw [he]; split <;> rfl
  · rw [he]
    split
    · exact ⟨[Effect.timeout_connect s.next_timer], rfl, by simp [is_grab_effect]⟩
    · exact ⟨[], rfl, by simp⟩
  · rw [he]
    by_cases hc : connected s = false
    · rw [if_pos hc]
      exact ⟨s.next_timer, by simp⟩
    · rw [if_neg hc]
      have hc1 : connected s = true := by simpa using hc
      unfold connected at hc1
      cases hr : s.grab_retry_connection with
      | none => rw [hr] at hc1; exact absurd hc1 (by simp)
      | some t =>
        rw [hr] at hc1
        exact ⟨t, by simpa using hc1⟩
  · intro hc
    rw [he, if_neg (by simp [hc])]
  · intro hc
    rw [he, if_pos hc]
    exact ⟨rfl, by simp⟩

/-- C11 (witness): a state with handle 7 held and no timer pending. -/
theorem interrupt_grab_effect_witness :
    (interrupt_grab example_held).grab_handle = none ∧
      (interrupt_grab example_held).grab_wanted = true ∧
      (interrupt_grab example_held).timers = [0] :=
  ⟨((interrupt_grab_effect example_held).1 7 rfl).1,
   ((interrupt_grab_effect example_held).1 7 rfl).2.1,
   (((interrupt_grab_effect example_held).1 7 rfl).2.2.2.2.2.1 rfl).1⟩

/-! ## The retry timer callback -/

theorem grab_flag (env : Env) (s : GUI) (r : Bool × GUI) (h : grab env s = some r) :
    r.1 = decide (r.2.grab_handle ≠ none) := by
  unfold grab at h
  simp only [Option.bind_eq_some] at h
  obtain ⟨s3, _, h3⟩ := h
  cases h3
  rfl

theorem grab_defined (env : Env) (s : GUI) (hp : Populated s) : ∃ r, grab env s = some r := by
  by_cases h : s.break_windows ≠ none ∧ s.active_break_count > 0
  · have hl := grab_loop s.break_windows s.active_break_count.toNat hp
    cases hg : s.grab_handle with
    | some g => exact ⟨_, grab_held env s _ g h hl hg⟩
    | none =>
      cases hr : env.grab_result with
      | some g => exact ⟨_, grab_acquire env s _ g h hl hg hr⟩
      | none => exact ⟨_, grab_fail env s _ h hl hg hr⟩
  · exact ⟨_, grab_idle env s h⟩

theorem grab_log_of_held (env : Env) (s : GUI) (r : Bool × GUI) (g : Grab)
    (hg : s.grab_handle = some g) (h : grab env s = some r) :
    r.2.log = s.log ∧ r.2.grab_handle = some g := by
  by_cases hc : s.break_windows ≠ none ∧ s.active_break_count > 0
  · cases hl : for_loop (grab_body s.break_windows) s.active_break_count.toNat [] with
    | none => rw [grab_fault env s hc hl] at h; cases h
    | some ws =>
      rw [grab_held env s ws g hc hl hg] at h
      cases h
      exact ⟨rfl, hg⟩
  · rw [grab_idle env s hc] at h
    cases h
    exact ⟨rfl, hg⟩

theorem on_grab_retry_timer_of_populated (env : Env) (s : GUI)
    (hp : s.grab_wanted = true → Populated s) :
    ∃ b s1, on_grab_retry_timer env s = some (b, s1) ∧
      (b = false ↔ (s.grab_wanted = false ∨ s1.grab_handle ≠ none)) ∧
      (s.grab_wanted = false → s1 = s) ∧
      (s.grab_wanted = true → grab env s = some (!b, s1)) ∧
      (s.grab_wanted = true → s1.grab_handle = none → b = true) ∧
      (∀ g, s.grab_handle = some g → s1.log = s.log ∧ s1.grab_handle = some g ∧ b = false) := by
  cases hw : s.grab_wanted with
  | false =>
    have he : on_grab_retry_timer env s = some (false, s) := by
      unfold on_grab_retry_timer
      rw [hw]
      rfl
    refine ⟨false, s, he, ?_, fun _ => rfl, ?_, ?_, ?_⟩
    · simp
    · intro h; cases h
    · intro h; cases h
    · intro g hg; exact ⟨rfl, hg, rfl⟩
  | true =>
    obtain ⟨r, hr⟩ := grab_defined env s (hp hw)
    have hf := grab_flag env s r hr
    have he : on_grab_retry_timer env s = some (!r.1, r.2) := by
      unfold on_grab_retry_timer
      rw [hw, hr]
      rfl
    refine ⟨!r.1, r.2, he, ?_, ?_, ?_, ?_, ?_⟩
    · rw [hf]
      cases r.2.grab_handle <;> simp
    · intro h; cases h
    · intro _
      rw [hr]
      simp
    · intro _ hn
      rw [hf, hn]
      rfl
    · intro g hg
      obtain ⟨h1, h2⟩ := grab_log_of_held env s r g hg hr
      refine ⟨h1, h2, ?_⟩
      rw [hf, h2]
      rfl

/-! ## The flags of a break window -/

/-- C13: for every break kind, every hint and every configuration, the flag
set computed by `create_break_window` has POSTPONABLE set iff the hint is
user-initiated or natural or the break is configured ignorable, SKIPPABLE set
iff the break is configured skippable, USER_INITIATED set iff the hint is
user-initiated, and NO_EXERCISES and NATURAL set iff the hint is natural.  In
particular a user-initiated break is postponable and user-initiated, and
skippable iff so configured, and a natural break is postponable whatever the
configuration says. -/
theorem break_flags_spec (env : Env) (break_id : BreakId) (break_hint : BreakHint) :
    ((break_flags env break_id break_hint).postponable =
      (break_hint.user_initiated || break_hint.natural_break ||
        env.break_ignorable break_id)) ∧
    (break_flags env break_id break_hint).skippable = env.break_skippable break_id ∧
    (break_flags env break_id break_hint).user_initiated = break_hint.user_initiated ∧
    (break_flags env break_id break_hint).no_exercises = break_hint.natural_break ∧
    (break_flags env break_id break_hint).natural = break_hint.natural_break ∧
    (break_flags env break_id
        { user_initiated := true, natural_break := break_hint.natural_break }).postponable
      = true ∧
    (break_flags env break_id
        { user_initiated := true, natural_break := break_hint.natural_break }).user_initiated
      = true ∧
    (break_flags env break_id
        { user_initiated := break_hint.user_initiated, natural_break := true }).postponable
      = true := by
  unfold break_flags BREAK_FLAGS_NONE
  cases break_hint.user_initiated <;> cases break_hint.natural_break <;>
    cases env.break_ignorable break_id <;> cases env.break_skippable break_id <;> simp

/-! ## Hiding the break windows -/

theorem calls_mem (arr : Option (List (Option Win))) (mk : Win → Effect) (n i w : Nat)
    (hi : i < n) (hs : slot arr i = some w) : mk w ∈ calls arr mk n := by
  simp only [calls, List.mem_flatMap, List.mem_range]
  exact ⟨i, hi, by simp [hs]⟩

theorem ungrab_released (s : GUI) :
    (ungrab s).grab_handle = none ∧ (ungrab s).grab_wanted = false := by
  cases hg : s.grab_handle with
  | none => rw [ungrab_none s hg]; exact ⟨hg, rfl⟩
  | some g =>
    rw [ungrab_some s g hg]
    refine ⟨rfl, ?_⟩
    show (disconnect { s with grab_wanted := false }).grab_wanted = false
    unfold disconnect
    split
    · rfl
    · split <;> rfl

/-- C14: in every state whose active counts lie within the window arrays (as
they do in every reachable state), `hide_break_window()` returns; it makes no
destructor call and leaves every prelude slot, every break slot, both active
counts and the head list unchanged; afterwards `active_break_id` is
BREAK_ID_NONE, the prelude (break) destroy flag is set when
`active_prelude_count` (`active_break_count`) is positive and unchanged
otherwise, `stop()` has been called on the window of every populated slot
below the corresponding active count, no grab handle is held and
`grab_wanted` is false. -/
theorem hide_break_window_effect (s : GUI)
    (hp : s.active_prelude_count.toNat ≤ alen s.prelude_windows)
    (hb : s.active_break_count.toNat ≤ alen s.break_windows) :
    ∃ s1 l, hide_break_window s = some s1 ∧
      s1.prelude_windows = s.prelude_windows ∧ s1.break_windows = s.break_windows ∧
      s1.active_prelude_count = s.active_prelude_count ∧
      s1.active_break_count = s.active_break_count ∧
      s1.heads = s.heads ∧ s1.num_heads = s.num_heads ∧
      s1.active_break_id = BreakId.BREAK_ID_NONE ∧
      s1.prelude_window_destroy =
        (if s.active_prelude_count > 0 then true else s.prelude_window_destroy) ∧
      s1.break_window_destroy =
        (if s.active_break_count > 0 then true else s.break_window_destroy) ∧
      s1.log = s.log ++ l ∧ (∀ e ∈ l, is_delete e = false) ∧
      (∀ i w : Nat, (i : Int) < s.active_prelude_count → slot s.prelude_windows i = some w →
        Effect.stop_prelude w ∈ l) ∧
      (∀ i w : Nat, (i : Int) < s.active_break_count → slot s.break_windows i = some w →
        Effect.stop_break w ∈ l) ∧
      s1.grab_handle = none ∧ s1.grab_wanted = false := by
  have he := hide_break_window_eq s hp hb
  have hf := ungrab_arrayFrame (stopped s)
  obtain ⟨l, hl, hd⟩ := ungrab_log (stopped s)
  have hr := ungrab_released (stopped s)
  refine ⟨ungrab (stopped s),
    calls s.prelude_windows Effect.stop_prelude s.active_prelude_count.toNat ++
      calls s.break_windows Effect.stop_break s.active_break_count.toNat ++ l,
    he, hf.prelude_windows, hf.break_windows, hf.active_prelude_count, hf.active_break_count,
    hf.heads, hf.num_heads, hf.active_break_id, hf.prelude_window_destroy,
    hf.break_window_destroy, ?_, ?_, ?_, ?_, hr.1, hr.2⟩
  · rw [hl]
    show (s.log ++ _ ++ _) ++ l = _
    simp only [List.append_assoc]
  · intro e hm
    rcases List.mem_append.mp hm with hm | hm
    · rcases List.mem_append.mp hm with hm | hm
      · exact calls_not_delete _ Effect.stop_prelude _ (fun _ => rfl) e hm
      · exact calls_not_delete _ Effect.stop_break _ (fun _ => rfl) e hm
    · exact hd e hm
  · intro i w hi hs
    exact List.mem_append_left _ (List.mem_append_left _
      (calls_mem _ _ _ i w (Int.lt_toNat.mpr hi) hs))
  · intro i w hi hs
    exact List.mem_append_left _ (List.mem_append_right _
      (calls_mem _ _ _ i w (Int.lt_toNat.mpr hi) hs))

/-- C14 (witness): the state with one head whose break window is shown with
the grab held. -/
theorem hide_break_window_effect_witness :
    ∃ s1, hide_break_window example_held = some s1 ∧
      s1.break_windows = some [some 0] ∧ s1.active_break_count = 1 ∧
      s1.break_window_destroy = true ∧ s1.grab_handle = none ∧ s1.grab_wanted = false := by
  obtain ⟨s1, l, h1, _, h2, _, h3, _, _, _, _, h4, _, _, _, _, h5, h6⟩ :=
    hide_break_window_effect example_held (by decide) (by decide)
  exact ⟨s1, h1, h2, h3, h4, h5, h6⟩

/-! ## Keeping a window on its head -/

theorem bound_left_proj (h : HeadInfo) (b : Bound) :
    (bound_left h b).x = (if b.x < - h.get_width then 0 else b.x) ∧
      (bound_left h b).y = b.y ∧ (bound_left h b).head = b.head := by
  unfold bound_left
  split <;> exact ⟨rfl, rfl, rfl⟩

theorem bound_top_proj (h : HeadInfo) (b : Bound) :
    (bound_top h b).y = (if b.y < - h.get_height then 0 else b.y) ∧
      (bound_top h b).x = b.x ∧ (bound_top h b).head = b.head := by
  unfold bound_top
  split <;> exact ⟨rfl, rfl, rfl⟩

theorem bound_gap_x_proj (b : Bound) :
    (bound_gap_x b).x = (if b.x > -10 ∧ b.x < 0 then -10 else b.x) ∧
      (bound_gap_x b).y = b.y ∧ (bound_gap_x b).head = b.head := by
  unfold bound_gap_x
  split <;> exact ⟨rfl, rfl, rfl⟩

theorem bound_gap_y_proj (b : Bound) :
    (bound_gap_y b).y = (if b.y > -10 ∧ b.y < 0 then -10 else b.y) ∧
      (bound_gap_y b).x = b.x ∧ (bound_gap_y b).head = b.head := by
  unfold bound_gap_y
  split <;> exact ⟨rfl, rfl, rfl⟩

theorem bound_right_proj (h : HeadInfo) (width : Int) (b : Bound) :
    (bound_right h width b).x =
        (if b.x + width ≥ h.get_width then h.get_width - width - 10 else b.x) ∧
      (bound_right h width b).y = b.y ∧ (bound_right h width b).head = b.head := by
  unfold bound_right
  split <;> exact ⟨rfl, rfl, rfl⟩

theorem bound_bottom_proj (h : HeadInfo) (height : Int) (b : Bound) :
    (bound_bottom h height b).y =
        (if b.y + height ≥ h.get_height then h.get_height - height - 10 else b.y) ∧
      (bound_bottom h height b).x = b.x ∧ (bound_bottom h height b).head = b.head := by
  unfold bound_bottom
  split <;> exact ⟨rfl, rfl, rfl⟩

theorem bound_head_axes (s : GUI) (x y width height head : Int) (h : HeadInfo)
    (hh : get_head s (if head ≥ s.num_heads then 0 else head) = some h) :
    ∃ b, bound_head s x y width height head = some b ∧
      b.x = bound_axis x width h.get_width ∧ b.y = bound_axis y height h.get_height ∧
      b.head = (if head ≥ s.num_heads then 0 else head) := by
  have he : bound_head s x y width height head =
      some (bound_bottom h height (bound_right h width (bound_gap_y (bound_gap_x
        (bound_top h (bound_left h
          { ret := false, x := x, y := y,
            head := if head ≥ s.num_heads then 0 else head })))))) := by
    unfold bound_head
    simp only [hh, Option.bind]
  refine ⟨_, he, ?_, ?_, ?_⟩
  · rw [(bound_bottom_proj _ _ _).2.1, (bound_right_proj _ _ _).1, (bound_gap_y_proj _).2.1,
      (bound_gap_x_proj _).1, (bound_top_proj _ _).2.1, (bound_left_proj _ _).1]
    rfl
  · rw [(bound_bottom_proj _ _ _).1, (bound_right_proj _ _ _).2.1, (bound_gap_y_proj _).1,
      (bound_gap_x_proj _).2.1, (bound_top_proj _ _).1, (bound_left_proj _ _).2.1]
    rfl
  · rw [(bound_bottom_proj _ _ _).2.2, (bound_right_proj _ _ _).2.2, (bound_gap_y_proj _).2.2,
      (bound_gap_x_proj _).2.2, (bound_top_proj _ _).2.2, (bound_left_proj _ _).2.2]

theorem bound_axis_gap (pos size extent : Int) :
    (-10 < bound_axis pos size extent ∧ bound_axis pos size extent < 0) ↔
      (bound_axis pos size extent = extent - size - 10 ∧ size < extent ∧ extent < size + 10 ∧
        (if pos < - extent then 0 else pos) + size ≥ extent) := by
  unfold bound_axis
  simp only []
  split_ifs <;> constructor <;> intro hyp <;> omega

/-- C18 (failing input): on a head of width 100 and height 100, a window of
width 95 at `x = 10` reaches over the right edge and `bound_head` moves it to
`x = 100 - 95 - 10 = -5`, inside the interval (-10, 0) that the earlier test
had excluded; likewise a window of height 95 at `y = 10` is moved to
`y = -5`.  In general `bound_head` returns for every head index that
`get_head` can resolve, and its `x` (`y`) lies in (-10, 0) only as the result
of that last adjustment, for a window less than 10 narrower (lower) than the
head; for every other window size the result is outside the interval. -/
theorem bound_head_gap :
    (∃ s, run scenario_one_head GUI.initial = some s ∧ Reachable s ∧
      (get_head s 0).map HeadInfo.geometry = some (example_rect 0) ∧
      bound_head s 10 10 95 50 0 = some { ret := true, x := -5, y := 10, head := 0 } ∧
      bound_head s 10 10 50 95 0 = some { ret := true, x := 10, y := -5, head := 0 }) ∧
    (∀ (s : GUI) (x y width height head : Int) (h : HeadInfo),
      get_head s (if head ≥ s.num_heads then 0 else head) = some h →
      ∃ b, bound_head s x y width height head = some b ∧
        ((-10 < b.x ∧ b.x < 0) ↔
          (b.x = h.get_width - width - 10 ∧ width < h.get_width ∧ h.get_width < width + 10 ∧
            (if x < - h.get_width then 0 else x) + width ≥ h.get_width)) ∧
        ((-10 < b.y ∧ b.y < 0) ↔
          (b.y = h.get_height - height - 10 ∧ height < h.get_height ∧
            h.get_height < height + 10 ∧
            (if y < - h.get_height then 0 else y) + height ≥ h.get_height))) := by
  refine ⟨⟨_, rfl, reachable_run scenario_one_head _ _ Reachable.initial rfl, rfl, rfl, rfl⟩, ?_⟩
  intro s x y width height head h hh
  obtain ⟨b, hb, hx, hy, _⟩ := bound_head_axes s x y width height head h hh
  refine ⟨b, hb, ?_, ?_⟩
  · rw [hx]; exact bound_axis_gap x width h.get_width
  · rw [hy]; exact bound_axis_gap y height h.get_height

/-- C18 (witness): on the head of width 100, a window of width 50 at
`x = -5` is moved to `x = -10`, outside the interval. -/
theorem bound_head_gap_witness :
    ∃ b, bound_head
        { GUI.initial with
          heads := some [head_of 0 (Monitor.mk 0 0 (example_rect 0))], num_heads := 1 }
        (-5) 10 50 50 0 = some b ∧ ¬ (-10 < b.x ∧ b.x < 0) := by
  obtain ⟨b, hb, hx, _⟩ :=
    bound_head_gap.2
      { GUI.initial with
        heads := some [head_of 0 (Monitor.mk 0 0 (example_rect 0))], num_heads := 1 }
      (-5) 10 50 50 0 (head_of 0 (Monitor.mk 0 0 (example_rect 0))) rfl
  refine ⟨b, hb, fun hg => ?_⟩
  have h2 := (hx.mp hg).2.2.1
  revert h2
  decide

/-! ## Head-relative coordinates -/

theorem map_to_head_loop (heads : Option (List HeadInfo)) (x y : Int) (n : Nat)
    (hn : n ≤ alen heads) :
    ∃ st, for_loop (map_to_head_body heads) n { x := x, y := y, head := -1, done := false } =
        some st ∧
      ((st = { x := x, y := y, head := -1, done := false } ∧
          ∀ (i : Nat) (h : HeadInfo), i < n → read heads i = some h → ¬ inside h x y) ∨
        ∃ (k : Nat) (h : HeadInfo), k < n ∧ read heads k = some h ∧ inside h x y ∧
          (∀ (i : Nat) (h1 : HeadInfo), i < k → read heads i = some h1 → ¬ inside h1 x y) ∧
          st = { x := relative x h.get_x h.get_width, y := relative y h.get_y h.get_height,
                 head := (k : Int), done := true }) := by
  induction n with
  | zero =>
    exact ⟨_, rfl, Or.inl ⟨rfl, fun i h hi => absurd hi (Nat.not_lt_zero i)⟩⟩
  | succ n ih =>
    obtain ⟨st, hst, hcase⟩ := ih (by omega)
    obtain ⟨h, hr⟩ := read_of_lt heads n (by omega)
    rcases hcase with ⟨he, hall⟩ | ⟨k, hk, hlt, hrk, hin, hfirst, he⟩
    · by_cases hi : inside h x y
      · refine ⟨{ x := relative x h.get_x h.get_width, y := relative y h.get_y h.get_height,
                  head := (n : Int), done := true }, ?_, Or.inr ⟨n, h, by omega, hr, hi, hall, rfl⟩⟩
        show (for_loop (map_to_head_body heads) n _).bind (map_to_head_body heads n) = _
        rw [hst, he]
        have hi1 := hi
        unfold inside at hi1
        simp only [Option.bind, map_to_head_body, hr, Bool.false_eq_true, if_false]
        rw [if_pos hi1]
        rfl
      · refine ⟨{ x := x, y := y, head := -1, done := false }, ?_, Or.inl ⟨rfl, ?_⟩⟩
        · show (for_loop (map_to_head_body heads) n _).bind (map_to_head_body heads n) = _
          rw [hst, he]
          have hi1 := hi
          unfold inside at hi1
          simp only [Option.bind, map_to_head_body, hr, Bool.false_eq_true, if_false]
          rw [if_neg hi1]
        · intro i h1 hlt hr1
          by_cases hin : i < n
          · exact hall i h1 hin hr1
          · have : i = n := by omega
            subst this
            rw [hr] at hr1
            cases hr1
            exact hi
    · refine ⟨st, ?_, Or.inr ⟨k, hk, by omega, hrk, hin, hfirst, he⟩⟩
      show (for_loop (map_to_head_body heads) n _).bind (map_to_head_body heads n) = _
      rw [hst, he]
      rfl

theorem relative_inverse (pos origin extent : Int) (h1 : pos ≥ origin)
    (h2 : pos < origin + extent) :
    (if relative pos origin extent < 0 then relative pos origin extent + extent
      else relative pos origin extent) + origin = pos := by
  unfold relative
  generalize Int.tdiv extent 2 = half
  split_ifs <;> omega

/-- C19: for every head list that lies within the head array and every point
`(x, y)` inside the rectangle of at least one head, `map_to_head(x, y)`
returns the index `k` of the first head that contains the point, with
`0 ≤ k < num_heads`, and rewrites the point to the coordinates relative to
that head; `map_from_head` applied to the rewritten point and `k` returns
and yields exactly `(x, y)`. -/
theorem map_from_head_inverts_map_to_head (s : GUI) (x y : Int)
    (hl : s.num_heads.toNat ≤ alen s.heads)
    (hin : ∃ (i : Nat) (h : HeadInfo), (i : Int) < s.num_heads ∧ read s.heads i = some h ∧
      inside h x y) :
    ∃ (k : Nat) (hk : HeadInfo) (x1 y1 : Int),
      map_to_head s x y = some ((k : Int), x1, y1) ∧
      0 ≤ (k : Int) ∧ (k : Int) < s.num_heads ∧
      read s.heads k = some hk ∧ inside hk x y ∧
      (∀ (i : Nat) (h1 : HeadInfo), i < k → read s.heads i = some h1 → ¬ inside h1 x y) ∧
      x1 = relative x hk.get_x hk.get_width ∧ y1 = relative y hk.get_y hk.get_height ∧
      map_from_head s x1 y1 (k : Int) = some (x, y) := by
  obtain ⟨i, h, hi, hr, hins⟩ := hin
  obtain ⟨st, hst, hcase⟩ := map_to_head_loop s.heads x y s.num_heads.toNat hl
  rcases hcase with ⟨_, hall⟩ | ⟨k, hk, hlt, hrk, hink, hfirst, he⟩
  · exact absurd hins (hall i h (Int.lt_toNat.mpr hi) hr)
  · have hkn : (k : Int) < s.num_heads := Int.lt_toNat.mp hlt
    have hto : map_to_head s x y =
        some ((k : Int), relative x hk.get_x hk.get_width,
          relative y hk.get_y hk.get_height) := by
      unfold map_to_head
      rw [hst, he]
      simp only [Option.bind]
      rw [if_neg (by omega)]
    have hg : get_head s (k : Int) = some hk := by
      unfold get_head
      simp only []
      rw [if_pos hkn, if_neg (by omega), Int.toNat_ofNat]
      exact hrk
    refine ⟨k, hk, _, _, hto, by omega, hkn, hrk, hink, hfirst, rfl, rfl, ?_⟩
    unfold map_from_head
    rw [hg]
    simp only [Option.bind]
    unfold inside at hink
    rw [relative_inverse x hk.get_x hk.get_width hink.1 hink.2.2.1,
      relative_inverse y hk.get_y hk.get_height hink.2.1 hink.2.2.2]

/-- C19 (witness): on two heads of width 100 side by side, the point (170, 10)
lies on head 1 and is mapped to (-30, 10) and back. -/
theorem map_from_head_inverts_map_to_head_witness :
    ∃ (k : Nat) (x1 y1 : Int),
      map_to_head
        { GUI.initial with
          heads := some [head_of 0 (Monitor.mk 0 0 (example_rect 0)),
                         head_of 1 (Monitor.mk 0 1 (example_rect 100))],
          num_heads := 2 } 170 10 = some ((k : Int), x1, y1) ∧
      map_from_head
        { GUI.initial with
          heads := some [head_of 0 (Monitor.mk 0 0 (example_rect 0)),
                         head_of 1 (Monitor.mk 0 1 (example_rect 100))],
          num_heads := 2 } x1 y1 (k : Int) = some (170, 10) := by
  obtain ⟨k, _, x1, y1, h1, _, _, _, _, _, _, _, h2⟩ :=
    map_from_head_inverts_map_to_head
      { GUI.initial with
        heads := some [head_of 0 (Monitor.mk 0 0 (example_rect 0)),
                       head_of 1 (Monitor.mk 0 1 (example_rect 100))],
        num_heads := 2 } 170 10 (by decide)
      ⟨1, head_of 1 (Monitor.mk 0 1 (example_rect 100)), by decide, rfl, by
        unfold inside; decide⟩
  exact ⟨k, x1, y1, h1, h2⟩

/-! ## Re-enumeration with fewer monitors -/

theorem foldl_accept_of_pairwise (l acc : List Monitor)
    (h : (acc ++ l).Pairwise fun a b => a.screen = b.screen → b.rect.intersect a.rect = false) :
    l.foldl accept_step acc = acc ++ l := by
  induction l generalizing acc with
  | nil => simp
  | cons m t ih =>
    have hno : overlaps acc m = false := by
      rw [overlaps_false_iff]
      intro a ha hs
      rw [List.pairwise_append] at h
      exact h.2.2 a ha m (List.mem_cons_self m t) hs
    have hstep : accept_step acc m = acc ++ [m] := by
      unfold accept_step
      rw [hno]
      rfl
    rw [List.foldl_cons, hstep, ih (acc ++ [m]) (by simpa using h)]
    simp

theorem accepted_of_pairwise (ms : List Monitor)
    (h : ms.Pairwise fun a b => a.screen = b.screen → b.rect.intersect a.rect = false) :
    accepted ms = ms := by
  unfold accepted
  rw [foldl_accept_of_pairwise ms [] (by simpa using h)]
  rfl

theorem init_multihead_desktop_log (env : Env) (s : GUI)
    (h : s.num_heads.toNat ≤ alen s.heads) :
    ∃ l w ht, init_multihead_desktop env s =
      some { s with log := s.log ++ l, screen_width := w, screen_height := ht } ∧
      ∀ e ∈ l, is_delete e = false := by
  obtain ⟨st, e⟩ := desktop_loop env s s.num_heads.toNat h
    { width := 0, height := 0, done := false }
  simp only [init_multihead_desktop, e, Option.bind]
  by_cases hc : s.screen_width ≠ st.width ∨ s.screen_height ≠ st.height
  · by_cases hm : s.main_window = true
    · refine ⟨[Effect.relocate_window st.width st.height], st.width, st.height, ?_, ?_⟩
      · simp only [hc, if_true, hm]
      · intro e he
        simp only [List.mem_singleton] at he
        subst he
        rfl
    · refine ⟨[], st.width, st.height, ?_, by simp⟩
      simp only [hc, if_true, hm, List.append_nil]
      rfl
  · refine ⟨[], s.screen_width, s.screen_height, ?_, by simp⟩
    simp only [hc, if_false, List.append_nil]

theorem init_multihead_eq (env : Env) (s : GUI) (hi : Inv s) (hne : env.screens ≠ []) :
    ∃ s1 hs l w ht, init_multihead_mem env (count_monitors env.screens) s = some s1 ∧
      init_multihead env s = some { s1 with
        heads := some hs,
        num_heads := ((accepted (all_monitors env.screens)).length : Int),
        log := s1.log ++ l, screen_width := w, screen_height := ht } ∧
      (∀ e ∈ l, is_delete e = false) ∧
      (∀ k : Nat, ∀ h : k < (accepted (all_monitors env.screens)).length,
        hs[k]? = some (head_of k ((accepted (all_monitors env.screens)).get ⟨k, h⟩))) := by
  obtain ⟨s1, hs, e1, e2, i1, l1, hm⟩ := init_gtk_multihead_eq env s hi hne
  have hM : 0 ≤ count_monitors env.screens := by
    rw [count_monitors_eq]; omega
  obtain ⟨s1', e1', _, n1, l2, _, _⟩ := init_multihead_mem_inv env s _ hM hi
  rw [e1] at e1'
  cases e1'
  have hA : (accepted (all_monitors env.screens)).length ≤ hs.length := by
    have h1 := accepted_length_le (all_monitors env.screens)
    rw [count_monitors_eq] at l2
    simp only [Int.toNat_ofNat] at l2
    omega
  obtain ⟨l, w, ht, e4, hl⟩ := init_multihead_desktop_log env
    { s1 with heads := some hs,
              num_heads := ((accepted (all_monitors env.screens)).length : Int) }
    (by simpa [alen] using hA)
  refine ⟨s1, hs, l, w, ht, e1, ?_, hl, hm⟩
  unfold init_multihead
  rw [e2]
  simp only [Option.bind]
  rw [if_neg (by omega)]
  exact e4

theorem count_of_not_delete (l : List Effect) (e : Effect) (hl : ∀ a ∈ l, is_delete a = false)
    (he : is_delete e = true) : l.count e = 0 := by
  apply List.count_eq_zero_of_not_mem
  intro hm
  rw [hl e hm] at he
  cases he

/-- C15: for every `N > M ≥ 1` and every state that satisfies the memory
invariant of reachable states, has head count `N` and
`active_break_count == N`: when the display is re-enumerated (`init_multihead`)
with `M` monitors of which no two on one screen overlap, the call returns,
the head count is `M` with one head per monitor, the window arrays have
length `M`, the slots below `M` hold what they held before, the window of
every populated slot `M ≤ i < N` is destroyed during the call exactly once
and is in no slot afterwards, no window of a slot below `M` is destroyed,
`active_break_count == M`, and `active_prelude_count` is reduced to `M` if it
exceeded `M`. -/
theorem init_multihead_shrink (env : Env) (s : GUI) (N M : Nat) (hi : Inv s)
    (hM : 1 ≤ M) (hNM : M < N)
    (hn : s.num_heads = (N : Int)) (ha : s.active_break_count = (N : Int))
    (hc : (all_monitors env.screens).length = M)
    (hpw : (all_monitors env.screens).Pairwise
      fun a b => a.screen = b.screen → b.rect.intersect a.rect = false) :
    ∃ s1 deleted l, init_multihead env s = some s1 ∧
      s1.num_heads = (M : Int) ∧
      head_list s1 = List.mapIdx head_of (all_monitors env.screens) ∧
      alen s1.prelude_windows = M ∧ alen s1.break_windows = M ∧
      (∀ i : Nat, i < M →
        read s1.break_windows i = read s.break_windows i ∧
        read s1.prelude_windows i = read s.prelude_windows i) ∧
      s1.log = s.log ++ deleted ++ l ∧ (∀ e ∈ l, is_delete e = false) ∧
      deleted = destroyed s.prelude_windows s.break_windows M N ∧
      (∀ i w : Nat, M ≤ i → i < N → slot s.break_windows i = some w →
        (deleted ++ l).count (Effect.delete_break w) = 1 ∧
        ∀ j : Nat, slot s1.break_windows j ≠ some w) ∧
      (∀ i w : Nat, M ≤ i → i < N → slot s.prelude_windows i = some w →
        (deleted ++ l).count (Effect.delete_prelude w) = 1 ∧
        ∀ j : Nat, slot s1.prelude_windows j ≠ some w) ∧
      (∀ i w : Nat, i < M → slot s.break_windows i = some w →
        (deleted ++ l).count (Effect.delete_break w) = 0) ∧
      (∀ i w : Nat, i < M → slot s.prelude_windows i = some w →
        (deleted ++ l).count (Effect.delete_prelude w) = 0) ∧
      s1.active_break_count = (M : Int) ∧
      s1.active_prelude_count =
        (if s.active_prelude_count > (M : Int) then (M : Int) else s.active_prelude_count) := by
  have hne : env.screens ≠ [] := by
    intro h0
    rw [h0] at hc
    have : all_monitors ([] : List (Option (List Rect))) = [] := rfl
    rw [this] at hc
    simp at hc
    omega
  have hacc := accepted_of_pairwise _ hpw
  have hcm : count_monitors env.screens = (M : Int) := by
    rw [count_monitors_eq, hc]
  have hN : s.num_heads.toNat = N := by rw [hn]; rfl
  have hp : s.num_heads.toNat ≤ alen s.prelude_windows := hi.num_le
  have hb : s.num_heads.toNat ≤ alen s.break_windows := by rw [hi.break_len]; exact hi.num_le
  obtain ⟨s1, hs, l, w, ht, e1, e2, hl, hm⟩ := init_multihead_eq env s hi hne
  rw [hcm, init_multihead_mem_realloc env s M (by omega) hp hb (Or.inl (by omega))] at e1
  cases e1
  rw [hacc, hc] at e2
  rw [hN] at e2
  rw [hacc] at hm
  have hsb : ∀ j : Nat, slot (some (resized s.break_windows N M)) j =
      if j < M ∧ j < N then slot s.break_windows j else none := fun j => slot_resized _ _ _ _
  have hsp : ∀ j : Nat, slot (some (resized s.prelude_windows N M)) j =
      if j < M ∧ j < N then slot s.prelude_windows j else none := fun j => slot_resized _ _ _ _
  refine ⟨_, destroyed s.prelude_windows s.break_windows M N, l, e2, rfl, ?_, ?_, ?_, ?_, ?_, hl,
    rfl, ?_, ?_, ?_, ?_, ?_, rfl⟩
  · apply head_list_eq _ hs (all_monitors env.screens) rfl
    · show ((M : Nat) : Int) = _
      rw [hc]
    · exact hm
  · show alen (some (resized s.prelude_windows N M)) = M
    simp [alen, resized_length]
  · show alen (some (resized s.break_windows N M)) = M
    simp [alen, resized_length]
  · intro i hlt
    constructor
    · show read (some (resized s.break_windows N M)) i = _
      rw [read_resized _ _ _ _ hlt, if_pos (by omega), read_slot _ _ (by omega)]
    · show read (some (resized s.prelude_windows N M)) i = _
      rw [read_resized _ _ _ _ hlt, if_pos (by omega), read_slot _ _ (by omega)]
  · show s.log ++ destroyed s.prelude_windows s.break_windows M N ++ l = _
    rfl
  · intro i w0 h1 h2 hs0
    constructor
    · rw [List.count_append, count_destroyed_break _ _ M N i w0 hi.break_inj hs0,
        if_pos ⟨h1, h2⟩, count_of_not_delete l (Effect.delete_break w0) hl rfl]
    · intro j hj
      have hj1 : slot (some (resized s.break_windows N M)) j = some w0 := hj
      rw [hsb j] at hj1
      split at hj1
      · rename_i hlt
        have := hi.break_inj i j w0 hs0 hj1
        omega
      · cases hj1
  · intro i w0 h1 h2 hs0
    constructor
    · rw [List.count_append, count_destroyed_prelude _ _ M N i w0 hi.prelude_inj hs0,
        if_pos ⟨h1, h2⟩, count_of_not_delete l (Effect.delete_prelude w0) hl rfl]
    · intro j hj
      have hj1 : slot (some (resized s.prelude_windows N M)) j = some w0 := hj
      rw [hsp j] at hj1
      split at hj1
      · rename_i hlt
        have := hi.prelude_inj i j w0 hs0 hj1
        omega
      · cases hj1
  · intro i w0 h1 hs0
    rw [List.count_append, count_destroyed_break _ _ M N i w0 hi.break_inj hs0,
      if_neg (by omega), count_of_not_delete l (Effect.delete_break w0) hl rfl]
  · intro i w0 h1 hs0
    rw [List.count_append, count_destroyed_prelude _ _ M N i w0 hi.prelude_inj hs0,
      if_neg (by omega), count_of_not_delete l (Effect.delete_prelude w0) hl rfl]
  · show (if s.active_break_count > (M : Int) then (M : Int) else s.active_break_count) = _
    rw [if_pos (by omega)]

/-- C15 (witness): a rest break is shown on three heads and the display is
re-enumerated with one monitor: slot 0 keeps its window, the windows of slots
1 and 2 are destroyed once each, and `active_break_count` is 1. -/
theorem init_multihead_shrink_witness :
    ∃ s1 deleted l,
      init_multihead (example_env (example_screens [0]) none) example_three_shown = some s1 ∧
      s1.num_heads = 1 ∧ read s1.break_windows 0 = some (some 0) ∧
      s1.log = example_three_shown.log ++ deleted ++ l ∧
      (deleted ++ l).count (Effect.delete_break 1) = 1 ∧
      (deleted ++ l).count (Effect.delete_break 2) = 1 ∧
      (deleted ++ l).count (Effect.delete_break 0) = 0 ∧
      s1.active_break_count = 1 := by
  obtain ⟨s1, deleted, l, h1, h2, _, _, _, h3, h4, _, _, h5, _, h6, _, h7, _⟩ :=
    init_multihead_shrink (example_env (example_screens [0]) none) example_three_shown 3 1
      (reachable_inv _ (reachable_run scenario_three_shown _ _ Reachable.initial rfl))
      (by decide) (by decide) rfl rfl rfl (by decide)
  exact ⟨s1, deleted, l, h1, h2, (h3 0 (by decide)).1.trans rfl, h4,
    (h5 1 1 (by decide) (by decide) rfl).1, (h5 2 2 (by decide) (by decide) rfl).1,
    h6 0 0 (by decide) rfl, h7⟩

/-! ## Prelude windows and break windows exclude each other -/

theorem exclusive_of_arrayFrame (s s1 : GUI) (hx : Exclusive s) (hf : ArrayFrame s s1) :
    Exclusive s1 := by
  unfold Exclusive
  rw [hf.active_prelude_count, hf.active_break_count]
  exact hx

theorem exclusive_collected (s : GUI) (hx : Exclusive s) : Exclusive (collected s) := by
  unfold Exclusive
  show (if s.prelude_window_destroy then 0 else s.active_prelude_count) = 0 ∨
    (if s.break_window_destroy then 0 else s.active_break_count) = 0
  rcases hx with h | h
  · left; split
    · rfl
    · exact h
  · right; split
    · rfl
    · exact h

theorem exec_exclusive_basic (env : Env) (op : Op) (s s1 : GUI) (hop : op ≠ Op.on_timer)
    (hi : Inv s) (hx : Exclusive s) (h : exec env op s = some s1) : Exclusive s1 := by
  cases op with
  | init_gui =>
    simp only [exec] at h
    cases h
    exact hx
  | init_multihead =>
    obtain ⟨s2, e, i2, _, c1, c2, _⟩ := init_multihead_inv env s hi
    simp only [exec, e] at h
    cases h
    have h1 := i2.prelude_nonneg
    have h2 := i2.break_nonneg
    rcases hx with h0 | h0
    · left; omega
    · right; omega
  | on_timer => exact absurd rfl hop
  | set_muted =>
    simp only [exec] at h
    cases h
    exact hx
  | create_prelude_window break_id =>
    obtain ⟨s2, _, i2, f2, _, _, e⟩ := create_prelude_window_eq env break_id s hi
    simp only [exec, e] at h
    cases h
    exact Or.inr (collected_empty s2 i2 f2).2.1
  | create_break_window break_id break_hint =>
    simp only [exec] at h
    cases hk : window_kind break_id with
    | some kind =>
      obtain ⟨s2, _, i2, f2, _, _, e⟩ :=
        create_break_window_eq env break_id break_hint kind hk s hi
      rw [e] at h
      cases h
      exact Or.inl (collected_empty s2 i2 f2).1
    | none =>
      obtain ⟨s2, e1, e2, e3, i2, f2, fr, n2⟩ := create_preamble env s hi
      have hz := (collected_empty s2 i2 f2).1
      simp only [create_break_window, e1, e2, e3, Option.bind] at h
      cases hn : (collected s2).num_heads.toNat with
      | zero =>
        rw [hn] at h
        simp only [for_loop] at h
        cases h
        exact Or.inl hz
      | succ k =>
        rw [hn, create_break_loop_fault env _ break_id hk] at h
        cases h
  | hide_break_window =>
    obtain ⟨e, _, _⟩ := hide_break_window_inv s hi
    simp only [exec, e] at h
    cases h
    exact exclusive_of_arrayFrame (stopped s) _ hx (ungrab_arrayFrame (stopped s))
  | show_break_window =>
    exact exclusive_of_arrayFrame s s1 hx (show_break_window_arrayFrame env s s1 h)
  | collect_garbage =>
    simp only [exec, collect_garbage_eq s hi.prelude_le hi.break_le] at h
    cases h
    exact exclusive_collected s hx
  | grab =>
    simp only [exec] at h
    cases hg : grab env s with
    | none => simp [hg] at h
    | some r =>
      simp only [hg, Option.bind] at h
      cases h
      exact exclusive_of_arrayFrame s r.2 hx (grab_arrayFrame env s r hg)
  | ungrab =>
    simp only [exec] at h
    cases h
    exact exclusive_of_arrayFrame s _ hx (ungrab_arrayFrame s)
  | interrupt_grab =>
    simp only [exec] at h
    cases h
    exact exclusive_of_arrayFrame s _ hx (interrupt_grab_arrayFrame s)
  | grab_retry_timer t =>
    exact exclusive_of_arrayFrame s s1 hx (fire_grab_retry_timer_arrayFrame env t s s1 h)

theorem callback_exclusive (env : Env) (cb : Callback) (s s1 : GUI) (hi : Inv s)
    (hx : Exclusive s) (h : callback env cb s = some s1) : Exclusive s1 := by
  cases cb with
  | set_muted => exact exec_exclusive_basic env Op.set_muted s s1 (by simp) hi hx h
  | create_prelude_window break_id =>
    exact exec_exclusive_basic env (Op.create_prelude_window break_id) s s1 (by simp) hi hx h
  | create_break_window break_id break_hint =>
    exact exec_exclusive_basic env (Op.create_break_window break_id break_hint) s s1 (by simp)
      hi hx h
  | hide_break_window =>
    exact exec_exclusive_basic env Op.hide_break_window s s1 (by simp) hi hx h
  | show_break_window =>
    exact exec_exclusive_basic env Op.show_break_window s s1 (by simp) hi hx h

theorem core_heartbeat_exclusive (env : Env) (cbs : List Callback) (s s1 : GUI) (hi : Inv s)
    (hx : Exclusive s) (h : core_heartbeat env cbs s = some s1) : Exclusive s1 := by
  induction cbs generalizing s with
  | nil =>
    simp only [core_heartbeat] at h
    cases h
    exact hx
  | cons cb rest ih =>
    simp only [core_heartbeat] at h
    cases hc : callback env cb s with
    | none => rw [hc] at h; cases h
    | some s2 =>
      rw [hc] at h
      exact ih s2 (callback_inv env cb s s2 hi hc) (callback_exclusive env cb s s2 hi hx hc) h

theorem exec_exclusive (env : Env) (op : Op) (s s1 : GUI) (hi : Inv s) (hx : Exclusive s)
    (h : exec env op s = some s1) : Exclusive s1 := by
  by_cases hop : op = Op.on_timer
  · subst hop
    simp only [exec] at h
    cases ht : on_timer env s with
    | none => rw [ht] at h; cases h
    | some r =>
      rw [ht] at h
      simp only [Option.bind, Option.some.injEq] at h
      obtain ⟨s0, h0, i0, _, _, hc⟩ := on_timer_cases env s r hi ht
      have x2 := exclusive_collected s0
        (core_heartbeat_exclusive env env.callbacks s s0 hi hx h0)
      rw [← h]
      rcases hc with hc | hc
      · rw [hc]; exact x2
      · rw [hc]; exact x2
  · exact exec_exclusive_basic env op s s1 hop hi hx h

theorem reachable_exclusive (s : GUI) (h : Reachable s) : Exclusive s := by
  induction h with
  | initial => exact Or.inl rfl
  | step env op s s1 hr he ih => exact exec_exclusive env op s s1 (reachable_inv s hr) ih he

theorem new_preludes_mem (heads : Option (List HeadInfo)) (break_id : BreakId) (nw n i : Nat)
    (hi : i < n) (hd : HeadInfo) (hr : read heads i = some hd) :
    Effect.new_prelude (nw + i) hd break_id ∈ new_preludes heads break_id nw n := by
  simp only [new_preludes, List.mem_flatMap, List.mem_range]
  exact ⟨i, hi, by simp [hr]⟩

/-- C16: from every reachable state and for every break id,
`create_prelude_window(break_id)` returns; with `num_heads` the head count
after its re-enumeration, `active_break_id == break_id`, the prelude slots
`0 .. num_heads-1` hold the windows constructed by this call (windows that
were in no slot before), every other prelude slot is empty,
`active_prelude_count == num_heads`, `active_break_count == 0` and every break
slot is empty.  Symmetrically, `create_break_window` returns for each of the
three break kinds, and whenever it returns `active_break_count == num_heads`,
`active_prelude_count == 0` and every prelude slot is empty.  And in every
reachable state at most one of `active_prelude_count` and
`active_break_count` is non-zero. -/
theorem create_window_exclusive (env : Env) (s : GUI) (h : Reachable s) :
    (∀ break_id : BreakId, ∃ s1 s2 s3 s4,
      hide_break_window s = some s1 ∧ init_multihead env s1 = some s2 ∧
      collect_garbage s2 = some s3 ∧ create_prelude_window env break_id s = some s4 ∧
      s4.num_heads = s2.num_heads ∧ 0 ≤ s4.num_heads ∧
      s4.active_break_id = break_id ∧ s4.active_prelude_count = s4.num_heads ∧
      (∀ i : Nat, (i : Int) < s4.num_heads →
        read s4.prelude_windows i = some (some (s.next_win + i)) ∧
        ∃ hd, read s4.heads i = some hd ∧
          Effect.new_prelude (s.next_win + i) hd break_id ∈
            new_preludes s3.heads break_id s.next_win s4.num_heads.toNat) ∧
      (∀ i : Nat, s4.num_heads ≤ (i : Int) → slot s4.prelude_windows i = none) ∧
      s4.log = s3.log ++ new_preludes s3.heads break_id s.next_win s4.num_heads.toNat ∧
      s4.active_break_count = 0 ∧ (∀ i : Nat, slot s4.break_windows i = none)) ∧
    (∀ (break_id : BreakId) (break_hint : BreakHint), break_id ≠ BreakId.BREAK_ID_NONE →
      ∃ s4, create_break_window env break_id break_hint s = some s4) ∧
    (∀ (break_id : BreakId) (break_hint : BreakHint) (s4 : GUI),
      create_break_window env break_id break_hint s = some s4 →
        s4.active_break_id = break_id ∧ s4.active_break_count = s4.num_heads ∧
        s4.active_prelude_count = 0 ∧ (∀ i : Nat, slot s4.prelude_windows i = none)) ∧
    (∀ i w : Nat, slot s.prelude_windows i = some w ∨ slot s.break_windows i = some w →
      w < s.next_win) ∧
    (s.active_prelude_count = 0 ∨ s.active_break_count = 0) := by
  have hi := reachable_inv s h
  refine ⟨?_, ?_, ?_, ?_, reachable_exclusive s h⟩
  · intro break_id
    obtain ⟨s2, e2, i2, f2, fr, n2, e4⟩ := create_prelude_window_eq env break_id s hi
    obtain ⟨e1, i1, _⟩ := hide_break_window_inv s hi
    have e3 := collect_garbage_eq s2 i2.prelude_le i2.break_le
    have i3 := inv_collected s2 i2
    have hz := collected_empty s2 i2 f2
    have hnw : (collected s2).next_win = s.next_win := by
      show s2.next_win = s.next_win
      rw [fr.next_win, (ungrab_arrayFrame (stopped s)).next_win]
      rfl
    have hslot : ∀ i : Nat,
        slot (prelude_created break_id (collected s2)).prelude_windows i =
          if i < (collected s2).num_heads.toNat then some (s.next_win + i) else none := by
      intro i
      show slot ((collected s2).prelude_windows.map _) i = _
      rw [slot_filled _ _ _ _ i3.num_le, hnw, hz.2.2.1 i]
    refine ⟨ungrab (stopped s), s2, collected s2, prelude_created break_id (collected s2),
      e1, e2, e3, e4, rfl, n2, rfl, rfl, ?_, ?_, ?_, hz.2.1, hz.2.2.2⟩
    · intro i hlt
      have hlt1 : i < (collected s2).num_heads.toNat := Int.lt_toNat.mpr hlt
      have hlen : alen (prelude_created break_id (collected s2)).prelude_windows
          = alen (collected s2).prelude_windows :=
        alen_map _ _ (fun l => filled_length l _ _)
      constructor
      · rw [read_slot _ _ (by rw [hlen]; have := i3.num_le; omega), hslot i, if_pos hlt1]
      · obtain ⟨hd, hr⟩ := read_of_lt (collected s2).heads i
          (by rw [i3.heads_len]; have := i3.num_le; omega)
        exact ⟨hd, hr, new_preludes_mem _ _ s.next_win _ i hlt1 hd hr⟩
    · intro i hle
      have hle1 : ¬ i < (collected s2).num_heads.toNat := by
        intro hc
        have := Int.lt_toNat.mp hc
        have h5 : (prelude_created break_id (collected s2)).num_heads =
            (collected s2).num_heads := rfl
        omega
      rw [hslot i, if_neg hle1]
    · show (collected s2).log ++ new_preludes (collected s2).heads break_id
        (collected s2).next_win (collected s2).num_heads.toNat = _
      rw [hnw]
      rfl
  · intro break_id break_hint hk
    obtain ⟨kind, hkind⟩ := window_kind_of_ne break_id hk
    obtain ⟨s2, _, _, _, _, _, e4⟩ :=
      create_break_window_eq env break_id break_hint kind hkind s hi
    exact ⟨_, e4⟩
  · intro break_id break_hint s4 h4
    cases hkd : window_kind break_id with
    | some kind =>
      obtain ⟨s2, _, i2, f2, _, _, e4⟩ :=
        create_break_window_eq env break_id break_hint kind hkd s hi
      have hz := collected_empty s2 i2 f2
      rw [e4] at h4
      cases h4
      exact ⟨rfl, rfl, hz.1, hz.2.2.1⟩
    | none =>
      obtain ⟨s2, e1, e2, e3, i2, f2, _, _⟩ := create_preamble env s hi
      have hz := collected_empty s2 i2 f2
      simp only [create_break_window, e1, e2, e3, Option.bind] at h4
      cases hn : (collected s2).num_heads.toNat with
      | zero =>
        rw [hn] at h4
        simp only [for_loop] at h4
        cases h4
        exact ⟨rfl, rfl, hz.1, hz.2.2.1⟩
      | succ k =>
        rw [hn, create_break_loop_fault env _ break_id hkd] at h4
        cases h4
  · intro i w hw
    rcases hw with hw | hw
    · exact hi.prelude_fresh i w hw
    · exact hi.break_fresh i w hw

/-- C16 (witness): after a prelude and then a rest break were created on two
heads, a new prelude is created: two prelude windows, no break window. -/
theorem create_window_exclusive_witness :
    ∃ s s4, run scenario_prelude_then_break GUI.initial = some s ∧
      s.active_prelude_count = 0 ∧ s.active_break_count = 2 ∧
      create_prelude_window (example_env (example_screens [0, 100]) none)
        BreakId.BREAK_ID_MICRO_BREAK s = some s4 ∧
      s4.active_prelude_count = s4.num_heads ∧ s4.active_break_count = 0 ∧
      (s.active_prelude_count = 0 ∨ s.active_break_count = 0) := by
  obtain ⟨s, hs⟩ : ∃ s, run scenario_prelude_then_break GUI.initial = some s := ⟨_, rfl⟩
  have hr : Reachable s := reachable_run scenario_prelude_then_break _ _ Reachable.initial hs
  obtain ⟨_, _, _, s4, _, _, _, h4, _, _, _, h5, _, _, _, h6, _⟩ :=
    (create_window_exclusive (example_env (example_screens [0, 100]) none) s hr).1
      BreakId.BREAK_ID_MICRO_BREAK
  have h1 : s.active_prelude_count = 0 ∧ s.active_break_count = 2 := by
    have : run scenario_prelude_then_break GUI.initial = some
        ((run scenario_prelude_then_break GUI.initial).getD GUI.initial) := rfl
    rw [this] at hs
    cases hs
    exact ⟨rfl, rfl⟩
  exact ⟨s, s4, hs, h1.1, h1.2, h4, h5, h6,
    (create_window_exclusive (example_env (example_screens [0, 100]) none) s hr).2.2.2.2⟩

/-! ## The slots `grab` reads -/

theorem safe_of_arrayFrame (s s1 : GUI) (hk : Safe s) (hf : ArrayFrame s s1) : Safe s1 := by
  unfold Safe Populated
  rw [hf.active_break_count, hf.break_windows, hf.num_heads]
  exact hk

theorem safe_of_idle (s : GUI) (h : s.active_break_count = 0) : Safe s := by
  unfold Safe Populated
  rw [h]
  exact ⟨fun i hi => absurd hi (Nat.not_lt_zero i), Nat.zero_le _⟩

theorem safe_collected (s : GUI) (hk : Safe s) : Safe (collected s) := by
  cases hf : s.break_window_destroy with
  | true =>
    apply safe_of_idle
    show (if s.break_window_destroy then 0 else s.active_break_count) = 0
    rw [hf]
    rfl
  | false =>
    have h1 : (collected s).break_windows = s.break_windows := by
      show (if s.break_window_destroy then _ else s.break_windows) = _
      rw [hf]
      rfl
    have h2 : (collected s).active_break_count = s.active_break_count := by
      show (if s.break_window_destroy then 0 else s.active_break_count) = _
      rw [hf]
      rfl
    have h3 : (collected s).num_heads = s.num_heads := rfl
    unfold Safe Populated
    rw [h1, h2, h3]
    exact hk

theorem init_multihead_mem_safe (env : Env) (s : GUI) (M : Int) (hM : 0 ≤ M) (hi : Inv s)
    (hk : Safe s) :
    ∃ s1, init_multihead_mem env M s = some s1 ∧ Populated s1 ∧
      s1.active_break_count.toNat ≤ M.toNat := by
  by_cases h : M ≠ s.num_heads ∨ s.num_heads ≤ 0
  · have hp : s.num_heads.toNat ≤ alen s.prelude_windows := hi.num_le
    have hb : s.num_heads.toNat ≤ alen s.break_windows := by
      rw [hi.break_len]; exact hi.num_le
    refine ⟨_, init_multihead_mem_realloc env s M hM hp hb h, ?_, ?_⟩
    · intro i hlt
      have hlt1 : i < (if s.active_break_count > M then M else s.active_break_count).toNat :=
        hlt
      show (slot (some (resized s.break_windows s.num_heads.toNat M.toNat)) i).isSome = true
      have h1 : i < s.active_break_count.toNat := by
        split at hlt1 <;> omega
      have h2 : i < M.toNat := by
        split at hlt1 <;> omega
      rw [slot_resized, if_pos ⟨h2, by have := hk.2; omega⟩]
      exact hk.1 i h1
    · show (if s.active_break_count > M then M else s.active_break_count).toNat ≤ M.toNat
      split <;> omega
  · refine ⟨s, init_multihead_mem_same env s M h, hk.1, ?_⟩
    have hk2 := hk.2
    have : M = s.num_heads := by
      by_contra hne
      exact h (Or.inl hne)
    rw [this]
    exact hk2

theorem init_multihead_safe (env : Env) (s : GUI) (hi : Inv s) (hk : Safe s)
    (hno : NoOverlap env) : ∃ s1, init_multihead env s = some s1 ∧ Safe s1 := by
  by_cases hne : env.screens = []
  · have e1 := init_gtk_multihead_none env s hne
    by_cases hneg : s.num_heads = -1
    · obtain ⟨s2, e2, i2, n2, l2, nn2, _⟩ := init_multihead_mem_inv env s 1 (by omega) hi
      obtain ⟨s2', e2', p2, c2⟩ := init_multihead_mem_safe env s 1 (by omega) hi hk
      rw [e2] at e2'
      cases e2'
      cases hh : s2.heads with
      | none => exact absurd hh nn2
      | some hs =>
        have hlen : 0 < hs.length := by
          rw [hh] at l2
          simpa [alen] using l2
        have i3 : Inv { s2 with heads := some (hs.set 0 (fallback_head env hs[0])) } :=
          inv_set_heads s2 i2 (hs.set 0 (fallback_head env hs[0])) s2.num_heads
            (by simp [hh, alen]) (by rw [i2.heads_len]; exact i2.num_le) i2.num_ge
        obtain ⟨s4, e4, _, _, _, q2, _, q4, _, q6⟩ := init_multihead_desktop_inv env _ i3
        refine ⟨s4, ?_, ?_⟩
        · simp only [init_multihead, e1, Option.bind, hneg, if_true, e2, hh, read, write, hlen,
            List.getElem?_eq_getElem hlen]
          exact e4
        · unfold Safe Populated
          rw [q2, q4, q6]
          refine ⟨p2, ?_⟩
          show s2.active_break_count.toNat ≤ s2.num_heads.toNat
          rw [n2]
          exact c2
    · obtain ⟨s4, e4, _, _, _, q2, _, q4, _, q6⟩ := init_multihead_desktop_inv env s hi
      refine ⟨s4, ?_, ?_⟩
      · simp only [init_multihead, e1, Option.bind, hneg, if_false]
        exact e4
      · unfold Safe Populated
        rw [q2, q4, q6]
        exact hk
  · obtain ⟨s1, hs, l, w, ht, e1, e2, _, _⟩ := init_multihead_eq env s hi hne
    have hM : 0 ≤ count_monitors env.screens := by
      rw [count_monitors_eq]; omega
    obtain ⟨s1', e1', p1, c1⟩ := init_multihead_mem_safe env s _ hM hi hk
    rw [e1] at e1'
    cases e1'
    refine ⟨_, e2, p1, ?_⟩
    show s1.active_break_count.toNat ≤
      (((accepted (all_monitors env.screens)).length : Nat) : Int).toNat
    rw [accepted_of_pairwise _ hno]
    rw [count_monitors_eq] at c1
    exact c1

theorem safe_break_created (env : Env) (break_id : BreakId) (break_hint : BreakHint)
    (kind : WindowKind) (s : GUI) (hi : Inv s) :
    Safe (break_created env break_id break_hint kind s) := by
  refine ⟨?_, le_rfl⟩
  intro i hlt
  have hlt1 : i < s.num_heads.toNat := hlt
  show (slot (s.break_windows.map fun arr => filled arr s.next_win s.num_heads.toNat) i).isSome
    = true
  rw [slot_filled _ _ _ _ (by rw [hi.break_len]; exact hi.num_le), if_pos hlt1]
  rfl

theorem exec_safe_basic (env : Env) (op : Op) (s s1 : GUI) (hnt : op ≠ Op.on_timer)
    (hi : Inv s) (hk : Safe s)
    (hop : op = Op.init_multihead → NoOverlap env) (h : exec env op s = some s1) :
    Safe s1 := by
  cases op with
  | init_gui =>
    simp only [exec] at h
    cases h
    exact hk
  | init_multihead =>
    obtain ⟨s2, e, k2⟩ := init_multihead_safe env s hi hk (hop rfl)
    simp only [exec, e] at h
    cases h
    exact k2
  | on_timer => exact absurd rfl hnt
  | set_muted =>
    simp only [exec] at h
    cases h
    exact hk
  | create_prelude_window break_id =>
    obtain ⟨s2, _, i2, f2, _, _, e⟩ := create_prelude_window_eq env break_id s hi
    simp only [exec, e] at h
    cases h
    exact safe_of_idle _ (collected_empty s2 i2 f2).2.1
  | create_break_window break_id break_hint =>
    simp only [exec] at h
    cases hkd : window_kind break_id with
    | some kind =>
      obtain ⟨s2, _, i2, _, _, _, e⟩ :=
        create_break_window_eq env break_id break_hint kind hkd s hi
      rw [e] at h
      cases h
      exact safe_break_created env break_id break_hint kind _ (inv_collected s2 i2)
    | none =>
      obtain ⟨s2, e1, e2, e3, i2, f2, fr, n2⟩ := create_preamble env s hi
      simp only [create_break_window, e1, e2, e3, Option.bind] at h
      cases hn : (collected s2).num_heads.toNat with
      | zero =>
        rw [hn] at h
        simp only [for_loop] at h
        cases h
        refine ⟨?_, le_rfl⟩
        intro i hlt
        have hlt1 : i < (collected s2).num_heads.toNat := hlt
        omega
      | succ k =>
        rw [hn, create_break_loop_fault env _ break_id hkd] at h
        cases h
  | hide_break_window =>
    obtain ⟨e, _, _⟩ := hide_break_window_inv s hi
    simp only [exec, e] at h
    cases h
    exact safe_of_arrayFrame (stopped s) _ hk (ungrab_arrayFrame (stopped s))
  | show_break_window =>
    exact safe_of_arrayFrame s s1 hk (show_break_window_arrayFrame env s s1 h)
  | collect_garbage =>
    simp only [exec, collect_garbage_eq s hi.prelude_le hi.break_le] at h
    cases h
    exact safe_collected s hk
  | grab =>
    simp only [exec] at h
    cases hg : grab env s with
    | none => simp [hg] at h
    | some r =>
      simp only [hg, Option.bind] at h
      cases h
      exact safe_of_arrayFrame s r.2 hk (grab_arrayFrame env s r hg)
  | ungrab =>
    simp only [exec] at h
    cases h
    exact safe_of_arrayFrame s _ hk (ungrab_arrayFrame s)
  | interrupt_grab =>
    simp only [exec] at h
    cases h
    exact safe_of_arrayFrame s _ hk (interrupt_grab_arrayFrame s)
  | grab_retry_timer t =>
    exact safe_of_arrayFrame s s1 hk (fire_grab_retry_timer_arrayFrame env t s s1 h)

theorem callback_safe (env : Env) (cb : Callback) (s s1 : GUI) (hi : Inv s) (hk : Safe s)
    (h : callback env cb s = some s1) : Safe s1 := by
  cases cb with
  | set_muted =>
    exact exec_safe_basic env Op.set_muted s s1 (by simp) hi hk (fun hc => by cases hc) h
  | create_prelude_window break_id =>
    exact exec_safe_basic env (Op.create_prelude_window break_id) s s1 (by simp) hi hk
      (fun hc => by cases hc) h
  | create_break_window break_id break_hint =>
    exact exec_safe_basic env (Op.create_break_window break_id break_hint) s s1 (by simp) hi hk
      (fun hc => by cases hc) h
  | hide_break_window =>
    exact exec_safe_basic env Op.hide_break_window s s1 (by simp) hi hk
      (fun hc => by cases hc) h
  | show_break_window =>
    exact exec_safe_basic env Op.show_break_window s s1 (by simp) hi hk
      (fun hc => by cases hc) h

theorem core_heartbeat_safe (env : Env) (cbs : List Callback) (s s1 : GUI) (hi : Inv s)
    (hk : Safe s) (h : core_heartbeat env cbs s = some s1) : Safe s1 := by
  induction cbs generalizing s with
  | nil =>
    simp only [core_heartbeat] at h
    cases h
    exact hk
  | cons cb rest ih =>
    simp only [core_heartbeat] at h
    cases hc : callback env cb s with
    | none => rw [hc] at h; cases h
    | some s2 =>
      rw [hc] at h
      exact ih s2 (callback_inv env cb s s2 hi hc) (callback_safe env cb s s2 hi hk hc) h

theorem exec_safe (env : Env) (op : Op) (s s1 : GUI) (hi : Inv s) (hk : Safe s)
    (hop : op = Op.init_multihead → NoOverlap env) (h : exec env op s = some s1) :
    Safe s1 := by
  by_cases hnt : op = Op.on_timer
  · subst hnt
    simp only [exec] at h
    cases ht : on_timer env s with
    | none => rw [ht] at h; cases h
    | some r =>
      rw [ht] at h
      simp only [Option.bind, Option.some.injEq] at h
      obtain ⟨s0, h0, i0, _, _, hc⟩ := on_timer_cases env s r hi ht
      have k2 := safe_collected s0 (core_heartbeat_safe env env.callbacks s s0 hi hk h0)
      rw [← h]
      rcases hc with hc | hc
      · rw [hc]; exact k2
      · rw [hc]; exact k2
  · exact exec_safe_basic env op s s1 hnt hi hk hop h

theorem run_safe (ops : List (Env × Op)) (s s1 : GUI) (hi : Inv s) (hk : Safe s)
    (hops : ∀ p ∈ ops, p.2 = Op.init_multihead → NoOverlap p.1) (hr : run ops s = some s1) :
    Safe s1 := by
  induction ops generalizing s with
  | nil =>
    simp only [run] at hr
    cases hr
    exact hk
  | cons p rest ih =>
    obtain ⟨env, op⟩ := p
    simp only [run] at hr
    cases he : exec env op s with
    | none => rw [he] at hr; cases hr
    | some s2 =>
      rw [he] at hr
      exact ih s2 (exec_inv env op s s2 hi he)
        (exec_safe env op s s2 hi hk (hops (env, op) (List.mem_cons_self _ _)) he)
        (fun q hq => hops q (List.mem_cons_of_mem _ hq)) hr

/-- C20 (failing input): a rest break is created on two heads, the display is
re-enumerated with two monitors that have the same rectangle and then with two
separate monitors, all through the lifecycle operations.  In the state reached
the head count and `active_break_count` are 2 and break slot 1 is empty (its
window was neither kept nor destroyed), so that `grab()` dereferences a null
pointer on index 1.  What does hold in every reachable state is that
`active_break_count` is not negative and does not exceed the length of the
break array; and every slot below `active_break_count` is populated in the
states reached by operation sequences in which no call of `init_multihead`
sees two overlapping monitors on one screen. -/
theorem grab_reads_empty_slot :
    (∃ s, run scenario_empty_slot GUI.initial = some s ∧ Reachable s ∧
      (∀ p ∈ scenario_empty_slot, is_lifecycle_op p.2 = true) ∧
      s.num_heads = 2 ∧ s.active_break_count = 2 ∧
      s.break_windows = some [some 0, none] ∧ ¬ Populated s ∧
      Effect.delete_break 1 ∉ s.log ∧
      ∀ env, grab env s = none) ∧
    (∀ s, Reachable s →
      0 ≤ s.active_break_count ∧ s.active_break_count.toNat ≤ alen s.break_windows) ∧
    (∀ ops s, (∀ p ∈ ops, p.2 = Op.init_multihead → NoOverlap p.1) →
      run ops GUI.initial = some s →
      Populated s ∧ ∀ env, ∃ r, grab env s = some r) := by
  refine ⟨⟨_, rfl, reachable_run scenario_empty_slot _ _ Reachable.initial rfl, by decide,
    rfl, rfl, rfl, by unfold Populated; decide, by decide, fun _ => rfl⟩, ?_, ?_⟩
  · intro s hr
    have hi := reachable_inv s hr
    exact ⟨hi.break_nonneg, hi.break_le⟩
  · intro ops s hops hr
    have hk := run_safe ops GUI.initial s inv_initial (safe_of_idle _ rfl) hops hr
    exact ⟨hk.1, fun env => grab_defined env s hk.1⟩

/-- C20 (witness): a rest break created and shown on three heads, with no
overlapping monitors: every active slot is populated. -/
theorem grab_reads_empty_slot_witness :
    ∃ s, run scenario_three_shown GUI.initial = some s ∧ Populated s ∧
      0 ≤ s.active_break_count ∧ s.active_break_count.toNat ≤ alen s.break_windows := by
  obtain ⟨s, hs⟩ : ∃ s, run scenario_three_shown GUI.initial = some s := ⟨_, rfl⟩
  have h1 := grab_reads_empty_slot.2.2 scenario_three_shown s (by
    intro p hp
    simp only [scenario_three_shown, List.mem_cons, List.mem_singleton, List.not_mem_nil,
      or_false] at hp
    rcases hp with hp | hp <;> subst hp <;> intro hc <;> cases hc) hs
  have h2 := grab_reads_empty_slot.2.1 s
    (reachable_run scenario_three_shown _ _ Reachable.initial hs)
  exact ⟨s, hs, h1.1, h2.1, h2.2⟩

/-! ## The states of a build with `PLATFORM_OS_UNIX` -/

theorem unixReachable_reachable (s : GUI) (h : UnixReachable s) : Reachable s := by
  induction h with
  | initial => exact Reachable.initial
  | startup env s e => exact Reachable.step env Op.init_multihead GUI.initial s Reachable.initial e
  | step env op s s1 _ _ he ih => exact Reachable.step env op s s1 ih he

theorem unixReachable_safe (s : GUI) (h : UnixReachable s) : Safe s := by
  induction h with
  | initial => exact safe_of_idle _ rfl
  | startup env s e =>
    obtain ⟨s1, e1, i1, _, _, c2, _⟩ := init_multihead_inv env GUI.initial inv_initial
    rw [e] at e1
    cases e1
    have h0 : GUI.initial.active_break_count = 0 := rfl
    have h1 := i1.break_nonneg
    exact safe_of_idle s (by omega)
  | step env op s s1 hs hne he ih =>
    exact exec_safe env op s s1 (reachable_inv s (unixReachable_reachable s hs)) ih
      (fun hc => absurd hc hne) he

theorem unixReachable_run (ops : List (Env × Op)) (s s1 : GUI) (h : UnixReachable s)
    (hops : ∀ p ∈ ops, p.2 ≠ Op.init_multihead) (hr : run ops s = some s1) :
    UnixReachable s1 := by
  induction ops generalizing s with
  | nil =>
    simp only [run] at hr
    cases hr
    exact h
  | cons p rest ih =>
    obtain ⟨env, op⟩ := p
    simp only [run] at hr
    cases he : exec env op s with
    | none => rw [he] at hr; cases hr
    | some s2 =>
      rw [he] at hr
      exact ih s2
        (UnixReachable.step env op s s2 h (hops (env, op) (List.mem_cons_self _ _)) he)
        (fun q hq => hops q (List.mem_cons_of_mem _ hq)) hr

/-! ## The retry timer callback in its build -/

/-- C12: in every state of a build with `PLATFORM_OS_UNIX`, the build in which
the callback exists, `on_grab_retry_timer()` returns.  It returns false ("do
not reschedule") if and only if `grab_wanted` was false or a grab handle is
held after its `grab()` attempt.  When `grab_wanted` is false the state, and so
the effect log, is unchanged: no capture is requested.  When `grab_wanted` is
true the new state is the one `grab()` produces and the result is the negation
of the result of `grab()`; so when afterwards no handle is held the callback
returns true ("reschedule"), and when a handle was already held no capture is
requested. -/
theorem on_grab_retry_timer_result (env : Env) (s : GUI) (h : UnixReachable s) :
    ∃ b s1, on_grab_retry_timer env s = some (b, s1) ∧
      (b = false ↔ (s.grab_wanted = false ∨ s1.grab_handle ≠ none)) ∧
      (s.grab_wanted = false → s1 = s) ∧
      (s.grab_wanted = true → grab env s = some (!b, s1)) ∧
      (s.grab_wanted = true → s1.grab_handle = none → b = true) ∧
      (∀ g, s.grab_handle = some g → s1.log = s.log ∧ s1.grab_handle = some g ∧ b = false) :=
  on_grab_retry_timer_of_populated env s (fun _ => (unixReachable_safe s h).1)

/-- C12 (witness): the state in which a rest break is shown on one head and
the capture has failed; the retry succeeds with handle 7. -/
theorem on_grab_retry_timer_result_witness :
    ∃ b s1, on_grab_retry_timer (example_env (example_screens [0]) (some 7)) example_shown =
        some (b, s1) ∧
      (b = false ↔ (example_shown.grab_wanted = false ∨ s1.grab_handle ≠ none)) := by
  obtain ⟨b, s1, h1, h2, _⟩ :=
    on_grab_retry_timer_result (example_env (example_screens [0]) (some 7)) example_shown
      (unixReachable_run scenario_failed_capture GUI.initial example_shown
        UnixReachable.initial (by decide) rfl)
  exact ⟨b, s1, h1, h2⟩

/-! ## Repeated `grab()` -/

/-- C9 (failing input): with `PLATFORM_OS_WIN32`, break windows are shown on
three heads with the grab held; a display change to three monitors of which two
overlap sets the head count to 2, and the next display change to three
separate monitors empties slot 2 while `active_break_count` stays 3.  The state
is reachable, a handle is held, and `grab()` dereferences the empty slot
instead of returning true.  In every state in which a handle is held and the
slots below `active_break_count` are populated, `grab()` returns true, keeps
the handle and adds nothing to the effect log, so it requests no capture; the
slots are populated in every state of a build with `PLATFORM_OS_UNIX`, and in
every state reached by operations of which no `init_multihead` call sees two
overlapping monitors.  Every sequence of `grab`, `ungrab`, `interrupt_grab`
and retry-timer steps keeps the log well bracketed (a capture is only
requested while no handle is held, a release releases the held handle, and the
handle held at the end is `grab_handle`), and the log of every reachable state
is well bracketed. -/
theorem grab_while_held :
    (∃ s, run scenario_overlap GUI.initial = some s ∧
      Reachable s ∧ s.grab_handle = some 7 ∧ s.active_break_count = 3 ∧
      s.break_windows = some [some 0, some 1, none] ∧
      ∀ env, grab env s = none) ∧
    (∀ (env : Env) (s : GUI) (g : Grab), s.grab_handle = some g → Populated s →
      ∃ s1, grab env s = some (true, s1) ∧ s1.grab_handle = some g ∧ s1.log = s.log ∧
        s1.timers = s.timers) ∧
    (∀ s, UnixReachable s → Populated s) ∧
    (∀ ops s, (∀ p ∈ ops, p.2 = Op.init_multihead → NoOverlap p.1) →
      run ops GUI.initial = some s → Populated s) ∧
    (∀ s, Tracked s → ∀ ops s1, (∀ p ∈ ops, is_grab_op p.2 = true) → run ops s = some s1 →
      Tracked s1) ∧
    (∀ s, Reachable s → Tracked s) := by
  refine ⟨⟨_, rfl, reachable_run scenario_overlap _ _ Reachable.initial rfl, rfl, rfl, rfl,
    fun _ => rfl⟩, ?_, fun s h => (unixReachable_safe s h).1, ?_, ?_, reachable_tracked⟩
  · intro env s g hg hp
    by_cases hc : s.break_windows ≠ none ∧ s.active_break_count > 0
    · exact ⟨_, grab_held env s _ g hc (grab_loop s.break_windows _ hp) hg, hg, rfl, rfl⟩
    · refine ⟨s, ?_, hg, rfl, rfl⟩
      rw [grab_idle env s hc, hg]
      rfl
  · intro ops s hops hr
    exact (run_safe ops GUI.initial s inv_initial (safe_of_idle _ rfl) hops hr).1
  · intro s ht ops s1 hops hr
    exact run_grab_ops_tracked ops s s1 hops ht hr

/-- C9 (witness): a state with one populated break slot and handle 7 held. -/
theorem grab_while_held_witness :
    (∃ s1, grab (example_env [] (some 9)) example_held = some (true, s1) ∧
      s1.grab_handle = some 7 ∧ s1.log = example_held.log ∧
      s1.timers = example_held.timers) ∧
    Tracked (ungrab example_held) :=
  ⟨grab_while_held.2.1 (example_env [] (some 9)) example_held 7 rfl
     (by unfold Populated; decide),
   grab_while_held.2.2.2.2.1 example_held rfl
     [(example_env [] none, Op.ungrab)] (ungrab example_held) (by simp [is_grab_op]) rfl⟩

/-! ## The periodic tick -/

end Workrave
